import Mathlib

/-!
# JackTrip: the audio interface, its sample codec and packet layout

A shallow embedding of `JackAudioInterface.cpp`.

## Numbers

`sample_t` is the JACK sample type, an IEEE-754 binary32 number.  A sample is
kept as its 32-bit pattern (a natural number below `2^32`), because the 32-bit
path of the codec copies the four bytes untouched.

Every finite binary32 number is an integer multiple of `2^-149`, and so is
every intermediate `double` of the codec (a sample times `128.0`, `32768.0`
or `256.0`, a `floor`, an 8- or 16-bit integer divided by `128.0`, `256.0`
or `32768.0`).  A finite value is therefore kept as the integer `n` that
stands for `n * 2^-149`; the `double` steps are exact on these, and each step
that produces a `float` (an assignment to a `sample_t`, a difference or sum
of two `sample_t`) is rounded to binary32, to nearest, ties to even.  The sign
of zero is dropped: the codec never observes it.
-/

namespace JackTrip

/-- The number `1.0` in units of `2^-149`. -/
def one : Nat := 2 ^ 149

/-- A binary32 or binary64 value: not-a-number, an infinity, or the finite
value `n * 2^-149`. -/
inductive FVal where
  | nan : FVal
  | inf (neg : Bool) : FVal
  | fin (n : Int) : FVal
  deriving DecidableEq, Repr

/-- Number of halvings that bring `a` below `2^24` (at most `fuel`). -/
def excessAux : Nat → Nat → Nat
  | 0, _ => 0
  | fuel + 1, a => if a < 2 ^ 24 then 0 else excessAux fuel (a / 2) + 1

/-- Number of halvings that bring `a` below `2^24`: the number of low bits a
24-bit significand cannot hold. -/
def excess (a : Nat) : Nat := excessAux a a

/-- Value of a binary32 bit pattern (sign bit 31, exponent bits 30..23,
fraction bits 22..0). -/
def ofBits (w : Nat) : FVal :=
  let sign := w / 2 ^ 31 % 2
  let ex := w / 2 ^ 23 % 256
  let fr := w % 2 ^ 23
  if ex = 255 then
    if fr = 0 then FVal.inf (sign == 1) else FVal.nan
  else
    let mag : Nat := if ex = 0 then fr else (2 ^ 23 + fr) * 2 ^ (ex - 1)
    FVal.fin (if sign = 1 then -(mag : Int) else (mag : Int))

/-- Rounding of a value to binary32: to nearest, ties to even, overflow to
infinity. -/
def roundF32 : FVal → FVal
  | FVal.fin n =>
    let a := n.natAbs
    let k := excess a
    let q := a / 2 ^ k
    let r := a % 2 ^ k
    let q1 := if 2 ^ k < 2 * r ∨ (2 * r = 2 ^ k ∧ q % 2 = 1) then q + 1 else q
    let a1 := q1 * 2 ^ k
    if 2 ^ 128 * one ≤ a1 then FVal.inf (decide (n < 0))
    else FVal.fin (if n < 0 then -(a1 : Int) else (a1 : Int))
  | v => v

/-- Bit pattern of a binary32 value (of its rounding, for a value that is not
a binary32 number). -/
def toBits (v : FVal) : Nat :=
  match roundF32 v with
  | FVal.nan => 0x7FC00000
  | FVal.inf neg => (if neg then 2 ^ 31 else 0) + 0x7F800000
  | FVal.fin n =>
    let a := n.natAbs
    let s := if n < 0 then 2 ^ 31 else 0
    if a < 2 ^ 23 then s + a
    else
      let k := excess a
      s + (k + 1) * 2 ^ 23 + (a / 2 ^ k - 2 ^ 23)

/-- Product of a value and a positive power of two (exact in `double`). -/
def FVal.scale (v : FVal) (c : Nat) : FVal :=
  match v with
  | FVal.fin n => FVal.fin (n * c)
  | w => w

/-- Quotient of a value by a power of two, `c` dividing the value's count of
units at every use (exact in `double`). -/
def FVal.unscale (v : FVal) (c : Nat) : FVal :=
  match v with
  | FVal.fin n => FVal.fin (n / c)
  | w => w

/-- The function `floor` of `<cmath>`. -/
def FVal.floor (v : FVal) : FVal :=
  match v with
  | FVal.fin n => FVal.fin (n / (one : Int) * one)
  | w => w

/-- Difference of two `float`s, as a `float`. -/
def FVal.sub : FVal → FVal → FVal
  | FVal.fin a, FVal.fin b => roundF32 (FVal.fin (a - b))
  | FVal.nan, _ => FVal.nan
  | _, FVal.nan => FVal.nan
  | FVal.inf s, FVal.inf t => if s = t then FVal.nan else FVal.inf s
  | FVal.inf s, FVal.fin _ => FVal.inf s
  | FVal.fin _, FVal.inf t => FVal.inf (!t)

/-- Sum of two `float`s, as a `float`. -/
def FVal.add : FVal → FVal → FVal
  | FVal.fin a, FVal.fin b => roundF32 (FVal.fin (a + b))
  | FVal.nan, _ => FVal.nan
  | _, FVal.nan => FVal.nan
  | FVal.inf s, FVal.inf t => if s = t then FVal.inf s else FVal.nan
  | FVal.inf s, FVal.fin _ => FVal.inf s
  | FVal.fin _, FVal.inf t => FVal.inf t

/-- Conversion of an integer to `float` (exact for the 8- and 16-bit integers
of the codec). -/
def FVal.ofInt (i : Int) : FVal := roundF32 (FVal.fin (i * one))

/-- Truncating conversion of a `float` to a 32-bit integer.  C++ leaves the
conversion undefined when the truncated value does not fit the destination;
this is what x86-64 compilers emit (`cvttss2si`), which yields `-2^31` for a
value outside the 32-bit range, an infinity or a NaN. -/
def cvttss2si : FVal → Int
  | FVal.fin n =>
    let t := Int.tdiv n one
    if -2 ^ 31 ≤ t ∧ t < 2 ^ 31 then t else -2 ^ 31
  | _ => -2 ^ 31

/-- Low 8 bits of an integer, read as `int8_t`. -/
def toInt8 (i : Int) : Int := (i + 128) % 256 - 128

/-- Low 16 bits of an integer, read as `int16_t`. -/
def toInt16 (i : Int) : Int := (i + 32768) % 65536 - 32768

/-- Low 8 bits of an integer, read as `uint8_t`. -/
def toUInt8 (i : Int) : Int := i % 256

/-- The conversion `static_cast<int8_t>` of a `float`: in range it is the
truncated value, out of range the low byte of the 32-bit conversion. -/
def static_cast_int8 (v : FVal) : Int := toInt8 (cvttss2si v)

/-- The conversion `static_cast<int16_t>` of a `float`. -/
def static_cast_int16 (v : FVal) : Int := toInt16 (cvttss2si v)

/-- The conversion `static_cast<uint8_t>` of a `float`. -/
def static_cast_uint8 (v : FVal) : Int := toUInt8 (cvttss2si v)

/-- The byte of an `int8_t` or `uint8_t` in memory. -/
def byteOf (i : Int) : Nat := (i % 256).toNat

/-- The two bytes of an `int16_t` in memory (little-endian host). -/
def bytesOfInt16 (i : Int) : List Nat :=
  [(i % 65536).toNat % 256, (i % 65536).toNat / 256]

/-- The four bytes of a `sample_t` in memory (little-endian host). -/
def bytesOfSample (w : Nat) : List Nat :=
  [w % 256, w / 2 ^ 8 % 256, w / 2 ^ 16 % 256, w / 2 ^ 24 % 256]

/-- An `int8_t` read from memory; a byte past the end of the list, which C++
leaves undefined, reads `0`. -/
def int8At (p : List Nat) : Int := toInt8 (p.getD 0 0)

/-- A `uint8_t` read from memory. -/
def uint8At (p : List Nat) : Int := ((p.getD 0 0 % 256 : Nat) : Int)

/-- An `int16_t` read from memory (little-endian host). -/
def int16At (p : List Nat) : Int :=
  toInt16 ((p.getD 0 0 % 256 + 256 * (p.getD 1 0 % 256) : Nat) : Int)

/-- A `sample_t` read from memory (little-endian host). -/
def sampleAt (p : List Nat) : Nat :=
  p.getD 0 0 % 256 + 2 ^ 8 * (p.getD 1 0 % 256) + 2 ^ 16 * (p.getD 2 0 % 256)
    + 2 ^ 24 * (p.getD 3 0 % 256)

/-- Modelled from the spec: the declaration of `audioBitResolutionT` is in
`JackAudioInterface.h`, which is missing; the wire bit depths are 8, 16, 24
and 32 bits. -/
inductive audioBitResolutionT where
  | BIT8
  | BIT16
  | BIT24
  | BIT32
  deriving DecidableEq, Repr

open audioBitResolutionT

/-- Modelled from the spec: the numeric value of an `audioBitResolutionT`
(the enum's declaration is missing) is its number of bytes per sample,
`bits / 8`.  The constructor's `AudioBitResolution*8` and the byte counts of
the `memcpy` calls of each case agree with it. -/
def audioBitResolutionT.toNat : audioBitResolutionT → Nat
  | BIT8 => 1
  | BIT16 => 2
  | BIT24 => 3
  | BIT32 => 4

/-- The function `JackAudioInterface::fromSampleToBitConversion`: the bytes written at
`output` for the sample `input`. -/
def fromSampleToBitConversion (input : Nat) (targetBitResolution : audioBitResolutionT) :
    List Nat :=
  match targetBitResolution with
  | BIT8 =>
    let tmp_sample := roundF32 ((ofBits input).scale 128).floor
    let tmp_8 := static_cast_int8 tmp_sample
    [byteOf tmp_8]
  | BIT16 =>
    let tmp_sample := roundF32 ((ofBits input).scale 32768).floor
    let tmp_16 := static_cast_int16 tmp_sample
    bytesOfInt16 tmp_16
  | BIT24 =>
    let tmp_sample := roundF32 ((ofBits input).scale 32768)
    let tmp_sample16 := roundF32 tmp_sample.floor
    let tmp_16 := static_cast_int16 tmp_sample16
    let tmp_sample8 := roundF32 ((tmp_sample.sub tmp_sample16).scale 256).floor
    let tmp_u8 := static_cast_uint8 tmp_sample8
    bytesOfInt16 tmp_16 ++ [byteOf tmp_u8]
  | BIT32 => bytesOfSample input

/-- The function `JackAudioInterface::fromBitToSampleConversion`: the sample written at
`output` for the bytes at `input`. -/
def fromBitToSampleConversion (input : List Nat) (sourceBitResolution : audioBitResolutionT) :
    Nat :=
  match sourceBitResolution with
  | BIT8 =>
    let tmp_8 := int8At input
    let tmp_sample := roundF32 ((FVal.ofInt tmp_8).unscale 128)
    toBits tmp_sample
  | BIT16 =>
    let tmp_16 := int16At input
    let tmp_sample := roundF32 ((FVal.ofInt tmp_16).unscale 32768)
    toBits tmp_sample
  | BIT24 =>
    let tmp_16 := int16At input
    let tmp_u8 := uint8At (input.drop 2)
    let tmp_sample16 := FVal.ofInt tmp_16
    let tmp_sample8 := roundF32 ((FVal.ofInt tmp_u8).unscale 256)
    let tmp_sample := roundF32 ((tmp_sample16.add tmp_sample8).unscale 32768)
    toBits tmp_sample
  | BIT32 => sampleAt input

/-- The rational value of a finite sample. -/
def sampleValue (w : Nat) : Option ℚ :=
  match ofBits w with
  | FVal.fin n => some ((n : ℚ) / 2 ^ 149)
  | _ => none

/-- Sum of two `sample_t` as a bit pattern (`addss`): a NaN operand comes back
quieted, two zeros give `-0` when both are negative and `+0` otherwise, and any
other sum is rounded. -/
def sampleAdd (a b : Nat) : Nat :=
  if ofBits a = FVal.nan then a % 2 ^ 32 / 2 ^ 23 * 2 ^ 23 + (a % 2 ^ 22 + 2 ^ 22)
  else if ofBits b = FVal.nan then b % 2 ^ 32 / 2 ^ 23 * 2 ^ 23 + (b % 2 ^ 22 + 2 ^ 22)
  else if a % 2 ^ 31 = 0 ∧ b % 2 ^ 31 = 0 then
    (if a / 2 ^ 31 % 2 = 1 ∧ b / 2 ^ 31 % 2 = 1 then 2 ^ 31 else 0)
  else
    match (ofBits a).add (ofBits b) with
    | FVal.nan => 0xFFC00000
    | v => toBits v

/-- Low 32 bits of an integer, read as `int`. -/
def toInt32 (i : Int) : Int := (i + 2 ^ 31) % 2 ^ 32 - 2 ^ 31

/-- Modelled from the spec: the declaration of `samplingRateT` is in
`JackAudioInterface.h`, which is missing; the codes are the seven rates of
`sampling_rate_code` and the sentinel `UNDEF`. -/
inductive samplingRateT where
  | SR22
  | SR32
  | SR44
  | SR48
  | SR88
  | SR96
  | SR192
  | UNDEF
  deriving DecidableEq, Repr

open samplingRateT

/-- The function `JackAudioInterface::getSampleRateType`, for the rate `rate`
that `jack_get_sample_rate` reports. -/
def getSampleRateType (rate : Nat) : samplingRateT :=
  if rate = 22050 then SR22
  else if rate = 32000 then SR32
  else if rate = 44100 then SR44
  else if rate = 48000 then SR48
  else if rate = 88200 then SR88
  else if rate = 96000 then SR96
  else if rate = 19200 then SR192
  else UNDEF

/-- What the audio host answers: whether `jack_client_open` returns a client,
the period size of `jack_get_buffer_size` and the rate of
`jack_get_sample_rate` (both `uint32_t`), and the return code of
`jack_set_process_callback`. -/
structure JackHost where
  clientOpens : Bool
  bufferSize : Nat
  sampleRate : Nat
  setProcessCallbackCode : Int
  deriving Repr

/-- The data members of `JackAudioInterface` that the packet path uses.  A
packet is a list of bytes, an audio buffer a list of samples per channel. -/
structure JackAudioInterface where
  mNumInChans : Int
  mNumOutChans : Int
  mAudioBitResolution : Nat
  mBitResolutionMode : audioBitResolutionT
  mSizeInBytesPerChannel : Nat
  mNumFrames : Int
  mInputPacket : List Nat
  mOutputPacket : List Nat
  mInProcessBuffer : List (List Nat)
  mOutProcessBuffer : List (List Nat)
  deriving Repr

/-- The constructor `JackAudioInterface::JackAudioInterface`; the members it
leaves unset are empty. -/
def JackAudioInterface.new (NumInChans NumOutChans : Int)
    (AudioBitResolution : audioBitResolutionT) : JackAudioInterface :=
  { mNumInChans := NumInChans
    mNumOutChans := NumOutChans
    mAudioBitResolution := AudioBitResolution.toNat * 8
    mBitResolutionMode := AudioBitResolution
    mSizeInBytesPerChannel := 0
    mNumFrames := 0
    mInputPacket := []
    mOutputPacket := []
    mInProcessBuffer := []
    mOutProcessBuffer := [] }

/-- The function `JackAudioInterface::getBufferSizeInSamples` (a `uint32_t`). -/
def JackAudioInterface.getBufferSizeInSamples (host : JackHost) : Nat :=
  host.bufferSize % 2 ^ 32

/-- The function `JackAudioInterface::getSizeInBytesPerChannel`: the product
of a `uint32_t` and an `int` is an unsigned 32-bit product. -/
def JackAudioInterface.getSizeInBytesPerChannel (self : JackAudioInterface) (host : JackHost) :
    Nat :=
  JackAudioInterface.getBufferSizeInSamples host * self.mAudioBitResolution % 2 ^ 32 / 8

/-- The expression `new int8_t[n]` for an `int` count `n`: for elements of one
byte g++ passes the count, converted to `size_t`, to `operator new[]`, which
cannot allocate the size a negative count becomes and throws
`std::bad_alloc`. -/
def newArray (n : Int) : Except String (List Nat) :=
  if n < 0 then Except.error "std::bad_alloc" else Except.ok (List.replicate n.toNat 0)

/-- One zeroed process buffer of `nframes` samples per channel; for the
four-byte `sample_t` a negative count fails the size check of `new[]`. -/
def newProcessBuffers (chans nframes : Int) : Except String (List (List Nat)) :=
  if 0 < chans ∧ nframes < 0 then Except.error "std::bad_array_new_length"
  else Except.ok (List.replicate chans.toNat (List.replicate nframes.toNat 0))

/-- The function `JackAudioInterface::setupClient`: the error it throws, or
the object with its packets and process buffers allocated (port registration
is left out of the record). -/
def JackAudioInterface.setupClient (self : JackAudioInterface) (host : JackHost) :
    Except String JackAudioInterface :=
  if host.clientOpens = false then
    Except.error "Maybe the JACK server is not running?"
  else
    let mSizeInBytesPerChannel := self.getSizeInBytesPerChannel host
    let size_input := toInt32 (mSizeInBytesPerChannel * self.mNumInChans)
    let size_output := toInt32 (mSizeInBytesPerChannel * self.mNumOutChans)
    match newArray size_input, newArray size_output with
    | Except.error e, _ => Except.error e
    | _, Except.error e => Except.error e
    | Except.ok mInputPacket, Except.ok mOutputPacket =>
      let mNumFrames := toInt32 (JackAudioInterface.getBufferSizeInSamples host)
      let nframes := toInt32 (JackAudioInterface.getBufferSizeInSamples host)
      match newProcessBuffers self.mNumInChans nframes,
          newProcessBuffers self.mNumOutChans nframes with
      | Except.error e, _ => Except.error e
      | _, Except.error e => Except.error e
      | Except.ok mInProcessBuffer, Except.ok mOutProcessBuffer =>
        Except.ok
          { self with
            mSizeInBytesPerChannel := mSizeInBytesPerChannel
            mNumFrames := mNumFrames
            mInputPacket := mInputPacket
            mOutputPacket := mOutputPacket
            mInProcessBuffer := mInProcessBuffer
            mOutProcessBuffer := mOutProcessBuffer }

/-- The byte offset `(i*mSizeInBytesPerChannel) + (j*mBitResolutionMode)` of
sample `j` of channel `i` in a packet. -/
def JackAudioInterface.packetOffset (self : JackAudioInterface) (i j : Nat) : Nat :=
  i * self.mSizeInBytesPerChannel + j * self.mBitResolutionMode.toNat

/-- The bytes `bs` stored from offset `off` on; a byte past the end of the
buffer is not stored. -/
def writeBytes (buf : List Nat) (off : Nat) : List Nat → List Nat
  | [] => buf
  | b :: bs => writeBytes (buf.set off b) (off + 1) bs

/-- Sample `j` of channel `i` of an audio buffer; an index outside the buffer,
which C++ leaves undefined, reads `0`. -/
def sampleOf (buffer : List (List Nat)) (i j : Nat) : Nat := (buffer.getD i []).getD j 0

/-- The function `JackAudioInterface::computeNetworkProcessToNetwork`: the
packet handed to `sendNetworkPacket`, for the JACK input buffers `mInBuffer`. -/
def JackAudioInterface.computeNetworkProcessToNetwork (self : JackAudioInterface)
    (mInBuffer : List (List Nat)) : List Nat :=
  (List.range self.mNumInChans.toNat).foldl
    (fun packet i =>
      (List.range self.mNumFrames.toNat).foldl
        (fun packet j =>
          let tmp_result :=
            sampleAdd (sampleOf mInBuffer i j) (sampleOf self.mOutProcessBuffer i j)
          writeBytes packet (self.packetOffset i j)
            (fromSampleToBitConversion tmp_result self.mBitResolutionMode))
        packet)
    self.mInputPacket

/-- The function `JackAudioInterface::computeNetworkProcessFromNetwork`: the
JACK output buffers `mOutBuffer`, for the packet that `receiveNetworkPacket`
left in `mOutputPacket`. -/
def JackAudioInterface.computeNetworkProcessFromNetwork (self : JackAudioInterface)
    (mOutputPacket : List Nat) : List (List Nat) :=
  (List.range self.mNumOutChans.toNat).map fun i =>
    (List.range self.mNumFrames.toNat).map fun j =>
      fromBitToSampleConversion (mOutputPacket.drop (self.packetOffset i j))
        self.mBitResolutionMode

/-- A sample after encoding and decoding at one resolution. -/
def roundTrip (w : Nat) (res : audioBitResolutionT) : Nat :=
  fromBitToSampleConversion (fromSampleToBitConversion w res) res

/-- The samples `[0.0, 0.5, -0.5, 1.0, -1.0, 0.12345]` of scenario S1, as
binary32 patterns. -/
def scenarioS1 : List Nat :=
  [0x00000000, 0x3F000000, 0xBF000000, 0x3F800000, 0xBF800000, 0x3DFCD35B]

/-- A magnitude a 24-bit significand holds exactly. -/
def Fits24 (a : Nat) : Prop := ∃ c j : Nat, a = c * 2 ^ j ∧ c < 2 ^ 24

/-- The object that `setupClient` yields for two input and two output
channels at 16 bits, on a host with a period of four frames. -/
def exampleInterface : JackAudioInterface :=
  { mNumInChans := 2
    mNumOutChans := 2
    mAudioBitResolution := 16
    mBitResolutionMode := BIT16
    mSizeInBytesPerChannel := 8
    mNumFrames := 4
    mInputPacket := List.replicate 16 0
    mOutputPacket := List.replicate 16 0
    mInProcessBuffer := List.replicate 2 (List.replicate 4 0)
    mOutProcessBuffer := List.replicate 2 (List.replicate 4 0) }

/-- The function `JackAudioInterface::getSampleRateFromType` (an `int`). -/
def getSampleRateFromType (rate_type : samplingRateT) : Int :=
  match rate_type with
  | SR22 => 22050
  | SR32 => 32000
  | SR44 => 44100
  | SR48 => 48000
  | SR88 => 88200
  | SR96 => 96000
  | SR192 => 192000
  | UNDEF => 0

/-- What `setup` asks of the audio host and of the allocator, in program
order: the JACK calls and the `new` expressions. -/
inductive SetupEvent where
  | jack_client_open : SetupEvent
  | jack_on_shutdown : SetupEvent
  | jack_port_register (port_name : String) (isInput : Bool) : SetupEvent
  | new_packet (size : Int) : SetupEvent
  | new_process_buffer (nframes : Int) : SetupEvent
  | jack_set_process_callback : SetupEvent
  deriving DecidableEq, Repr

/-- The text that `QTextStream` builds from a prefix and the number `i+1`. -/
def portName (pre : String) (i : Nat) : String := pre ++ toString (i + 1)

/-- What `createChannels` leaves: the two port vectors (a slot is `none` until
a port is stored in it), the ports registered with the host in order of
registration, and the indices at which `mOutPorts` was written past its size
(C++ leaves such a write undefined; it is recorded and not stored). -/
structure ChannelPorts where
  mInPorts : List (Option String)
  mOutPorts : List (Option String)
  registered : List SetupEvent
  outside : List Nat
  deriving DecidableEq, Repr

/-- The function `JackAudioInterface::createChannels`: both loops run over
`mNumInChans`. -/
def JackAudioInterface.createChannels (self : JackAudioInterface) : ChannelPorts :=
  { mInPorts :=
      (List.range self.mNumInChans.toNat).foldl
        (fun ports i => ports.set i (some (portName "send_" i)))
        (List.replicate self.mNumInChans.toNat none)
    mOutPorts :=
      (List.range self.mNumInChans.toNat).foldl
        (fun ports i => ports.set i (some (portName "receive_" i)))
        (List.replicate self.mNumOutChans.toNat none)
    registered :=
      (List.range self.mNumInChans.toNat).map
          (fun i => SetupEvent.jack_port_register (portName "send_" i) true)
        ++ (List.range self.mNumInChans.toNat).map
          (fun i => SetupEvent.jack_port_register (portName "receive_" i) false)
    outside := (List.range self.mNumInChans.toNat).filter
      (fun i => decide (self.mNumOutChans.toNat ≤ i)) }

/-- The events of the process buffer loop of `setupClient`: one `new` per
channel, the first of which throws when `nframes` is negative. -/
def processBufferEvents (chans nframes : Int) : List SetupEvent :=
  if nframes < 0 then
    (if 0 < chans then [SetupEvent.new_process_buffer nframes] else [])
  else List.replicate chans.toNat (SetupEvent.new_process_buffer nframes)

/-- The events of `JackAudioInterface::setupClient`, up to its end or to the
exception it throws. -/
def JackAudioInterface.setupClientEvents (self : JackAudioInterface) (host : JackHost) :
    List SetupEvent :=
  if host.clientOpens = false then [SetupEvent.jack_client_open]
  else
    let mSizeInBytesPerChannel := self.getSizeInBytesPerChannel host
    let size_input := toInt32 (mSizeInBytesPerChannel * self.mNumInChans)
    let size_output := toInt32 (mSizeInBytesPerChannel * self.mNumOutChans)
    let nframes := toInt32 (JackAudioInterface.getBufferSizeInSamples host)
    [SetupEvent.jack_client_open, SetupEvent.jack_on_shutdown]
      ++ self.createChannels.registered
      ++ [SetupEvent.new_packet size_input]
      ++ (if size_input < 0 then []
          else [SetupEvent.new_packet size_output]
            ++ (if size_output < 0 then []
                else processBufferEvents self.mNumInChans nframes
                  ++ (if 0 < self.mNumInChans ∧ nframes < 0 then []
                      else processBufferEvents self.mNumOutChans nframes)))

/-- The function `JackAudioInterface::setProcessCallback`: it throws when
`jack_set_process_callback` returns a non-zero code. -/
def JackAudioInterface.setProcessCallback (self : JackAudioInterface) (host : JackHost) :
    Except String JackAudioInterface :=
  if host.setProcessCallbackCode ≠ 0 then
    Except.error "Could not set the Jack process callback"
  else Except.ok self

/-- The function `JackAudioInterface::setup`: `setupClient`, then
`setProcessCallback`. -/
def JackAudioInterface.setup (self : JackAudioInterface) (host : JackHost) :
    Except String JackAudioInterface :=
  match self.setupClient host with
  | Except.error e => Except.error e
  | Except.ok st => st.setProcessCallback host

/-- The events of `JackAudioInterface::setup`. -/
def JackAudioInterface.setupEvents (self : JackAudioInterface) (host : JackHost) :
    List SetupEvent :=
  match self.setupClient host with
  | Except.error _ => self.setupClientEvents host
  | Except.ok _ => self.setupClientEvents host ++ [SetupEvent.jack_set_process_callback]

/-- Modelled from the spec: the class `ProcessPlugin` is declared in
`ProcessPlugin.h`, which is missing.  A plugin exposes
`compute(frames, in, out)`: it reads the input buffers and fills the output
buffers, here a function from the frame count, the input buffers and the
output buffers it is handed to the output buffers it leaves.  The field `addr`
stands for the pointer that identifies the plugin. -/
structure ProcessPlugin where
  addr : Nat
  compute : Nat → List (List Nat) → List (List Nat) → List (List Nat)

/-- The function `JackAudioInterface::appendProcessPlugin`, on the vector
`mProcessPlugins`. -/
def appendProcessPlugin (mProcessPlugins : List ProcessPlugin) (plugin : ProcessPlugin) :
    List ProcessPlugin :=
  mProcessPlugins ++ [plugin]

/-- What one `processCallback` does, in program order. -/
inductive CallbackEvent where
  | receiveNetworkPacket : CallbackEvent
  | fromBitToSampleConversion (i j : Nat) : CallbackEvent
  | compute (addr : Nat) : CallbackEvent
  | fromSampleToBitConversion (i j : Nat) : CallbackEvent
  | sendNetworkPacket : CallbackEvent
  deriving DecidableEq, Repr

/-- The calls `memset(dst, 0, n)` and `memcpy(dst, src, n)` for `nframes`
samples: the first `nframes` samples of `dst` become those of `src`. -/
def copyFrames (nframes : Nat) (src dst : List Nat) : List Nat :=
  (List.range nframes).map (fun j => src.getD j 0) ++ dst.drop nframes

/-- The call `memset(dst, 0, n)` for `nframes` samples. -/
def zeroFrames (nframes : Nat) (dst : List Nat) : List Nat :=
  List.replicate nframes 0 ++ dst.drop nframes

/-- What `processCallback` leaves: the JACK output buffers `mOutBuffer`, the
two plugin scratch vectors, the packet handed to `sendNetworkPacket`, and the
events in program order. -/
structure CallbackResult where
  mOutBuffer : List (List Nat)
  mInProcessBuffer : List (List Nat)
  mOutProcessBuffer : List (List Nat)
  sent : List Nat
  trace : List CallbackEvent
  deriving Repr

/-- The scratch `mInProcessBuffer` after the first loop of step 2 of
`processCallback`: channel `i` below `mNumInChans` holds the first `nframes`
samples of `mOutBuffer[i]`. -/
def JackAudioInterface.fillInProcessBuffer (self : JackAudioInterface) (nframes : Nat)
    (mOutBuffer : List (List Nat)) : List (List Nat) :=
  (List.range self.mNumInChans.toNat).foldl
    (fun buffers i => buffers.set i (copyFrames nframes (mOutBuffer.getD i []) (buffers.getD i [])))
    self.mInProcessBuffer

/-- The scratch `mOutProcessBuffer` after the second loop of step 2 of
`processCallback`: channel `i` below `mNumOutChans` is zeroed. -/
def JackAudioInterface.clearOutProcessBuffer (self : JackAudioInterface) (nframes : Nat) :
    List (List Nat) :=
  (List.range self.mNumOutChans.toNat).foldl
    (fun buffers i => buffers.set i (zeroFrames nframes (buffers.getD i [])))
    self.mOutProcessBuffer

/-- The plugin loop of `processCallback`: every plugin of `mProcessPlugins`, in
index order, is handed the same input scratch and the output scratch as the
plugin before it left it. -/
def runPlugins (mProcessPlugins : List ProcessPlugin) (nframes : Nat)
    (mInProcessBuffer mOutProcessBuffer : List (List Nat)) : List (List Nat) :=
  mProcessPlugins.foldl (fun out plugin => plugin.compute nframes mInProcessBuffer out)
    mOutProcessBuffer

/-- The function `JackAudioInterface::processCallback`, for the plugins
`mProcessPlugins`, the JACK input buffers `mInBuffer` and the packet
`received` that `receiveNetworkPacket` delivers. -/
def JackAudioInterface.processCallback (self : JackAudioInterface)
    (mProcessPlugins : List ProcessPlugin) (nframes : Nat) (mInBuffer : List (List Nat))
    (received : List Nat) : CallbackResult :=
  let mOutBuffer := self.computeNetworkProcessFromNetwork received
  let mInProcessBuffer := self.fillInProcessBuffer nframes mOutBuffer
  let mOutProcessBuffer :=
    runPlugins mProcessPlugins nframes mInProcessBuffer (self.clearOutProcessBuffer nframes)
  let sent :=
    JackAudioInterface.computeNetworkProcessToNetwork
      { self with mInProcessBuffer := mInProcessBuffer, mOutProcessBuffer := mOutProcessBuffer }
      mInBuffer
  { mOutBuffer := mOutBuffer
    mInProcessBuffer := mInProcessBuffer
    mOutProcessBuffer := mOutProcessBuffer
    sent := sent
    trace :=
      [CallbackEvent.receiveNetworkPacket]
        ++ (List.range self.mNumOutChans.toNat).flatMap
            (fun i => (List.range self.mNumFrames.toNat).map
              (fun j => CallbackEvent.fromBitToSampleConversion i j))
        ++ mProcessPlugins.map (fun plugin => CallbackEvent.compute plugin.addr)
        ++ (List.range self.mNumInChans.toNat).flatMap
            (fun i => (List.range self.mNumFrames.toNat).map
              (fun j => CallbackEvent.fromSampleToBitConversion i j))
        ++ [CallbackEvent.sendNetworkPacket] }

/-- A plugin that writes `1.0` to every sample of its output buffers. -/
def onesPlugin : ProcessPlugin :=
  { addr := 1
    compute := fun _ _ out => out.map (fun channel => channel.map (fun _ => 0x3F800000)) }

/-- A plugin that copies its input buffers to its output buffers. -/
def copyPlugin : ProcessPlugin :=
  { addr := 2
    compute := fun _ inp _ => inp }

/-- The plugins on which a trace invokes `compute`, in order. -/
def computeCalls : List CallbackEvent → List Nat
  | [] => []
  | CallbackEvent.compute addr :: rest => addr :: computeCalls rest
  | _ :: rest => computeCalls rest

/-- A signalling NaN: exponent field 255, a non-zero fraction, quiet bit 22
clear. -/
def signallingNaN (w : Nat) : Prop :=
  w / 2 ^ 23 % 256 = 255 ∧ w % 2 ^ 23 ≠ 0 ∧ w % 2 ^ 23 < 2 ^ 22

/-- Modelled from the spec: the class `JackTrip` is not in the source.  The
object `mJackTrip` as `processCallback` uses it: the packets that the receive
ring holds for the interface and the packets that were handed over for
sending, both oldest first. -/
structure JackTripRings where
  RecvRing : List (List Nat)
  SendRing : List (List Nat)
  deriving DecidableEq, Repr

/-- The state that a run of `processCallback` works on: the `JackTrip` object,
the JACK output buffers, the two plugin scratch buffers, and the calls made so
far. -/
structure CallbackRun where
  mJackTrip : JackTripRings
  mOutBuffer : List (List Nat)
  mInProcessBuffer : List (List Nat)
  mOutProcessBuffer : List (List Nat)
  trace : List CallbackEvent
  deriving DecidableEq, Repr

/-- Modelled from the spec: `JackTrip::receiveNetworkPacket` takes the oldest
packet out of the receive ring and delivers it (an empty ring delivers an
empty packet); the call is recorded. -/
def CallbackRun.receiveNetworkPacket (run : CallbackRun) : List Nat × CallbackRun :=
  (run.mJackTrip.RecvRing.headD [],
    { run with
      mJackTrip := { run.mJackTrip with RecvRing := run.mJackTrip.RecvRing.tail }
      trace := run.trace ++ [CallbackEvent.receiveNetworkPacket] })

/-- Modelled from the spec: `JackTrip::sendNetworkPacket` puts the packet into
the send ring; the call is recorded. -/
def CallbackRun.sendNetworkPacket (run : CallbackRun) (packet : List Nat) : CallbackRun :=
  { run with
    mJackTrip := { run.mJackTrip with SendRing := run.mJackTrip.SendRing ++ [packet] }
    trace := run.trace ++ [CallbackEvent.sendNetworkPacket] }

/-- The function `JackAudioInterface::computeNetworkProcessFromNetwork` as a
step of a run: the one call of `receiveNetworkPacket`, then the unpacking of
the delivered packet into `mOutBuffer`, sample by sample. -/
def JackAudioInterface.computeNetworkProcessFromNetworkRun (self : JackAudioInterface)
    (run : CallbackRun) : CallbackRun :=
  let delivered := run.receiveNetworkPacket
  { delivered.2 with
    mOutBuffer := self.computeNetworkProcessFromNetwork delivered.1
    trace := delivered.2.trace
      ++ (List.range self.mNumOutChans.toNat).flatMap
          (fun i => (List.range self.mNumFrames.toNat).map
            (fun j => CallbackEvent.fromBitToSampleConversion i j)) }

/-- Step 2 of `processCallback` as a step of a run: `mOutBuffer` is copied to
the plugin input scratch, the output scratch is cleared, and `compute` is
called on every plugin in index order. -/
def JackAudioInterface.computeProcessPluginsRun (self : JackAudioInterface)
    (mProcessPlugins : List ProcessPlugin) (nframes : Nat) (run : CallbackRun) : CallbackRun :=
  let mInProcessBuffer := self.fillInProcessBuffer nframes run.mOutBuffer
  { run with
    mInProcessBuffer := mInProcessBuffer
    mOutProcessBuffer :=
      runPlugins mProcessPlugins nframes mInProcessBuffer (self.clearOutProcessBuffer nframes)
    trace := run.trace ++ mProcessPlugins.map (fun plugin => CallbackEvent.compute plugin.addr) }

/-- The function `JackAudioInterface::computeNetworkProcessToNetwork` as a step
of a run: the packing of the sum of JACK input and plugin output, sample by
sample, then the one call of `sendNetworkPacket` with the packet. -/
def JackAudioInterface.computeNetworkProcessToNetworkRun (self : JackAudioInterface)
    (mInBuffer : List (List Nat)) (run : CallbackRun) : CallbackRun :=
  let mInputPacket :=
    JackAudioInterface.computeNetworkProcessToNetwork
      { self with
        mInProcessBuffer := run.mInProcessBuffer
        mOutProcessBuffer := run.mOutProcessBuffer }
      mInBuffer
  CallbackRun.sendNetworkPacket
    { run with
      trace := run.trace
        ++ (List.range self.mNumInChans.toNat).flatMap
            (fun i => (List.range self.mNumFrames.toNat).map
              (fun j => CallbackEvent.fromSampleToBitConversion i j)) }
    mInputPacket

/-- The function `JackAudioInterface::processCallback` as a run on the state of
the `JackTrip` object: its three steps in the order of the source. -/
def JackAudioInterface.processCallbackRun (self : JackAudioInterface)
    (mProcessPlugins : List ProcessPlugin) (nframes : Nat) (mInBuffer : List (List Nat))
    (run : CallbackRun) : CallbackRun :=
  self.computeNetworkProcessToNetworkRun mInBuffer
    (self.computeProcessPluginsRun mProcessPlugins nframes
      (self.computeNetworkProcessFromNetworkRun run))

/-- A run that starts with two packets in the receive ring, one packet already
in the send ring and one call recorded. -/
def exampleRun : CallbackRun :=
  { mJackTrip :=
      { RecvRing := [[0, 64, 0, 32, 0, 0, 0, 0, 0, 0, 0, 0, 0, 0, 0, 0], List.replicate 16 7]
        SendRing := [[1, 2, 3]] }
    mOutBuffer := []
    mInProcessBuffer := []
    mOutProcessBuffer := []
    trace := [CallbackEvent.compute 9] }

/-! ### The graphical front end (`qjacktrip.cpp`) -/

/-- Modelled from the spec: `gDefaultNumInChannels` is declared in
`jacktrip_globals.h`, which is missing; the default number of channels is 2. -/
def gDefaultNumInChannels : Int := 2

/-- Modelled from the spec: `gDefaultQueueLength` is declared in
`jacktrip_globals.h`, which is missing; the default jitter buffer length is 4. -/
def gDefaultQueueLength : Int := 4

/-- Modelled from the spec: `gDefaultPort` is declared in `jacktrip_globals.h`,
which is missing; the default local UDP port is 4464. -/
def gDefaultPort : Int := 4464

/-- Modelled from the spec: `gDefaultRedundancy` is declared in
`jacktrip_globals.h`, which is missing; the default redundancy factor is 1. -/
def gDefaultRedundancy : Int := 1

/-- Modelled from the spec: the value of `JackTrip::NOAUTO` is declared in
`JackTrip.h`, which is missing; the auto-patch policies are listed as
SERVERTOCLIENT, CLIENTECHO, CLIENTFOFI, RESERVEDMATRIX, FULLMIX, NOAUTO, which
numbers NOAUTO 5 and puts RESERVEDMATRIX at the gap 3 that `start` skips. -/
def NOAUTO : Int := 5

/-- The widgets of `Ui::QJackTrip` that `qjacktrip.cpp` reads or writes: a
combo box is its current text or its current index, a spin box or slider its
value, a check box its state, a button whether it is enabled. -/
structure Ui where
  typeComboBox : String
  addressEdit : String
  channelSpinBox : Int
  autoPatchComboBox : Int
  zeroCheckBox : Bool
  timeoutCheckBox : Bool
  clientNameEdit : String
  remoteNameEdit : String
  localPortSpinBox : Int
  remotePortSpinBox : Int
  basePortSpinBox : Int
  queueLengthSpinBox : Int
  redundancySpinBox : Int
  resolutionComboBox : Int
  connectAudioCheckBox : Bool
  ioStatsCheckBox : Bool
  ioStatsSpinBox : Int
  inFreeverbCheckBox : Bool
  inFreeverbWetnessSlider : Int
  inZitarevCheckBox : Bool
  inZitarevWetnessSlider : Int
  inCompressorCheckBox : Bool
  inLimiterCheckBox : Bool
  outFreeverbCheckBox : Bool
  outFreeverbWetnessSlider : Int
  outZitarevCheckBox : Bool
  outZitarevWetnessSlider : Int
  outCompressorCheckBox : Bool
  outLimiterCheckBox : Bool
  outClientsSpinBox : Int
  connectButtonEnabled : Bool
  disconnectButtonEnabled : Bool
  exitButtonEnabled : Bool
  optionsEnabled : Bool
  addressEditEnabled : Bool
  statusBar : String
  deriving DecidableEq, Repr

/-- The test `text.endsWith("Client")`. -/
def endsWithClient (text : String) : Bool := "Client".data.isSuffixOf text.data

/-- Modelled from the spec: the items of `resolutionComboBox` are declared in
`ui_qjacktrip.h`, which is missing; the wire bit resolutions are 8, 16, 24 and
32, in the order in which `start` maps the indices to BIT8 .. BIT32.  An
index without an item has the empty text. -/
def Ui.resolutionText (ui : Ui) : String :=
  if 0 ≤ ui.resolutionComboBox then ["8", "16", "24", "32"].getD ui.resolutionComboBox.toNat ""
  else ""

/-- One effect of a plugin specification as the command line prints it: `c`,
or `f(w)` with `w` the slider value that is printed divided by `100.0`.
Freeverb and Zitarev are both printed as `f(...)`. -/
inductive PluginSpec where
  | c : PluginSpec
  | f (slider : Int) : PluginSpec
  deriving DecidableEq, Repr

/-- One piece that `commandLineFromCurrentOptions` appends to the command
line: the flag and what it carries. -/
inductive Arg where
  | c (address : String) : Arg
  | s : Arg
  | C (address : String) : Arg
  | S : Arg
  | z : Arg
  | p (hubConnectionMode : Int) : Arg
  | n (channels : Int) : Arg
  | t : Arg
  | q (queueLength : Int) : Arg
  | B (port : Int) : Arg
  | P (port : Int) : Arg
  | U (port : Int) : Arg
  | J (clientName : String) : Arg
  | K (remoteName : String) : Arg
  | r (redundancy : Int) : Arg
  | b (bits : String) : Arg
  | D : Arg
  | I (interval : Int) : Arg
  | O (inbound outbound : Bool) : Arg
  | a (clients : Int) : Arg
  | f (inbound outbound : Option (List PluginSpec)) : Arg
  deriving DecidableEq, Repr

/-- The effects printed for one side of the plugin specification. -/
def effectSpecs (compressor freeverb : Bool) (freeverbSlider : Int) (zitarev : Bool)
    (zitarevSlider : Int) : List PluginSpec :=
  (if compressor then [PluginSpec.c] else [])
    ++ (if freeverb then [PluginSpec.f freeverbSlider] else [])
    ++ (if zitarev then [PluginSpec.f zitarevSlider] else [])

/-- The function `QJackTrip::commandLineFromCurrentOptions`, as the list of
the pieces appended after `qjacktrip`. -/
def commandLineArgs (ui : Ui) : List Arg :=
  let inEffects := ui.inFreeverbCheckBox || ui.inZitarevCheckBox || ui.inCompressorCheckBox
  let outEffects := ui.outFreeverbCheckBox || ui.outZitarevCheckBox || ui.outCompressorCheckBox
  [if ui.typeComboBox = "Client" then Arg.c ui.addressEdit
    else if ui.typeComboBox = "Server" then Arg.s
    else if ui.typeComboBox = "Hub Client" then Arg.C ui.addressEdit
    else Arg.S]
    ++ (if ui.zeroCheckBox then [Arg.z] else [])
    ++ (if ui.typeComboBox = "Hub Server" then
          (let hubConnectionMode :=
            if ui.autoPatchComboBox > 2 then ui.autoPatchComboBox + 1 else ui.autoPatchComboBox
          if hubConnectionMode > 0 then [Arg.p hubConnectionMode] else [])
        else
          (if ui.channelSpinBox ≠ gDefaultNumInChannels then [Arg.n ui.channelSpinBox] else [])
            ++ (if ui.timeoutCheckBox then [Arg.t] else []))
    ++ (if ui.queueLengthSpinBox ≠ gDefaultQueueLength then [Arg.q ui.queueLengthSpinBox] else [])
    ++ (if ui.localPortSpinBox ≠ gDefaultPort then [Arg.B ui.localPortSpinBox] else [])
    ++ (if endsWithClient ui.typeComboBox then
          (if ui.remotePortSpinBox ≠ gDefaultPort then [Arg.P ui.remotePortSpinBox] else [])
        else [])
    ++ (if ui.typeComboBox = "Hub Server" then
          (let offset := ui.localPortSpinBox - gDefaultPort
          if ui.basePortSpinBox ≠ 61002 + offset then [Arg.U ui.basePortSpinBox] else [])
        else
          (if ui.clientNameEdit ≠ "" then [Arg.J ui.clientNameEdit] else [])
            ++ (if ui.typeComboBox = "Hub Client" ∧ ui.remoteNameEdit ≠ "" then
                  [Arg.K ui.remoteNameEdit] else [])
            ++ (if ui.redundancySpinBox > 1 then [Arg.r ui.redundancySpinBox] else [])
            ++ (if ui.resolutionText ≠ "16" then [Arg.b ui.resolutionText] else [])
            ++ (if ui.connectAudioCheckBox then [] else [Arg.D])
            ++ (if ui.ioStatsCheckBox then [Arg.I ui.ioStatsSpinBox] else [])
            ++ (if ui.inLimiterCheckBox || ui.outLimiterCheckBox then
                  [Arg.O ui.inLimiterCheckBox ui.outLimiterCheckBox]
                    ++ (if ui.outLimiterCheckBox ∧ ui.outClientsSpinBox ≠ 2 then
                          [Arg.a ui.outClientsSpinBox] else [])
                else [])
            ++ (if inEffects || outEffects then
                  [Arg.f
                    (if inEffects then
                      some (effectSpecs ui.inCompressorCheckBox ui.inFreeverbCheckBox
                        ui.inFreeverbWetnessSlider ui.inZitarevCheckBox ui.inZitarevWetnessSlider)
                    else none)
                    (if outEffects then
                      some (effectSpecs ui.outCompressorCheckBox ui.outFreeverbCheckBox
                        ui.outFreeverbWetnessSlider ui.outZitarevCheckBox
                        ui.outZitarevWetnessSlider)
                    else none)]
                else []))

/-- The double quote character. -/
def quote : String := String.singleton (Char.ofNat 34)

/-- The text of one effect; `argDouble v` is the text that `QString::arg`
gives for the `double` value `v / 100.0`. -/
def PluginSpec.render (argDouble : Int → String) : PluginSpec → String
  | PluginSpec.c => "c"
  | PluginSpec.f slider => "f(" ++ argDouble slider ++ ")"

/-- The text of one piece of the command line. -/
def Arg.render (argDouble : Int → String) : Arg → String
  | Arg.c address => " -c " ++ address
  | Arg.s => " -s"
  | Arg.C address => " -C " ++ address
  | Arg.S => " -S"
  | Arg.z => " -z"
  | Arg.p mode => " -p " ++ toString mode
  | Arg.n channels => " -n " ++ toString channels
  | Arg.t => " -t"
  | Arg.q queueLength => " -q " ++ toString queueLength
  | Arg.B port => " -B " ++ toString port
  | Arg.P port => " -P " ++ toString port
  | Arg.U port => " -U " ++ toString port
  | Arg.J clientName => " -J " ++ quote ++ clientName ++ quote
  | Arg.K remoteName => " -K " ++ quote ++ remoteName ++ quote
  | Arg.r redundancy => " -r " ++ toString redundancy
  | Arg.b bits => " -b " ++ bits
  | Arg.D => " -D"
  | Arg.I interval => " -I " ++ toString interval
  | Arg.O inbound outbound =>
    " -O " ++ (if inbound then "i" else "") ++ (if outbound then "o" else "")
  | Arg.a clients => " -a " ++ toString clients
  | Arg.f inbound outbound =>
    " -f " ++ quote
      ++ (match inbound with
          | some specs =>
            "i:" ++ String.join (specs.map (PluginSpec.render argDouble))
              ++ (if outbound.isSome then ", " else "")
          | none => "")
      ++ (match outbound with
          | some specs => "o:" ++ String.join (specs.map (PluginSpec.render argDouble))
          | none => "")
      ++ quote

/-- The function `QJackTrip::commandLineFromCurrentOptions`: the text of the
command line. -/
def commandLineFromCurrentOptions (argDouble : Int → String) (ui : Ui) : String :=
  "qjacktrip" ++ String.join ((commandLineArgs ui).map (Arg.render argDouble))

/-- The values of `JackTrip::jacktripModeT` that `start` passes on. -/
inductive jacktripModeT where
  | CLIENT : jacktripModeT
  | SERVER : jacktripModeT
  | CLIENTTOPINGSERVER : jacktripModeT
  deriving DecidableEq, Repr

/-- The values of `JackTrip::underrunModeT`. -/
inductive underrunModeT where
  | WAVETABLE : underrunModeT
  | ZEROS : underrunModeT
  deriving DecidableEq, Repr

/-- The plugin objects that `appendPlugins` creates, with their constructor
arguments; the reverb level is in hundredths (`wetness` is the slider value
divided by `100.0`, and Zitarev adds `1.0`). -/
inductive ProcessPluginObject where
  | Compressor (numChannels : Int) : ProcessPluginObject
  | Reverb (numInChans numOutChans reverbLevel : Int) : ProcessPluginObject
  | Limiter (numChannels numClients : Int) : ProcessPluginObject
  deriving DecidableEq, Repr

/-- The calls that `qjacktrip.cpp` makes on the `JackTrip` object `m_jackTrip`. -/
inductive JackTripCall where
  | construct (mode : jacktripModeT) (channels queueLength redundancy : Int)
      (resolution : audioBitResolutionT) : JackTripCall
  | setConnectDefaultAudioPorts (connect : Bool) : JackTripCall
  | setUnderRunMode (mode : underrunModeT) : JackTripCall
  | setStopOnTimeout (stop : Bool) : JackTripCall
  | setPeerAddress (address : String) : JackTripCall
  | setRemoteClientName (name : String) : JackTripCall
  | setBindPorts (port : Int) : JackTripCall
  | setPeerPorts (port : Int) : JackTripCall
  | setPeerHandshakePort (port : Int) : JackTripCall
  | setClientName (name : String) : JackTripCall
  | setIOStatTimeout (interval : Int) : JackTripCall
  | setIOStatStream : JackTripCall
  | appendProcessPluginToNetwork (plugin : ProcessPluginObject) : JackTripCall
  | appendProcessPluginFromNetwork (plugin : ProcessPluginObject) : JackTripCall
  | startProcess : JackTripCall
  | stop : JackTripCall
  deriving DecidableEq, Repr

/-- The calls that `qjacktrip.cpp` makes on the `UdpHubListener` object
`m_udpHub`. -/
inductive UdpHubCall where
  | construct (localPort basePort : Int) : UdpHubCall
  | setHubPatch (hubConnectionMode : Int) : UdpHubCall
  | setConnectDefaultAudioPorts (connect : Bool) : UdpHubCall
  | setUnderRunMode (mode : underrunModeT) : UdpHubCall
  | setBufferQueueLength (queueLength : Int) : UdpHubCall
  | setIOStatTimeout (interval : Int) : UdpHubCall
  | setIOStatStream : UdpHubCall
  | start : UdpHubCall
  | stop : UdpHubCall
  deriving DecidableEq, Repr

/-- What the window does that is seen from outside: a message box that is
shown (`exec`), the signal `signalExit`, a call of `saveSettings`. -/
inductive GuiEvent where
  | messageBox (text windowTitle : String) : GuiEvent
  | signalExit : GuiEvent
  | saveSettings : GuiEvent
  deriving DecidableEq, Repr

/-- The state of a `QJackTrip` window: the widgets, the two flags, the session
objects (each as the list of the calls made on it since it was created, `none`
after `reset()`), whether the statistics dialog is monitoring, and the events
so far. -/
structure QJackTrip where
  m_ui : Ui
  m_jackTripRunning : Bool
  m_isExiting : Bool
  m_udpHub : Option (List UdpHubCall)
  m_jackTrip : Option (List JackTripCall)
  monitoring : Bool
  events : List GuiEvent
  deriving DecidableEq, Repr

/-- The function `QJackTrip::enableUi`. -/
def QJackTrip.enableUi (self : QJackTrip) (enabled : Bool) : QJackTrip :=
  { self with
    m_ui :=
      { self.m_ui with
        optionsEnabled := enabled
        addressEditEnabled := enabled && endsWithClient self.m_ui.typeComboBox } }

/-- The function `QJackTrip::processFinished`. -/
def QJackTrip.processFinished (self : QJackTrip) : QJackTrip :=
  if self.m_jackTripRunning = false then self
  else
    let s1 : QJackTrip := { self with m_jackTripRunning := false }
    let s2 : QJackTrip := if s1.m_ui.ioStatsCheckBox then { s1 with monitoring := false } else s1
    let s3 : QJackTrip := { s2 with m_ui := { s2.m_ui with disconnectButtonEnabled := false } }
    let s4 : QJackTrip :=
      if s3.m_ui.typeComboBox = "Hub Server" then { s3 with m_udpHub := none }
      else { s3 with m_jackTrip := none }
    if s4.m_isExiting then { s4 with events := s4.events ++ [GuiEvent.signalExit] }
    else
      let s5 := s4.enableUi true
      { s5 with
        m_ui :=
          { s5.m_ui with
            connectButtonEnabled := true
            statusBar := "JackTrip Processes Stopped" } }

/-- The function `QJackTrip::processError`. -/
def QJackTrip.processError (self : QJackTrip) (errorMessage : String) : QJackTrip :=
  let msgBox : GuiEvent :=
    if errorMessage = "Peer Stopped" then GuiEvent.messageBox errorMessage "Disconnected"
    else GuiEvent.messageBox ("Error: " ++ errorMessage) "Doh!"
  QJackTrip.processFinished { self with events := self.events ++ [msgBox] }

/-- The function `QJackTrip::appendPlugins`, as the calls it makes on the
session. -/
def appendPlugins (ui : Ui) (numChannels : Int) : List JackTripCall :=
  (if ui.outCompressorCheckBox then
      [JackTripCall.appendProcessPluginToNetwork (ProcessPluginObject.Compressor numChannels)]
    else [])
    ++ (if ui.inCompressorCheckBox then
          [JackTripCall.appendProcessPluginFromNetwork (ProcessPluginObject.Compressor numChannels)]
        else [])
    ++ (if ui.outZitarevCheckBox then
          [JackTripCall.appendProcessPluginToNetwork
            (ProcessPluginObject.Reverb numChannels numChannels (100 + ui.outZitarevWetnessSlider))]
        else [])
    ++ (if ui.inZitarevCheckBox then
          [JackTripCall.appendProcessPluginFromNetwork
            (ProcessPluginObject.Reverb numChannels numChannels (100 + ui.inZitarevWetnessSlider))]
        else [])
    ++ (if ui.outFreeverbCheckBox then
          [JackTripCall.appendProcessPluginToNetwork
            (ProcessPluginObject.Reverb numChannels numChannels ui.outFreeverbWetnessSlider)]
        else [])
    ++ (if ui.inFreeverbCheckBox then
          [JackTripCall.appendProcessPluginFromNetwork
            (ProcessPluginObject.Reverb numChannels numChannels ui.inFreeverbWetnessSlider)]
        else [])
    ++ (if ui.inLimiterCheckBox then
          [JackTripCall.appendProcessPluginFromNetwork (ProcessPluginObject.Limiter numChannels 1)]
        else [])
    ++ (if ui.outLimiterCheckBox then
          [JackTripCall.appendProcessPluginToNetwork
            (ProcessPluginObject.Limiter numChannels ui.outClientsSpinBox)]
        else [])

/-- The calls that `QJackTrip::start` makes on a new `UdpHubListener`, in
order. -/
def hubCalls (ui : Ui) : List UdpHubCall :=
  let hubConnectionMode :=
    if ui.autoPatchComboBox > 2 then ui.autoPatchComboBox + 1 else ui.autoPatchComboBox
  [UdpHubCall.construct ui.localPortSpinBox ui.basePortSpinBox,
    UdpHubCall.setHubPatch hubConnectionMode,
    if hubConnectionMode = NOAUTO then UdpHubCall.setConnectDefaultAudioPorts false
    else UdpHubCall.setConnectDefaultAudioPorts true]
    ++ (if ui.zeroCheckBox then [UdpHubCall.setUnderRunMode underrunModeT.ZEROS] else [])
    ++ [UdpHubCall.setBufferQueueLength ui.queueLengthSpinBox]
    ++ (if ui.ioStatsCheckBox then
          [UdpHubCall.setIOStatTimeout ui.ioStatsSpinBox, UdpHubCall.setIOStatStream]
        else [])
    ++ [UdpHubCall.start]

/-- The calls that `QJackTrip::start` makes on a new `JackTrip`, in order. -/
def jackTripCalls (ui : Ui) : List JackTripCall :=
  let jackTripMode :=
    if ui.typeComboBox = "Client" then jacktripModeT.CLIENT
    else if ui.typeComboBox = "Server" then jacktripModeT.SERVER
    else jacktripModeT.CLIENTTOPINGSERVER
  let resolution :=
    if ui.resolutionComboBox = 0 then audioBitResolutionT.BIT8
    else if ui.resolutionComboBox = 1 then audioBitResolutionT.BIT16
    else if ui.resolutionComboBox = 2 then audioBitResolutionT.BIT24
    else audioBitResolutionT.BIT32
  [JackTripCall.construct jackTripMode ui.channelSpinBox ui.queueLengthSpinBox
      ui.redundancySpinBox resolution,
    JackTripCall.setConnectDefaultAudioPorts true]
    ++ (if ui.zeroCheckBox then [JackTripCall.setUnderRunMode underrunModeT.ZEROS] else [])
    ++ (if ui.timeoutCheckBox then [JackTripCall.setStopOnTimeout true] else [])
    ++ (if jackTripMode = jacktripModeT.CLIENT ∨ jackTripMode = jacktripModeT.CLIENTTOPINGSERVER
        then
          [JackTripCall.setPeerAddress ui.addressEdit]
            ++ (if jackTripMode = jacktripModeT.CLIENTTOPINGSERVER ∧ ui.remoteNameEdit ≠ "" then
                  [JackTripCall.setRemoteClientName ui.remoteNameEdit]
                else [])
        else [])
    ++ [JackTripCall.setBindPorts ui.localPortSpinBox,
        JackTripCall.setPeerPorts ui.remotePortSpinBox,
        JackTripCall.setPeerHandshakePort ui.remotePortSpinBox]
    ++ (if ui.clientNameEdit ≠ "" then [JackTripCall.setClientName ui.clientNameEdit] else [])
    ++ (if ui.ioStatsCheckBox then
          [JackTripCall.setIOStatTimeout ui.ioStatsSpinBox, JackTripCall.setIOStatStream]
        else [])
    ++ appendPlugins ui ui.channelSpinBox
    ++ [JackTripCall.startProcess]

/-- The function `QJackTrip::start`.  The argument `thrown` is the text of the
exception that the last call in the `try` block (`start()` of the hub,
`startProcess()` of the session) throws, `none` when it returns. -/
def QJackTrip.start (self : QJackTrip) (thrown : Option String) : QJackTrip :=
  let s1 : QJackTrip := { self with m_ui := { self.m_ui with connectButtonEnabled := false } }
  let s2 : QJackTrip := { s1.enableUi false with m_jackTripRunning := true }
  let s3 : QJackTrip :=
    if s2.m_ui.typeComboBox = "Hub Server" then
      { s2 with
        m_udpHub := some (hubCalls s2.m_ui)
        monitoring := s2.monitoring || s2.m_ui.ioStatsCheckBox
        m_ui := { s2.m_ui with disconnectButtonEnabled := true } }
    else
      { s2 with
        m_jackTrip := some (jackTripCalls s2.m_ui)
        monitoring := s2.monitoring || s2.m_ui.ioStatsCheckBox
        m_ui :=
          { s2.m_ui with statusBar := "Waiting for Peer...", disconnectButtonEnabled := true } }
  match thrown with
  | none =>
    if s3.m_ui.typeComboBox = "Hub Server" then
      { s3 with m_ui := { s3.m_ui with statusBar := "Hub Server Started" } }
    else s3
  | some what =>
    let s4 : QJackTrip :=
      { s3 with
        events := s3.events ++ [GuiEvent.messageBox ("Error: " ++ what) "Doh!"]
        m_jackTripRunning := false }
    let s5 := s4.enableUi true
    { s5 with
      m_ui :=
        { s5.m_ui with
          connectButtonEnabled := true
          disconnectButtonEnabled := false
          statusBar := "" } }

/-- The function `QJackTrip::stop`; a call on a session object that was reset
is not modelled (the pointer is null) and leaves `none`. -/
def QJackTrip.stop (self : QJackTrip) : QJackTrip :=
  let s1 : QJackTrip := { self with m_ui := { self.m_ui with disconnectButtonEnabled := false } }
  if s1.m_ui.typeComboBox = "Hub Server" then
    { s1 with m_udpHub := s1.m_udpHub.map (fun calls => calls ++ [UdpHubCall.stop]) }
  else { s1 with m_jackTrip := s1.m_jackTrip.map (fun calls => calls ++ [JackTripCall.stop]) }

/-- The function `QJackTrip::exit`. -/
def QJackTrip.exit (self : QJackTrip) : QJackTrip :=
  if self.m_isExiting then self
  else
    let s1 : QJackTrip :=
      { self with
        m_isExiting := true
        m_ui := { self.m_ui with exitButtonEnabled := false }
        events := self.events ++ [GuiEvent.saveSettings] }
    if s1.m_jackTripRunning then s1.stop
    else { s1 with events := s1.events ++ [GuiEvent.signalExit] }

/-- A window in its state after `resetOptions`, with the run mode `Client`, a
peer address, no plugin selected and no session. -/
def exampleWindow : QJackTrip :=
  { m_ui :=
      { typeComboBox := "Client", addressEdit := "192.168.1.20", channelSpinBox := 2,
        autoPatchComboBox := 0, zeroCheckBox := false, timeoutCheckBox := false,
        clientNameEdit := "", remoteNameEdit := "", localPortSpinBox := gDefaultPort,
        remotePortSpinBox := gDefaultPort, basePortSpinBox := 61002,
        queueLengthSpinBox := gDefaultQueueLength, redundancySpinBox := gDefaultRedundancy,
        resolutionComboBox := 1, connectAudioCheckBox := true, ioStatsCheckBox := false,
        ioStatsSpinBox := 1, inFreeverbCheckBox := false, inFreeverbWetnessSlider := 0,
        inZitarevCheckBox := false, inZitarevWetnessSlider := 0, inCompressorCheckBox := false,
        inLimiterCheckBox := false, outFreeverbCheckBox := false, outFreeverbWetnessSlider := 0,
        outZitarevCheckBox := false, outZitarevWetnessSlider := 0,
        outCompressorCheckBox := false, outLimiterCheckBox := false, outClientsSpinBox := 2,
        connectButtonEnabled := true, disconnectButtonEnabled := false,
        exitButtonEnabled := true, optionsEnabled := true, addressEditEnabled := true,
        statusBar := "" }
    m_jackTripRunning := false
    m_isExiting := false
    m_udpHub := none
    m_jackTrip := none
    monitoring := false
    events := [] }

/-! ### Default port connections and buffer indices (`JackAudioInterface.cpp`) -/

/-- What `connectDefaultPorts` does that is seen from outside: the evaluation
of `ports[i]` in the capture or the playback list, a call of `jack_connect`
(a port name that the code takes from a null pointer is `none`), and a
warning printed. -/
inductive PortEvent where
  | read (capture : Bool) (i : Nat) : PortEvent
  | jack_connect (source_port destination_port : Option String) : PortEvent
  | warning (text : String) : PortEvent
  deriving DecidableEq, Repr

/-- The array that `jack_get_ports` returns for the physical ports `names`:
the names, the terminating NULL, and then whatever the memory after the array
holds (`beyond`). -/
def portArray (names : List String) (beyond : List (Option String)) : List (Option String) :=
  names.map some ++ [none] ++ beyond

/-- One loop of `connectDefaultPorts` over the words `ports` of memory: for
every `i` below the channel count `ports[i]` is read and, when it is not NULL,
connected with the port `ours[i]` of the interface.  A word past the modelled
memory reads NULL. -/
def connectLoop (capture : Bool) (chans : Nat) (ports ours : List (Option String)) :
    List PortEvent :=
  (List.range chans).flatMap (fun i =>
    PortEvent.read capture i ::
      (match ports.getD i none with
        | some name =>
          if capture then [PortEvent.jack_connect (some name) (ours.getD i none)]
          else [PortEvent.jack_connect (ours.getD i none) (some name)]
        | none => []))

/-- The function `JackAudioInterface::connectDefaultPorts`; `capture` and
`playback` are the arrays that the two calls of `jack_get_ports` return,
`none` for a NULL result. -/
def JackAudioInterface.connectDefaultPorts (self : JackAudioInterface)
    (capture playback : Option (List (Option String))) : List PortEvent :=
  (match capture with
    | none => [PortEvent.warning "WARING: Cannot find any physical capture ports"]
    | some ports =>
      connectLoop true self.mNumInChans.toNat ports self.createChannels.mInPorts)
    ++ (match playback with
        | none => [PortEvent.warning "WARING: Cannot find any physical playback ports"]
        | some ports =>
          connectLoop false self.mNumOutChans.toNat ports self.createChannels.mOutPorts)

/-- The channel indices that a list of events reads in the capture or the
playback array. -/
def readIndices (capture : Bool) : List PortEvent → List Nat
  | [] => []
  | PortEvent.read c i :: rest =>
    if c = capture then i :: readIndices capture rest else readIndices capture rest
  | _ :: rest => readIndices capture rest

/-- The four vectors of channel buffers of a `JackAudioInterface`. -/
inductive BufferVector where
  | mInBuffer : BufferVector
  | mOutBuffer : BufferVector
  | mInProcessBuffer : BufferVector
  | mOutProcessBuffer : BufferVector
  deriving DecidableEq, Repr

/-- The size that the `resize` calls of `setupClient` give each vector. -/
def JackAudioInterface.vectorSize (self : JackAudioInterface) : BufferVector → Nat
  | BufferVector.mInBuffer => self.mNumInChans.toNat
  | BufferVector.mOutBuffer => self.mNumOutChans.toNat
  | BufferVector.mInProcessBuffer => self.mNumInChans.toNat
  | BufferVector.mOutProcessBuffer => self.mNumOutChans.toNat

/-- The channel indices that `computeNetworkProcessFromNetwork` uses, in
order: `mOutBuffer[i]` for every `i` below `mNumOutChans`. -/
def JackAudioInterface.fromNetworkIndices (self : JackAudioInterface) :
    List (BufferVector × Nat) :=
  (List.range self.mNumOutChans.toNat).map (fun i => (BufferVector.mOutBuffer, i))

/-- The channel indices that `computeNetworkProcessToNetwork` uses, in order:
`mInBuffer[i]` and `mOutProcessBuffer[i]` for every `i` below `mNumInChans`. -/
def JackAudioInterface.toNetworkIndices (self : JackAudioInterface) :
    List (BufferVector × Nat) :=
  (List.range self.mNumInChans.toNat).flatMap
    (fun i => [(BufferVector.mInBuffer, i), (BufferVector.mOutProcessBuffer, i)])

/-- The channel indices that `processCallback` uses, in order: the two loops
that fetch the JACK buffers, the unpacking, the loop that copies
`mOutBuffer[i]` to `mInProcessBuffer[i]` for `i` below `mNumInChans`, the
loop that clears `mOutProcessBuffer[i]` for `i` below `mNumOutChans`, and the
packing. -/
def JackAudioInterface.processCallbackIndices (self : JackAudioInterface) :
    List (BufferVector × Nat) :=
  (List.range self.mNumInChans.toNat).map (fun i => (BufferVector.mInBuffer, i))
    ++ (List.range self.mNumOutChans.toNat).map (fun i => (BufferVector.mOutBuffer, i))
    ++ self.fromNetworkIndices
    ++ (List.range self.mNumInChans.toNat).flatMap
        (fun i => [(BufferVector.mInProcessBuffer, i), (BufferVector.mInProcessBuffer, i),
          (BufferVector.mOutBuffer, i)])
    ++ (List.range self.mNumOutChans.toNat).map (fun i => (BufferVector.mOutProcessBuffer, i))
    ++ self.toNetworkIndices

/-! ### Session policies (`qjacktrip.cpp`, `JackTripWorker.h`) -/

/-- The auto-patch index adjustment in the words of the specification: index
`i` maps to `i` when `i ≤ 2` and to `i + 1` otherwise. -/
def autoPatchAdjustment (i : Int) : Int := if i ≤ 2 then i else i + 1

/-! ## Theorems -/

set_option maxRecDepth 8000

theorem excessAux_dvd (fuel : Nat) : ∀ a : Nat, Fits24 a → 2 ^ excessAux fuel a ∣ a := by
  induction fuel with
  | zero => intro a _; simp [excessAux]
  | succ f ih =>
    intro a h
    unfold excessAux
    split
    · simp
    · rename_i hlt
      obtain ⟨c, j, rfl, hc⟩ := h
      cases j with
      | zero => simp at hlt; omega
      | succ j =>
        have h2 : c * 2 ^ (j + 1) / 2 = c * 2 ^ j := by
          rw [pow_succ, ← mul_assoc]; exact Nat.mul_div_cancel _ (by norm_num)
        rw [h2]
        have := ih (c * 2 ^ j) ⟨c, j, rfl, hc⟩
        rw [pow_succ, pow_succ, ← mul_assoc]
        exact Nat.mul_dvd_mul this (dvd_refl 2)

theorem excess_dvd (a : Nat) (h : Fits24 a) : 2 ^ excess a ∣ a := excessAux_dvd a a h

theorem excessAux_range (fuel : Nat) : ∀ a : Nat, a < 2 ^ (24 + fuel) →
    a / 2 ^ excessAux fuel a < 2 ^ 24 ∧ (2 ^ 23 ≤ a → 2 ^ 23 ≤ a / 2 ^ excessAux fuel a) := by
  induction fuel with
  | zero => intro a h; simpa [excessAux] using h
  | succ f ih =>
    intro a h
    unfold excessAux
    split
    · rename_i hlt; simpa using hlt
    · rename_i hlt
      have h1 : a / 2 < 2 ^ (24 + f) := by
        have : 2 ^ (24 + (f + 1)) = 2 * 2 ^ (24 + f) := by rw [← add_assoc, pow_succ]; ring
        omega
      have h3 : a / 2 ^ (excessAux f (a / 2) + 1) = a / 2 / 2 ^ excessAux f (a / 2) := by
        rw [pow_succ, mul_comm, Nat.div_div_eq_div_mul]
      rw [h3]
      obtain ⟨ha, hb⟩ := ih (a / 2) h1
      refine ⟨ha, fun _ => hb ?_⟩
      norm_num at hlt ⊢; omega

theorem excess_range (a : Nat) :
    a / 2 ^ excess a < 2 ^ 24 ∧ (2 ^ 23 ≤ a → 2 ^ 23 ≤ a / 2 ^ excess a) := by
  apply excessAux_range
  calc a < 2 ^ a := Nat.lt_two_pow a
    _ ≤ 2 ^ (24 + a) := Nat.pow_le_pow_right (by norm_num) (by omega)

theorem excess_eq_zero (a : Nat) (h : a < 2 ^ 24) : excess a = 0 := by
  unfold excess
  cases a with
  | zero => rfl
  | succ n => unfold excessAux; rw [if_pos h]

theorem signed_natAbs (n : Int) : (if n < 0 then -(n.natAbs : Int) else (n.natAbs : Int)) = n := by
  split <;> omega

theorem roundF32_fits (n : Int) (h : Fits24 n.natAbs) (hlt : n.natAbs < 2 ^ 128 * one) :
    roundF32 (FVal.fin n) = FVal.fin n := by
  have hd := excess_dvd _ h
  have hr : n.natAbs % 2 ^ excess n.natAbs = 0 := Nat.mod_eq_zero_of_dvd hd
  have hq : n.natAbs / 2 ^ excess n.natAbs * 2 ^ excess n.natAbs = n.natAbs :=
    Nat.div_mul_cancel hd
  have hp : 0 < 2 ^ excess n.natAbs := Nat.pow_pos (by norm_num)
  have hc : ¬ (2 ^ excess n.natAbs < 2 * 0 ∨
      (2 * 0 = 2 ^ excess n.natAbs ∧ n.natAbs / 2 ^ excess n.natAbs % 2 = 1)) := by
    intro h; rcases h with h | h <;> omega
  simp only [roundF32, hr, if_neg hc, hq, if_neg (not_le.mpr hlt), signed_natAbs]

theorem fields_subnormal (s a : Nat) (hs : s = 0 ∨ s = 1) (ha : a < 8388608) :
    (s * 2147483648 + a) / 2147483648 % 2 = s ∧ (s * 2147483648 + a) / 8388608 % 256 = 0 ∧
      (s * 2147483648 + a) % 8388608 = a := by
  omega

theorem fields_normal (s k m : Nat) (hs : s = 0 ∨ s = 1) (hk : k + 1 < 255)
    (h1 : 8388608 ≤ m) (h2 : m < 16777216) :
    (s * 2147483648 + (k + 1) * 8388608 + (m - 8388608)) / 2147483648 % 2 = s ∧
      (s * 2147483648 + (k + 1) * 8388608 + (m - 8388608)) / 8388608 % 256 = k + 1 ∧
      (s * 2147483648 + (k + 1) * 8388608 + (m - 8388608)) % 8388608 = m - 8388608 := by
  omega

theorem ofBits_toBits (n : Int) (h : Fits24 n.natAbs) (hlt : n.natAbs < 2 ^ 128 * one) :
    ofBits (toBits (FVal.fin n)) = FVal.fin n := by
  unfold toBits
  rw [roundF32_fits n h hlt]
  simp only
  have hs := signed_natAbs n
  have p31 : (2 : Nat) ^ 31 = 2147483648 := by norm_num
  have p23 : (2 : Nat) ^ 23 = 8388608 := by norm_num
  have p24 : (2 : Nat) ^ 24 = 16777216 := by norm_num
  generalize hA : n.natAbs = a at *
  obtain ⟨s, hs01, hsn, hsv⟩ : ∃ s : Nat, (s = 0 ∨ s = 1) ∧
      (if n < 0 then 2 ^ 31 else 0) = s * 2147483648 ∧
      (if s = 1 then -(a : Int) else (a : Int)) = n := by
    by_cases hn : n < 0
    · exact ⟨1, Or.inr rfl, by simp [hn], by simpa [hn] using hs⟩
    · exact ⟨0, Or.inl rfl, by simp [hn], by simpa [hn] using hs⟩
  rw [hsn]
  by_cases h23 : a < 2 ^ 23
  · rw [if_pos h23]
    rw [p23] at h23
    obtain ⟨e1, e2, e3⟩ := fields_subnormal s a hs01 h23
    unfold ofBits
    simp only [p31, p23, e1, e2, e3]
    simp [hsv]
  · rw [if_neg h23]
    obtain ⟨r1, r2⟩ := excess_range a
    have r2 := r2 (not_lt.mp h23)
    have hd := excess_dvd a h
    have hq : a / 2 ^ excess a * 2 ^ excess a = a := Nat.div_mul_cancel hd
    have hk : excess a + 1 < 255 := by
      by_contra hk
      have h1 : 2 ^ 23 * 2 ^ 254 ≤ a / 2 ^ excess a * 2 ^ excess a :=
        Nat.mul_le_mul r2 (Nat.pow_le_pow_right (by norm_num) (by omega))
      rw [hq] at h1
      have : (2:Nat) ^ 128 * one = 2 ^ 23 * 2 ^ 254 := by unfold one; norm_num
      omega
    generalize hm : a / 2 ^ excess a = m at *
    generalize hK : excess a = k at *
    rw [p24] at r1
    rw [p23] at r2
    obtain ⟨e1, e2, e3⟩ := fields_normal s k m hs01 hk r2 r1
    have e4 : 8388608 + (m - 8388608) = m := by omega
    unfold ofBits
    simp only [p31, p23, e1, e2, e3, e4]
    have n255 : ¬ (k + 1 = 255) := by omega
    have n0 : ¬ (k + 1 = 0) := by omega
    simp only [if_neg n255, if_neg n0, Nat.add_sub_cancel, hq, hsv]

theorem sampleValue_of_fin (w : Nat) (n : Int) (h : ofBits w = FVal.fin n) :
    sampleValue w = some ((n : ℚ) / 2 ^ 149) := by
  simp [sampleValue, h]

/-- C1: at 32 bits the codec copies the four bytes of the sample, so encoding
and then decoding gives back the same bit pattern, whatever it is, and the
decoded sample has exactly the four bytes that were sent. -/
theorem bit32_round_trip_identity (w : Nat) (h : w < 2 ^ 32) :
    (fromSampleToBitConversion w BIT32).length = 4 ∧
      fromBitToSampleConversion (fromSampleToBitConversion w BIT32) BIT32 = w ∧
      bytesOfSample (fromBitToSampleConversion (fromSampleToBitConversion w BIT32) BIT32)
        = fromSampleToBitConversion w BIT32 := by
  have e : fromBitToSampleConversion (fromSampleToBitConversion w BIT32) BIT32 = w := by
    simp only [fromSampleToBitConversion, fromBitToSampleConversion, bytesOfSample, sampleAt,
      List.getD_cons_zero, List.getD_cons_succ]
    norm_num at h ⊢
    omega
  exact ⟨rfl, e, by rw [e]; rfl⟩

theorem bit32_round_trip_identity_witness :
    (fromSampleToBitConversion 0xFFC00001 BIT32).length = 4 ∧
      fromBitToSampleConversion (fromSampleToBitConversion 0xFFC00001 BIT32) BIT32
        = 0xFFC00001 ∧
      bytesOfSample (fromBitToSampleConversion (fromSampleToBitConversion 0xFFC00001 BIT32) BIT32)
        = fromSampleToBitConversion 0xFFC00001 BIT32 :=
  bit32_round_trip_identity 0xFFC00001 (by decide)

/-- C2: the full-scale sample `1.0` comes back from the 16-bit and from the
8-bit round trip as `-1.0`, an error of `2`. -/
theorem full_scale_round_trip_flips_sign :
    sampleValue 0x3F800000 = some 1 ∧
      sampleValue (roundTrip 0x3F800000 BIT16) = some (-1) ∧
      sampleValue (roundTrip 0x3F800000 BIT8) = some (-1) ∧
      ¬ (|(1 : ℚ) - (-1)| ≤ 1 / 32768) ∧ ¬ (|(1 : ℚ) - (-1)| ≤ 1 / 128) := by
  have h0 : ofBits 0x3F800000 = FVal.fin (2 ^ 149) := by decide
  have h1 : ofBits (roundTrip 0x3F800000 BIT16) = FVal.fin (-2 ^ 149) := by decide
  have h2 : ofBits (roundTrip 0x3F800000 BIT8) = FVal.fin (-2 ^ 149) := by decide
  refine ⟨?_, ?_, ?_, ?_, ?_⟩
  · rw [sampleValue_of_fin _ _ h0]; norm_num
  · rw [sampleValue_of_fin _ _ h1]; norm_num
  · rw [sampleValue_of_fin _ _ h2]; norm_num
  · norm_num
  · norm_num

theorem sampleValue_eq_some (w : Nat) (x : ℚ) (h : sampleValue w = some x) :
    ∃ n : Int, ofBits w = FVal.fin n ∧ x = (n : ℚ) / 2 ^ 149 := by
  unfold sampleValue at h
  split at h
  · rename_i n hn
    exact ⟨n, hn, by simpa using h.symm⟩
  · simp at h

theorem units_bounds (n : Int) (x : ℚ) (hx : x = (n : ℚ) / 2 ^ 149) (h1 : -1 ≤ x) (h2 : x < 1) :
    -(2 : Int) ^ 149 ≤ n ∧ n < (2 : Int) ^ 149 := by
  have hp : (0 : ℚ) < 2 ^ 149 := by positivity
  subst hx
  constructor
  · have : (-(2 : ℚ) ^ 149) ≤ n := by
      have := (le_div_iff₀ hp).mp h1
      linarith
    exact_mod_cast this
  · have : (n : ℚ) < 2 ^ 149 := by
      have := (div_lt_iff₀ hp).mp h2
      linarith
    exact_mod_cast this

theorem floor_scaled (n : Int) (x : ℚ) (hx : x = (n : ℚ) / 2 ^ 149) (c : Nat) :
    ⌊x * c⌋ = n * c / (one : Int) := by
  have : x * c = ((n * c : Int) : ℚ) / ((one : Nat) : ℚ) := by
    subst hx; unfold one; push_cast; ring
  rw [this, Rat.floor_intCast_div_natCast]

theorem round_small (i : Int) (j : Nat) (hi : i.natAbs < 2 ^ 24) (hj : j ≤ 149) :
    roundF32 (FVal.fin (i * 2 ^ j)) = FVal.fin (i * 2 ^ j) := by
  have e : (i * 2 ^ j).natAbs = i.natAbs * 2 ^ j := by
    rw [Int.natAbs_mul, Int.natAbs_pow]; rfl
  apply roundF32_fits
  · exact ⟨i.natAbs, j, e, hi⟩
  · rw [e]
    calc i.natAbs * 2 ^ j < 2 ^ 24 * 2 ^ j := Nat.mul_lt_mul_of_pos_right hi (Nat.pow_pos (by norm_num))
      _ ≤ 2 ^ 24 * 2 ^ 149 := Nat.mul_le_mul_left _ (Nat.pow_le_pow_right (by norm_num) hj)
      _ ≤ 2 ^ 128 * one := by unfold one; norm_num

theorem ofBits_toBits_small (i : Int) (j : Nat) (hi : i.natAbs < 2 ^ 24) (hj : j ≤ 149) :
    ofBits (toBits (FVal.fin (i * 2 ^ j))) = FVal.fin (i * 2 ^ j) := by
  have e : (i * 2 ^ j).natAbs = i.natAbs * 2 ^ j := by
    rw [Int.natAbs_mul, Int.natAbs_pow]; rfl
  apply ofBits_toBits
  · exact ⟨i.natAbs, j, e, hi⟩
  · rw [e]
    calc i.natAbs * 2 ^ j < 2 ^ 24 * 2 ^ j := Nat.mul_lt_mul_of_pos_right hi (Nat.pow_pos (by norm_num))
      _ ≤ 2 ^ 24 * 2 ^ 149 := Nat.mul_le_mul_left _ (Nat.pow_le_pow_right (by norm_num) hj)
      _ ≤ 2 ^ 128 * one := by unfold one; norm_num

theorem one_cast : ((one : Nat) : Int) = 2 ^ 149 := by unfold one; norm_num

theorem cvttss2si_int (t : Int) (h : t.natAbs < 2 ^ 24) :
    cvttss2si (FVal.fin (t * 2 ^ 149)) = t := by
  simp only [cvttss2si, one_cast]
  rw [Int.mul_tdiv_cancel _ (by norm_num)]
  have h1 : -2 ^ 31 ≤ t := by norm_num at h ⊢; omega
  have h2 : t < 2 ^ 31 := by norm_num at h ⊢; omega
  rw [if_pos ⟨h1, h2⟩]

theorem quantized (n : Int) (c : Nat) (h : (n * c / (one : Int)).natAbs < 2 ^ 24) :
    cvttss2si (roundF32 ((FVal.fin n).scale c).floor) = n * c / (one : Int) := by
  have hr := round_small (n * c / (one : Int)) 149 h le_rfl
  simp only [FVal.scale, FVal.floor]
  rw [one_cast] at *
  rw [hr]
  exact cvttss2si_int _ h

/-- C3: in scenario S1 at 16 bits the samples `0.0, 0.5, -0.5, -1.0, 0.12345`
come back as `0, 0.5, -0.5, -1.0, 4045/32768`, but `1.0` comes back as `-1.0`,
which is not within `1/32768` of `32767/32768`. -/
theorem scenarioS1_full_scale_flips_sign :
    scenarioS1.map sampleValue
        = [some 0, some (1 / 2), some (-1 / 2), some 1, some (-1),
            some (16569179 / 134217728)] ∧
      (scenarioS1.map fun w => sampleValue (roundTrip w BIT16))
        = [some 0, some (1 / 2), some (-1 / 2), some (-1), some (-1), some (4045 / 32768)] ∧
      ¬ (|(-1 : ℚ) - 32767 / 32768| ≤ 1 / 32768) := by
  have a0 : ofBits 0x00000000 = FVal.fin 0 := by decide
  have a1 : ofBits 0x3F000000 = FVal.fin (2 ^ 148) := by decide
  have a2 : ofBits 0xBF000000 = FVal.fin (-2 ^ 148) := by decide
  have a3 : ofBits 0x3F800000 = FVal.fin (2 ^ 149) := by decide
  have a4 : ofBits 0xBF800000 = FVal.fin (-2 ^ 149) := by decide
  have a5 : ofBits 0x3DFCD35B = FVal.fin (16569179 * 2 ^ 122) := by decide
  have b0 : ofBits (roundTrip 0x00000000 BIT16) = FVal.fin 0 := by decide
  have b1 : ofBits (roundTrip 0x3F000000 BIT16) = FVal.fin (2 ^ 148) := by decide
  have b2 : ofBits (roundTrip 0xBF000000 BIT16) = FVal.fin (-2 ^ 148) := by decide
  have b3 : ofBits (roundTrip 0x3F800000 BIT16) = FVal.fin (-2 ^ 149) := by decide
  have b4 : ofBits (roundTrip 0xBF800000 BIT16) = FVal.fin (-2 ^ 149) := by decide
  have b5 : ofBits (roundTrip 0x3DFCD35B BIT16) = FVal.fin (4045 * 2 ^ 134) := by decide
  refine ⟨?_, ?_, ?_⟩
  · simp only [scenarioS1, List.map_cons, List.map_nil, sampleValue_of_fin _ _ a0,
      sampleValue_of_fin _ _ a1, sampleValue_of_fin _ _ a2, sampleValue_of_fin _ _ a3,
      sampleValue_of_fin _ _ a4, sampleValue_of_fin _ _ a5]
    norm_num
  · simp only [scenarioS1, List.map_cons, List.map_nil, sampleValue_of_fin _ _ b0,
      sampleValue_of_fin _ _ b1, sampleValue_of_fin _ _ b2, sampleValue_of_fin _ _ b3,
      sampleValue_of_fin _ _ b4, sampleValue_of_fin _ _ b5]
    norm_num
  · norm_num [abs_le]

theorem int16_bytes (i : Int) (h1 : -32768 ≤ i) (h2 : i ≤ 32767) :
    toInt16 i = i ∧ int16At (bytesOfInt16 i) = i := by
  simp only [toInt16, int16At, bytesOfInt16, List.getD_cons_zero, List.getD_cons_succ]
  omega

theorem int8_bytes (i : Int) (h1 : -128 ≤ i) (h2 : i ≤ 127) :
    toInt8 i = i ∧ int8At [byteOf i] = i := by
  simp only [toInt8, int8At, byteOf, List.getD_cons_zero]
  omega

/-- C4, as stated, fails at the full-scale sample `1.0`: `floor(1.0 * 32768)`
is `32768`, not a 16-bit integer, and the two bytes written read back as
`-32768`. -/
theorem bit16_full_scale_not_floor :
    sampleValue 0x3F800000 = some 1 ∧
      fromSampleToBitConversion 0x3F800000 BIT16 = [0, 128] ∧
      int16At (fromSampleToBitConversion 0x3F800000 BIT16) = -32768 ∧
      ⌊(1 : ℚ) * 32768⌋ = 32768 ∧
      ¬ (int16At (fromSampleToBitConversion 0x3F800000 BIT16) = ⌊(1 : ℚ) * 32768⌋) := by
  have h0 : ofBits 0x3F800000 = FVal.fin (2 ^ 149) := by decide
  have h1 : fromSampleToBitConversion 0x3F800000 BIT16 = [0, 128] := by decide
  have h2 : int16At [0, 128] = -32768 := by decide
  have h3 : ⌊(1 : ℚ) * 32768⌋ = 32768 := by
    rw [one_mul]; exact_mod_cast Int.floor_intCast (32768 : ℤ)
  refine ⟨?_, h1, by rw [h1, h2], h3, by rw [h1, h2, h3]; decide⟩
  rw [sampleValue_of_fin _ _ h0]; norm_num

theorem encode16_floor (w : Nat) (x : ℚ) (hx : sampleValue w = some x)
    (h1 : -1 ≤ x) (h2 : x < 1) :
    (fromSampleToBitConversion w BIT16).length = 2 ∧
      fromSampleToBitConversion w BIT16 = bytesOfInt16 ⌊x * 32768⌋ ∧
      int16At (fromSampleToBitConversion w BIT16) = ⌊x * 32768⌋ ∧
      -32768 ≤ ⌊x * 32768⌋ ∧ ⌊x * 32768⌋ ≤ 32767 := by
  obtain ⟨n, hn, hxn⟩ := sampleValue_eq_some w x hx
  obtain ⟨b1, b2⟩ := units_bounds n x hxn h1 h2
  have hf : ⌊x * 32768⌋ = n * (32768 : Nat) / (one : Int) := by
    have := floor_scaled n x hxn 32768
    simpa using this
  have hb : -32768 ≤ n * (32768 : Nat) / (one : Int) ∧ n * (32768 : Nat) / (one : Int) ≤ 32767 := by
    rw [one_cast]
    norm_num at b1 b2 ⊢
    constructor <;> omega
  have ht : (n * (32768 : Nat) / (one : Int)).natAbs < 2 ^ 24 := by
    obtain ⟨c1, c2⟩ := hb
    generalize n * (32768 : Nat) / (one : Int) = t at c1 c2 ⊢
    norm_num; omega
  have hq := quantized n 32768 ht
  obtain ⟨e1, e2⟩ := int16_bytes _ hb.1 hb.2
  have henc : fromSampleToBitConversion w BIT16 = bytesOfInt16 (n * (32768 : Nat) / (one : Int)) := by
    simp only [fromSampleToBitConversion, static_cast_int16, hn, hq, e1]
  rw [henc, hf]
  exact ⟨rfl, rfl, e2, hb.1, hb.2⟩

/-- C4 (amended): for every finite sample `x` with `-1 ≤ x < 1` the 16-bit
encoding is exactly two bytes, the little-endian two's-complement
representation of `floor(x * 32768)`, which is a 16-bit integer. -/
theorem bit16_encoding_is_floor (w : Nat) (x : ℚ) (hx : sampleValue w = some x)
    (h1 : -1 ≤ x) (h2 : x < 1) :
    (fromSampleToBitConversion w BIT16).length = 2 ∧
      fromSampleToBitConversion w BIT16 = bytesOfInt16 ⌊x * 32768⌋ ∧
      int16At (fromSampleToBitConversion w BIT16) = ⌊x * 32768⌋ ∧
      -32768 ≤ ⌊x * 32768⌋ ∧ ⌊x * 32768⌋ ≤ 32767 :=
  encode16_floor w x hx h1 h2

theorem bit16_encoding_is_floor_witness :
    sampleValue 0x3DFCD35B = some (16569179 / 134217728) ∧
      (fromSampleToBitConversion 0x3DFCD35B BIT16).length = 2 ∧
      fromSampleToBitConversion 0x3DFCD35B BIT16
        = bytesOfInt16 ⌊(16569179 / 134217728 : ℚ) * 32768⌋ ∧
      int16At (fromSampleToBitConversion 0x3DFCD35B BIT16)
        = ⌊(16569179 / 134217728 : ℚ) * 32768⌋ ∧
      -32768 ≤ ⌊(16569179 / 134217728 : ℚ) * 32768⌋ ∧
      ⌊(16569179 / 134217728 : ℚ) * 32768⌋ ≤ 32767 := by
  have h0 : ofBits 0x3DFCD35B = FVal.fin (16569179 * 2 ^ 122) := by decide
  have hx : sampleValue 0x3DFCD35B = some (16569179 / 134217728) := by
    rw [sampleValue_of_fin _ _ h0]; norm_num
  exact ⟨hx, bit16_encoding_is_floor 0x3DFCD35B _ hx (by norm_num) (by norm_num)⟩

/-- C5, as stated, fails at the full-scale sample `1.0`: `floor(1.0 * 128)` is
`128`, outside `[-128, 127]`, and the byte written reads back as `-128`. -/
theorem bit8_full_scale_not_floor :
    sampleValue 0x3F800000 = some 1 ∧
      fromSampleToBitConversion 0x3F800000 BIT8 = [128] ∧
      int8At (fromSampleToBitConversion 0x3F800000 BIT8) = -128 ∧
      ⌊(1 : ℚ) * 128⌋ = 128 ∧ ¬ (⌊(1 : ℚ) * 128⌋ ≤ 127) := by
  have h0 : ofBits 0x3F800000 = FVal.fin (2 ^ 149) := by decide
  have h1 : fromSampleToBitConversion 0x3F800000 BIT8 = [128] := by decide
  have h2 : int8At [128] = -128 := by decide
  have h3 : ⌊(1 : ℚ) * 128⌋ = 128 := by
    rw [one_mul]; exact_mod_cast Int.floor_intCast (128 : ℤ)
  refine ⟨?_, h1, by rw [h1, h2], h3, by rw [h3]; decide⟩
  rw [sampleValue_of_fin _ _ h0]; norm_num

theorem encode8_floor (w : Nat) (x : ℚ) (hx : sampleValue w = some x)
    (h1 : -1 ≤ x) (h2 : x < 1) :
    (fromSampleToBitConversion w BIT8).length = 1 ∧
      fromSampleToBitConversion w BIT8 = [byteOf ⌊x * 128⌋] ∧
      int8At (fromSampleToBitConversion w BIT8) = ⌊x * 128⌋ ∧
      -128 ≤ ⌊x * 128⌋ ∧ ⌊x * 128⌋ ≤ 127 := by
  obtain ⟨n, hn, hxn⟩ := sampleValue_eq_some w x hx
  obtain ⟨b1, b2⟩ := units_bounds n x hxn h1 h2
  have hf : ⌊x * 128⌋ = n * (128 : Nat) / (one : Int) := by
    have := floor_scaled n x hxn 128
    simpa using this
  have hb : -128 ≤ n * (128 : Nat) / (one : Int) ∧ n * (128 : Nat) / (one : Int) ≤ 127 := by
    rw [one_cast]
    norm_num at b1 b2 ⊢
    constructor <;> omega
  have ht : (n * (128 : Nat) / (one : Int)).natAbs < 2 ^ 24 := by
    obtain ⟨c1, c2⟩ := hb
    generalize n * (128 : Nat) / (one : Int) = t at c1 c2 ⊢
    norm_num; omega
  have hq := quantized n 128 ht
  obtain ⟨e1, e2⟩ := int8_bytes _ hb.1 hb.2
  have henc : fromSampleToBitConversion w BIT8 = [byteOf (n * (128 : Nat) / (one : Int))] := by
    simp only [fromSampleToBitConversion, static_cast_int8, hn, hq, e1]
  rw [henc, hf]
  exact ⟨rfl, rfl, e2, hb.1, hb.2⟩

/-- C5 (amended): for every finite sample `x` with `-1 ≤ x < 1` the 8-bit
encoding is exactly one byte, holding the signed integer `floor(x * 128)`,
which lies in `[-128, 127]`. -/
theorem bit8_encoding_is_floor (w : Nat) (x : ℚ) (hx : sampleValue w = some x)
    (h1 : -1 ≤ x) (h2 : x < 1) :
    (fromSampleToBitConversion w BIT8).length = 1 ∧
      fromSampleToBitConversion w BIT8 = [byteOf ⌊x * 128⌋] ∧
      int8At (fromSampleToBitConversion w BIT8) = ⌊x * 128⌋ ∧
      -128 ≤ ⌊x * 128⌋ ∧ ⌊x * 128⌋ ≤ 127 :=
  encode8_floor w x hx h1 h2

theorem bit8_encoding_is_floor_witness :
    sampleValue 0xBF800000 = some (-1) ∧
      (fromSampleToBitConversion 0xBF800000 BIT8).length = 1 ∧
      fromSampleToBitConversion 0xBF800000 BIT8 = [byteOf ⌊(-1 : ℚ) * 128⌋] ∧
      int8At (fromSampleToBitConversion 0xBF800000 BIT8) = ⌊(-1 : ℚ) * 128⌋ ∧
      -128 ≤ ⌊(-1 : ℚ) * 128⌋ ∧ ⌊(-1 : ℚ) * 128⌋ ≤ 127 := by
  have h0 : ofBits 0xBF800000 = FVal.fin (-2 ^ 149) := by decide
  have hx : sampleValue 0xBF800000 = some (-1) := by
    rw [sampleValue_of_fin _ _ h0]; norm_num
  exact ⟨hx, bit8_encoding_is_floor 0xBF800000 _ hx (by norm_num) (by norm_num)⟩

/-- C6: for the sample `-2^-41` the remainder `x*32768 - floor(x*32768)` is
`1 - 2^-26`, whose `floor(r * 256)` is `255`; the code computes the remainder
as a `float`, gets `1.0`, and writes the third byte `0`. -/
theorem bit24_small_negative_remainder_wraps :
    sampleValue 0xAB000000 = some (-(1 / 2 ^ 41)) ∧
      ⌊(-(1 / 2 ^ 41) : ℚ) * 32768⌋ = -1 ∧
      ⌊((-(1 / 2 ^ 41) : ℚ) * 32768 - ⌊(-(1 / 2 ^ 41) : ℚ) * 32768⌋) * 256⌋ = 255 ∧
      (roundF32 ((ofBits 0xAB000000).scale 32768)).sub
          (roundF32 (roundF32 ((ofBits 0xAB000000).scale 32768)).floor) = FVal.fin one ∧
      fromSampleToBitConversion 0xAB000000 BIT24 = [255, 255, 0] := by
  have h0 : ofBits 0xAB000000 = FVal.fin (-2 ^ 108) := by decide
  have hf : ⌊(-(1 / 2 ^ 41) : ℚ) * 32768⌋ = -1 := by
    rw [Int.floor_eq_iff]; norm_num
  refine ⟨?_, hf, ?_, by decide, by decide⟩
  · rw [sampleValue_of_fin _ _ h0]; norm_num
  · rw [hf, Int.floor_eq_iff]; norm_num

theorem int16At_range (p : List Nat) : -32768 ≤ int16At p ∧ int16At p ≤ 32767 := by
  simp only [int16At, toInt16]; omega

theorem uint8At_range (p : List Nat) : 0 ≤ uint8At p ∧ uint8At p ≤ 255 := by
  simp only [uint8At]; omega

theorem ofInt_small (i : Int) (h : i.natAbs < 2 ^ 24) :
    FVal.ofInt i = FVal.fin (i * 2 ^ 149) := by
  unfold FVal.ofInt
  rw [one_cast]
  exact round_small i 149 h le_rfl

theorem decode16_units (v : Int) (h1 : -32768 ≤ v) (h2 : v ≤ 32767) :
    roundF32 ((FVal.ofInt v).unscale 32768) = FVal.fin (v * 2 ^ 134) := by
  have hv : v.natAbs < 2 ^ 24 := by norm_num; omega
  rw [ofInt_small v hv]
  have e : v * 2 ^ 149 / ((32768 : Nat) : Int) = v * 2 ^ 134 := by norm_num; omega
  simp only [FVal.unscale, e]
  exact round_small v 134 hv (by norm_num)

theorem decode24_units (v u : Int) (h1 : -32768 ≤ v) (h2 : v ≤ 32767) (h3 : 0 ≤ u)
    (h4 : u ≤ 255) :
    roundF32 (((FVal.ofInt v).add (roundF32 ((FVal.ofInt u).unscale 256))).unscale 32768)
      = FVal.fin ((256 * v + u) * 2 ^ 126) := by
  have hv : v.natAbs < 2 ^ 24 := by norm_num; omega
  have hu : u.natAbs < 2 ^ 24 := by norm_num; omega
  have hs : (256 * v + u).natAbs < 2 ^ 24 := by norm_num; omega
  rw [ofInt_small v hv, ofInt_small u hu]
  have e1 : u * 2 ^ 149 / ((256 : Nat) : Int) = u * 2 ^ 141 := by norm_num; omega
  simp only [FVal.unscale, e1]
  rw [round_small u 141 hu (by norm_num)]
  have e2 : v * 2 ^ 149 + u * 2 ^ 141 = (256 * v + u) * 2 ^ 141 := by ring
  simp only [FVal.add, e2]
  rw [round_small _ 141 hs (by norm_num)]
  have e3 : (256 * v + u) * 2 ^ 141 / ((32768 : Nat) : Int) = (256 * v + u) * 2 ^ 126 := by
    generalize 256 * v + u = t
    norm_num; omega
  simp only [e3]
  exact round_small _ 126 hs (by norm_num)

/-- C7: for every three wire bytes, with `v` the `int16` of bytes 0-1 and `u`
the unsigned byte 2, the 24-bit decoding is the sample `(v + u/256) / 32768`;
it is never below the 16-bit decoding `v / 32768` of the first two bytes and
exceeds it by less than `1/32768`. -/
theorem bit24_decoding_biased_upward (b0 b1 b2 : Nat) :
    sampleValue (fromBitToSampleConversion [b0, b1, b2] BIT24)
        = some (((int16At [b0, b1, b2] : ℚ) + (uint8At [b2] : ℚ) / 256) / 32768) ∧
      sampleValue (fromBitToSampleConversion [b0, b1, b2] BIT16)
        = some ((int16At [b0, b1, b2] : ℚ) / 32768) ∧
      (-32768 ≤ int16At [b0, b1, b2] ∧ int16At [b0, b1, b2] ≤ 32767) ∧
      (0 ≤ uint8At [b2] ∧ uint8At [b2] ≤ 255) ∧
      (int16At [b0, b1, b2] : ℚ) / 32768
        ≤ ((int16At [b0, b1, b2] : ℚ) + (uint8At [b2] : ℚ) / 256) / 32768 ∧
      ((int16At [b0, b1, b2] : ℚ) + (uint8At [b2] : ℚ) / 256) / 32768
        - (int16At [b0, b1, b2] : ℚ) / 32768 < 1 / 32768 := by
  obtain ⟨v1, v2⟩ := int16At_range [b0, b1, b2]
  obtain ⟨u1, u2⟩ := uint8At_range [b2]
  have hd : List.drop 2 [b0, b1, b2] = [b2] := rfl
  generalize hv : int16At [b0, b1, b2] = v at *
  generalize hu : uint8At [b2] = u at *
  have hv' : v.natAbs < 2 ^ 24 := by norm_num; omega
  have hs : (256 * v + u).natAbs < 2 ^ 24 := by norm_num; omega
  have q1 : (0 : ℚ) ≤ u := by exact_mod_cast u1
  have q2 : (u : ℚ) ≤ 255 := by exact_mod_cast u2
  refine ⟨?_, ?_, ⟨v1, v2⟩, ⟨u1, u2⟩, ?_, ?_⟩
  · simp only [fromBitToSampleConversion, hd, hv, hu]
    rw [decode24_units v u v1 v2 u1 u2]
    rw [sampleValue_of_fin _ _ (ofBits_toBits_small _ 126 hs (by norm_num))]
    have h2 : (2 : ℚ) ^ 149 = 8388608 * 2 ^ 126 := by norm_num
    rw [Int.cast_mul, Int.cast_pow, h2, Int.cast_ofNat,
      mul_div_mul_right _ _ (pow_ne_zero 126 (by norm_num : (2 : ℚ) ≠ 0))]
    refine congrArg some ?_
    push_cast
    ring
  · simp only [fromBitToSampleConversion, hv]
    rw [decode16_units v v1 v2]
    rw [sampleValue_of_fin _ _ (ofBits_toBits_small _ 134 hv' (by norm_num))]
    have h2 : (2 : ℚ) ^ 149 = 32768 * 2 ^ 134 := by norm_num
    rw [Int.cast_mul, Int.cast_pow, h2, Int.cast_ofNat,
      mul_div_mul_right _ _ (pow_ne_zero 134 (by norm_num : (2 : ℚ) ≠ 0))]
  · have : (v : ℚ) ≤ v + u / 256 := by linarith [div_nonneg q1 (by norm_num : (0 : ℚ) ≤ 256)]
    exact div_le_div_of_nonneg_right this (by norm_num)
  · have : (u : ℚ) / 256 < 1 := by
      rw [div_lt_one (by norm_num)]; linarith
    have e : ((v : ℚ) + u / 256) / 32768 - v / 32768 = u / 256 / 32768 := by ring
    rw [e]
    exact div_lt_div_of_pos_right this (by norm_num)

theorem decode8_units (v : Int) (h1 : -128 ≤ v) (h2 : v ≤ 127) :
    roundF32 ((FVal.ofInt v).unscale 128) = FVal.fin (v * 2 ^ 142) := by
  have hv : v.natAbs < 2 ^ 24 := by norm_num; omega
  rw [ofInt_small v hv]
  have e : v * 2 ^ 149 / ((128 : Nat) : Int) = v * 2 ^ 142 := by norm_num; omega
  simp only [FVal.unscale, e]
  exact round_small v 142 hv (by norm_num)

/-- Below full scale the 16-bit round trip stays within one quantisation step:
a finite sample `x` with `-1 ≤ x < 1` comes back as `floor(x * 32768) / 32768`,
which is at most `x` and less than `1/32768` below it. -/
theorem bit16_round_trip_below_full_scale (w : Nat) (x : ℚ) (hx : sampleValue w = some x)
    (h1 : -1 ≤ x) (h2 : x < 1) :
    sampleValue (roundTrip w BIT16) = some ((⌊x * 32768⌋ : ℚ) / 32768) ∧
      (⌊x * 32768⌋ : ℚ) / 32768 ≤ x ∧ x - (⌊x * 32768⌋ : ℚ) / 32768 < 1 / 32768 := by
  obtain ⟨_, _, e3, b1, b2⟩ := encode16_floor w x hx h1 h2
  have hv : (⌊x * 32768⌋).natAbs < 2 ^ 24 := by norm_num; omega
  refine ⟨?_, ?_, ?_⟩
  · unfold roundTrip
    simp only [fromBitToSampleConversion, e3]
    rw [decode16_units _ b1 b2,
      sampleValue_of_fin _ _ (ofBits_toBits_small _ 134 hv (by norm_num))]
    have h2 : (2 : ℚ) ^ 149 = 32768 * 2 ^ 134 := by norm_num
    rw [Int.cast_mul, Int.cast_pow, h2, Int.cast_ofNat,
      mul_div_mul_right _ _ (pow_ne_zero 134 (by norm_num : (2 : ℚ) ≠ 0))]
  · rw [div_le_iff₀ (by norm_num)]
    exact Int.floor_le _
  · have := Int.lt_floor_add_one (x * 32768)
    rw [sub_lt_iff_lt_add, ← add_div, lt_div_iff₀ (by norm_num)]
    linarith

/-- Below full scale the 8-bit round trip stays within one quantisation step:
a finite sample `x` with `-1 ≤ x < 1` comes back as `floor(x * 128) / 128`,
which is at most `x` and less than `1/128` below it. -/
theorem bit8_round_trip_below_full_scale (w : Nat) (x : ℚ) (hx : sampleValue w = some x)
    (h1 : -1 ≤ x) (h2 : x < 1) :
    sampleValue (roundTrip w BIT8) = some ((⌊x * 128⌋ : ℚ) / 128) ∧
      (⌊x * 128⌋ : ℚ) / 128 ≤ x ∧ x - (⌊x * 128⌋ : ℚ) / 128 < 1 / 128 := by
  obtain ⟨_, _, e3, b1, b2⟩ := encode8_floor w x hx h1 h2
  have hv : (⌊x * 128⌋).natAbs < 2 ^ 24 := by norm_num; omega
  refine ⟨?_, ?_, ?_⟩
  · unfold roundTrip
    simp only [fromBitToSampleConversion, e3]
    rw [decode8_units _ b1 b2,
      sampleValue_of_fin _ _ (ofBits_toBits_small _ 142 hv (by norm_num))]
    have h2 : (2 : ℚ) ^ 149 = 128 * 2 ^ 142 := by norm_num
    rw [Int.cast_mul, Int.cast_pow, h2, Int.cast_ofNat,
      mul_div_mul_right _ _ (pow_ne_zero 142 (by norm_num : (2 : ℚ) ≠ 0))]
  · rw [div_le_iff₀ (by norm_num)]
    exact Int.floor_le _
  · have := Int.lt_floor_add_one (x * 128)
    rw [sub_lt_iff_lt_add, ← add_div, lt_div_iff₀ (by norm_num)]
    linarith

theorem fromSampleToBitConversion_length (w : Nat) (res : audioBitResolutionT) :
    (fromSampleToBitConversion w res).length = res.toNat := by
  cases res <;> rfl

theorem writeBytes_splice (bs : List Nat) : ∀ (A C rest : List Nat), C.length = bs.length →
    writeBytes (A ++ C ++ rest) A.length bs = A ++ bs ++ rest := by
  induction bs with
  | nil =>
    intro A C rest h
    have : C = [] := List.length_eq_zero.mp h
    simp [writeBytes, this]
  | cons b bs ih =>
    intro A C rest h
    cases C with
    | nil => simp at h
    | cons c C =>
      have hset : (A ++ (c :: C) ++ rest).set A.length b = (A ++ [b]) ++ C ++ rest := by
        rw [List.append_assoc, List.set_append_right _ _ (le_refl _)]
        simp
      have hlen : (A ++ [b]).length = A.length + 1 := by simp
      unfold writeBytes
      rw [hset, ← hlen, ih (A ++ [b]) C rest (by simpa using h)]
      simp

theorem fold_consecutive (g : Nat → List Nat → List Nat) (blk : Nat → List Nat) (sz : Nat)
    (hblk : ∀ i, (blk i).length = sz) (A0 : List Nat)
    (hg : ∀ (i : Nat) (B C rest : List Nat), B.length = i * sz → C.length = sz →
      g i (A0 ++ B ++ C ++ rest) = A0 ++ B ++ blk i ++ rest) :
    ∀ (k : Nat) (C rest : List Nat), C.length = k * sz →
      (List.range k).foldl (fun p i => g i p) (A0 ++ C ++ rest)
        = A0 ++ (List.range k).flatMap blk ++ rest := by
  intro k
  induction k with
  | zero =>
    intro C rest h
    have : C = [] := List.length_eq_zero.mp (by simpa using h)
    simp [this]
  | succ k ih =>
    intro C rest h
    have hk : k * sz ≤ C.length := by rw [h]; exact Nat.mul_le_mul_right _ (Nat.le_succ k)
    have h1 : (C.take (k * sz)).length = k * sz := by simp [hk]
    have h2 : (C.drop (k * sz)).length = sz := by
      simp [h, Nat.succ_mul]
    have hC : C = C.take (k * sz) ++ C.drop (k * sz) := (List.take_append_drop _ _).symm
    have hB : ((List.range k).flatMap blk).length = k * sz := by
      clear ih h hk h1 h2 hC
      induction k with
      | zero => simp
      | succ k ihk => simp [List.range_succ, List.flatMap_append, ihk, hblk, Nat.succ_mul]
    rw [List.range_succ, List.foldl_append, List.flatMap_append]
    conv_lhs => rw [hC]
    have e1 : A0 ++ (C.take (k * sz) ++ C.drop (k * sz)) ++ rest
        = A0 ++ C.take (k * sz) ++ (C.drop (k * sz) ++ rest) := by
      simp only [List.append_assoc]
    rw [e1, ih (C.take (k * sz)) (C.drop (k * sz) ++ rest) h1]
    have e2 : A0 ++ (List.range k).flatMap blk ++ (C.drop (k * sz) ++ rest)
        = A0 ++ (List.range k).flatMap blk ++ C.drop (k * sz) ++ rest := by
      simp only [List.append_assoc]
    simp only [List.foldl_cons, List.foldl_nil]
    rw [e2, hg k _ _ rest hB h2]
    simp

theorem flatMap_length (blk : Nat → List Nat) (sz : Nat) (hblk : ∀ i, (blk i).length = sz)
    (k : Nat) : ((List.range k).flatMap blk).length = k * sz := by
  induction k with
  | zero => simp
  | succ k ih => simp [List.range_succ, List.flatMap_append, ih, hblk, Nat.succ_mul]

theorem flatMap_block (blk : Nat → List Nat) (sz : Nat) (hblk : ∀ i, (blk i).length = sz)
    (k i : Nat) (h : i < k) :
    (((List.range k).flatMap blk).drop (i * sz)).take sz = blk i := by
  induction k with
  | zero => omega
  | succ k ih =>
    rw [List.range_succ, List.flatMap_append]
    have hl := flatMap_length blk sz hblk k
    by_cases hik : i < k
    · have hle : i * sz + sz ≤ k * sz := by
        calc i * sz + sz = (i + 1) * sz := by ring
          _ ≤ k * sz := Nat.mul_le_mul_right _ hik
      rw [List.drop_append_of_le_length (by rw [hl]; omega),
        List.take_append_of_le_length (by rw [List.length_drop, hl]; omega)]
      exact ih hik
    · have : i = k := by omega
      subst this
      rw [← hl, List.drop_left]
      simp [hblk]

theorem toNat_pos (res : audioBitResolutionT) : 0 < res.toNat := by
  cases res <;> decide

theorem toNetwork_eq (st : JackAudioInterface) (N F : Nat) (mInBuffer : List (List Nat))
    (hN : st.mNumInChans = N) (hF : st.mNumFrames = F)
    (hS : st.mSizeInBytesPerChannel = F * st.mBitResolutionMode.toNat)
    (hP : st.mInputPacket.length = N * (F * st.mBitResolutionMode.toNat)) :
    st.computeNetworkProcessToNetwork mInBuffer
      = (List.range N).flatMap fun c => (List.range F).flatMap fun j =>
          fromSampleToBitConversion
            (sampleAdd (sampleOf mInBuffer c j) (sampleOf st.mOutProcessBuffer c j))
            st.mBitResolutionMode := by
  unfold JackAudioInterface.computeNetworkProcessToNetwork
  rw [hN, hF, Int.toNat_ofNat, Int.toNat_ofNat]
  have inner : ∀ (i : Nat) (B C rest : List Nat),
      B.length = i * (F * st.mBitResolutionMode.toNat) →
      C.length = F * st.mBitResolutionMode.toNat →
      (List.range F).foldl
          (fun packet j =>
            writeBytes packet (st.packetOffset i j)
              (fromSampleToBitConversion
                (sampleAdd (sampleOf mInBuffer i j) (sampleOf st.mOutProcessBuffer i j))
                st.mBitResolutionMode))
          ([] ++ B ++ C ++ rest)
        = [] ++ B ++ ((List.range F).flatMap fun j =>
            fromSampleToBitConversion
              (sampleAdd (sampleOf mInBuffer i j) (sampleOf st.mOutProcessBuffer i j))
              st.mBitResolutionMode) ++ rest := by
    intro i B C rest hB hC
    rw [List.nil_append]
    refine fold_consecutive
      (fun j packet => writeBytes packet (st.packetOffset i j)
        (fromSampleToBitConversion
          (sampleAdd (sampleOf mInBuffer i j) (sampleOf st.mOutProcessBuffer i j))
          st.mBitResolutionMode))
      _ st.mBitResolutionMode.toNat (fun j => fromSampleToBitConversion_length _ _) B ?_ F C rest hC
    intro j B1 C1 rest1 hB1 hC1
    have hoff : st.packetOffset i j = (B ++ B1).length := by
      simp [JackAudioInterface.packetOffset, hS, hB, hB1]
    simp only [hoff]
    exact writeBytes_splice _ (B ++ B1) C1 rest1
      (by rw [hC1, fromSampleToBitConversion_length])
  have outer := fold_consecutive
    (fun i packet => (List.range F).foldl
      (fun packet j =>
        writeBytes packet (st.packetOffset i j)
          (fromSampleToBitConversion
            (sampleAdd (sampleOf mInBuffer i j) (sampleOf st.mOutProcessBuffer i j))
            st.mBitResolutionMode))
      packet)
    (fun i => (List.range F).flatMap fun j =>
      fromSampleToBitConversion
        (sampleAdd (sampleOf mInBuffer i j) (sampleOf st.mOutProcessBuffer i j))
        st.mBitResolutionMode)
    (F * st.mBitResolutionMode.toNat)
    (fun i => flatMap_length _ _ (fun j => fromSampleToBitConversion_length _ _) F)
    [] inner N st.mInputPacket [] hP
  simpa using outer

theorem block_in_block (X : List Nat) (a d b S : Nat) (h : d + b ≤ S) :
    (X.drop (a + d)).take b = (((X.drop a).take S).drop d).take b := by
  rw [List.drop_take, List.take_take, List.drop_drop, Nat.min_eq_left (by omega)]

/-- C9, as stated, fails for a period of `2^27` frames at 32 bits: the
unsigned 32-bit product `F * 32` wraps to `0`, so the size per channel is `0`
and not `F * 4`. -/
theorem size_per_channel_wraps :
    (JackAudioInterface.new 2 2 BIT32).mAudioBitResolution = 32 ∧
      (JackAudioInterface.new 2 2 BIT32).getSizeInBytesPerChannel ⟨true, 134217728, 48000, 0⟩
        = 0 ∧
      134217728 * ((JackAudioInterface.new 2 2 BIT32).mAudioBitResolution / 8) = 536870912 := by
  decide

theorem toInt32_small (a : Nat) (h : a < 2 ^ 31) : toInt32 (a : Int) = (a : Int) := by
  unfold toInt32
  norm_num at h ⊢
  omega

theorem setupClient_ok (self : JackAudioInterface) (host : JackHost) (a b f : Nat)
    (hopen : host.clientOpens = true)
    (hin : toInt32 (self.getSizeInBytesPerChannel host * self.mNumInChans) = a)
    (hout : toInt32 (self.getSizeInBytesPerChannel host * self.mNumOutChans) = b)
    (hfr : toInt32 (JackAudioInterface.getBufferSizeInSamples host) = f) :
    self.setupClient host = Except.ok
      { self with
        mSizeInBytesPerChannel := self.getSizeInBytesPerChannel host
        mNumFrames := f
        mInputPacket := List.replicate a 0
        mOutputPacket := List.replicate b 0
        mInProcessBuffer := List.replicate self.mNumInChans.toNat (List.replicate f 0)
        mOutProcessBuffer := List.replicate self.mNumOutChans.toNat (List.replicate f 0) } := by
  unfold JackAudioInterface.setupClient
  rw [if_neg (by simp [hopen])]
  simp only [hin, hout, hfr]
  have n1 : ¬ ((a : Int) < 0) := by omega
  have n2 : ¬ ((b : Int) < 0) := by omega
  have n3 : ¬ ((f : Int) < 0) := by omega
  simp only [newArray, newProcessBuffers, n1, n2, n3, and_false, if_false, Int.toNat_ofNat]

/-- C9 (amended): for every bit resolution and every period size `F` with
`F * bits < 2^32`, `getSizeInBytesPerChannel` returns exactly `F * (bits/8)`;
and when moreover the channel counts are non-negative and both packet sizes
are below `2^31`, `setupClient` allocates the send packet with
`NumInChans * F * (bits/8)` bytes and the receive packet with
`NumOutChans * F * (bits/8)` bytes. -/
theorem size_per_channel_exact (res : audioBitResolutionT) (nIn nOut F : Nat) (host : JackHost)
    (hF : host.bufferSize = F) (hopen : host.clientOpens = true)
    (h1 : F * (JackAudioInterface.new nIn nOut res).mAudioBitResolution < 2 ^ 32)
    (h2 : nIn * F * ((JackAudioInterface.new nIn nOut res).mAudioBitResolution / 8) < 2 ^ 31)
    (h3 : nOut * F * ((JackAudioInterface.new nIn nOut res).mAudioBitResolution / 8) < 2 ^ 31) :
    (JackAudioInterface.new nIn nOut res).getSizeInBytesPerChannel host
        = F * ((JackAudioInterface.new nIn nOut res).mAudioBitResolution / 8) ∧
      ∃ st, (JackAudioInterface.new nIn nOut res).setupClient host = Except.ok st ∧
        st.mInputPacket.length
          = nIn * F * ((JackAudioInterface.new nIn nOut res).mAudioBitResolution / 8) ∧
        st.mOutputPacket.length
          = nOut * F * ((JackAudioInterface.new nIn nOut res).mAudioBitResolution / 8) ∧
        st.mSizeInBytesPerChannel = F * res.toNat ∧ st.mNumFrames = F ∧
        st.mNumInChans = nIn ∧ st.mNumOutChans = nOut ∧ st.mBitResolutionMode = res := by
  have hbits : (JackAudioInterface.new nIn nOut res).mAudioBitResolution = res.toNat * 8 := rfl
  have hdiv : res.toNat * 8 / 8 = res.toNat := Nat.mul_div_cancel _ (by norm_num)
  rw [hbits] at h1 h2 h3 ⊢
  rw [hdiv] at h2 h3 ⊢
  have hpos := toNat_pos res
  have hF32 : F < 2 ^ 29 := by
    have : F * 8 ≤ F * (res.toNat * 8) := Nat.mul_le_mul_left _ (by omega)
    norm_num at h1 ⊢; omega
  have hS : (JackAudioInterface.new nIn nOut res).getSizeInBytesPerChannel host
      = F * res.toNat := by
    simp only [JackAudioInterface.getSizeInBytesPerChannel,
      JackAudioInterface.getBufferSizeInSamples, hbits, hF]
    have hFlt : F < 2 ^ 32 := by norm_num at hF32 ⊢; omega
    rw [Nat.mod_eq_of_lt hFlt, Nat.mod_eq_of_lt h1, ← Nat.mul_assoc,
      Nat.mul_div_cancel _ (by norm_num)]
  refine ⟨hS, ?_⟩
  have hin : toInt32 (((JackAudioInterface.new nIn nOut res).getSizeInBytesPerChannel host : Nat)
      * (JackAudioInterface.new nIn nOut res).mNumInChans) = ((nIn * F * res.toNat : Nat) : Int) := by
    have e : ((F * res.toNat : Nat) : Int) * (nIn : Int) = ((nIn * F * res.toNat : Nat) : Int) := by
      push_cast; ring
    rw [hS]
    show toInt32 (((F * res.toNat : Nat) : Int) * (nIn : Int)) = _
    rw [e]; exact toInt32_small _ h2
  have hout : toInt32 (((JackAudioInterface.new nIn nOut res).getSizeInBytesPerChannel host : Nat)
      * (JackAudioInterface.new nIn nOut res).mNumOutChans)
      = ((nOut * F * res.toNat : Nat) : Int) := by
    have e : ((F * res.toNat : Nat) : Int) * (nOut : Int)
        = ((nOut * F * res.toNat : Nat) : Int) := by
      push_cast; ring
    rw [hS]
    show toInt32 (((F * res.toNat : Nat) : Int) * (nOut : Int)) = _
    rw [e]; exact toInt32_small _ h3
  have hfr : toInt32 ((JackAudioInterface.getBufferSizeInSamples host : Nat) : Int) = (F : Int) := by
    simp only [JackAudioInterface.getBufferSizeInSamples, hF]
    rw [Nat.mod_eq_of_lt (by norm_num at hF32 ⊢; omega)]
    exact toInt32_small _ (by norm_num at hF32 ⊢; omega)
  refine ⟨_, setupClient_ok _ host _ _ _ hopen hin hout hfr, ?_, ?_, hS, rfl, rfl, rfl, rfl⟩
  · simp
  · simp

theorem size_per_channel_exact_witness :
    (JackAudioInterface.new 2 2 BIT16).getSizeInBytesPerChannel ⟨true, 4, 48000, 0⟩
        = 4 * ((JackAudioInterface.new 2 2 BIT16).mAudioBitResolution / 8) ∧
      ∃ st, (JackAudioInterface.new 2 2 BIT16).setupClient ⟨true, 4, 48000, 0⟩ = Except.ok st ∧
        st.mInputPacket.length
          = 2 * 4 * ((JackAudioInterface.new 2 2 BIT16).mAudioBitResolution / 8) ∧
        st.mOutputPacket.length
          = 2 * 4 * ((JackAudioInterface.new 2 2 BIT16).mAudioBitResolution / 8) ∧
        st.mSizeInBytesPerChannel = 4 * BIT16.toNat ∧ st.mNumFrames = (4 : Nat) ∧
        st.mNumInChans = (2 : Nat) ∧ st.mNumOutChans = (2 : Nat) ∧
        st.mBitResolutionMode = BIT16 :=
  size_per_channel_exact BIT16 2 2 4 ⟨true, 4, 48000, 0⟩ rfl rfl (by decide) (by decide)
    (by decide)

/-- C10: for a host running at 192000 Hz `getSampleRateType` returns `UNDEF`,
not `SR192`; it returns `SR192` for 19200 Hz. -/
theorem sample_rate_192000_is_undef :
    getSampleRateType 192000 = UNDEF ∧ getSampleRateType 19200 = SR192 ∧
      getSampleRateType 22050 = SR22 ∧ getSampleRateType 32000 = SR32 ∧
      getSampleRateType 44100 = SR44 ∧ getSampleRateType 48000 = SR48 ∧
      getSampleRateType 88200 = SR88 ∧ getSampleRateType 96000 = SR96 := by
  decide

/-- C11: for a host running at 192000 Hz `getSampleRateType` returns `UNDEF`
and `getSampleRateFromType` gives `0` back, not 192000; the six other rates do
make the round trip. -/
theorem sample_rate_round_trip_fails_at_192000 :
    getSampleRateFromType (getSampleRateType 192000) = 0 ∧
      getSampleRateFromType SR192 = 192000 ∧
      getSampleRateFromType (getSampleRateType 22050) = 22050 ∧
      getSampleRateFromType (getSampleRateType 32000) = 32000 ∧
      getSampleRateFromType (getSampleRateType 44100) = 44100 ∧
      getSampleRateFromType (getSampleRateType 48000) = 48000 ∧
      getSampleRateFromType (getSampleRateType 88200) = 88200 ∧
      getSampleRateFromType (getSampleRateType 96000) = 96000 := by
  decide

theorem computeCalls_append (xs ys : List CallbackEvent) :
    computeCalls (xs ++ ys) = computeCalls xs ++ computeCalls ys := by
  induction xs with
  | nil => rfl
  | cons x xs ih => cases x <;> simp [computeCalls, ih]

theorem computeCalls_none (l : List CallbackEvent)
    (h : ∀ e ∈ l, ∀ a, e ≠ CallbackEvent.compute a) : computeCalls l = [] := by
  induction l with
  | nil => rfl
  | cons x xs ih =>
    have hx := h x (List.mem_cons_self x xs)
    have hxs : ∀ e ∈ xs, ∀ a, e ≠ CallbackEvent.compute a :=
      fun e he => h e (List.mem_cons_of_mem x he)
    cases x with
    | compute a => exact absurd rfl (hx a)
    | receiveNetworkPacket => exact ih hxs
    | fromBitToSampleConversion i j => exact ih hxs
    | fromSampleToBitConversion i j => exact ih hxs
    | sendNetworkPacket => exact ih hxs

theorem computeCalls_unpack (N F : Nat) :
    computeCalls ((List.range N).flatMap fun i => (List.range F).map
      fun j => CallbackEvent.fromBitToSampleConversion i j) = [] := by
  apply computeCalls_none
  intro e he a h
  simp only [List.mem_flatMap, List.mem_map] at he
  obtain ⟨i, _, j, _, hj⟩ := he
  rw [h] at hj
  cases hj

theorem computeCalls_pack (N F : Nat) :
    computeCalls ((List.range N).flatMap fun i => (List.range F).map
      fun j => CallbackEvent.fromSampleToBitConversion i j) = [] := by
  apply computeCalls_none
  intro e he a h
  simp only [List.mem_flatMap, List.mem_map] at he
  obtain ⟨i, _, j, _, hj⟩ := he
  rw [h] at hj
  cases hj

theorem computeCalls_plugins (ps : List ProcessPlugin) :
    computeCalls (ps.map fun plugin => CallbackEvent.compute plugin.addr)
      = ps.map fun plugin => plugin.addr := by
  induction ps with
  | nil => rfl
  | cons p ps ih => simp [computeCalls, ih]

theorem appended_plugins (ps : List ProcessPlugin) : ∀ start : List ProcessPlugin,
    ps.foldl appendProcessPlugin start = start ++ ps := by
  induction ps with
  | nil => intro start; simp
  | cons p ps ih => intro start; simp [List.foldl_cons, ih, appendProcessPlugin]

/-- C15: after the calls `appendProcessPlugin p1`, ..., `appendProcessPlugin pk`
on an empty vector, `mProcessPlugins` is `p1, ..., pk`, and `processCallback`
invokes `compute` on exactly these plugins, once each, in this order; the
output scratch goes through them in this order too. -/
theorem callback_runs_plugins_in_append_order (self : JackAudioInterface)
    (appended : List ProcessPlugin) (nframes : Nat) (mInBuffer : List (List Nat))
    (received : List Nat) :
    appended.foldl appendProcessPlugin [] = appended ∧
      computeCalls (self.processCallback (appended.foldl appendProcessPlugin []) nframes
          mInBuffer received).trace
        = appended.map (fun plugin => plugin.addr) ∧
      (self.processCallback (appended.foldl appendProcessPlugin []) nframes mInBuffer
          received).mOutProcessBuffer
        = appended.foldl
            (fun out plugin => plugin.compute nframes
              (self.fillInProcessBuffer nframes (self.computeNetworkProcessFromNetwork received))
              out)
            (self.clearOutProcessBuffer nframes) := by
  have h := appended_plugins appended []
  rw [List.nil_append] at h
  rw [h]
  refine ⟨rfl, ?_, rfl⟩
  simp only [JackAudioInterface.processCallback, computeCalls_append, computeCalls_unpack,
    computeCalls_pack, computeCalls_plugins]
  simp [computeCalls]

/-- C16: with one input and two output channels `createChannels` registers
only the output port `receive_1` and leaves the second slot of `mOutPorts`
empty; with two input channels and one output channel it registers
`receive_1` and `receive_2` and writes `mOutPorts` at index 1, past its one
slot.  The input ports are as claimed. -/
theorem createChannels_output_loop_follows_input_count :
    (JackAudioInterface.new 1 2 BIT16).createChannels
        = { mInPorts := [some "send_1"]
            mOutPorts := [some "receive_1", none]
            registered := [SetupEvent.jack_port_register "send_1" true,
              SetupEvent.jack_port_register "receive_1" false]
            outside := [] } ∧
      (JackAudioInterface.new 2 1 BIT16).createChannels
        = { mInPorts := [some "send_1", some "send_2"]
            mOutPorts := [some "receive_1"]
            registered := [SetupEvent.jack_port_register "send_1" true,
              SetupEvent.jack_port_register "send_2" true,
              SetupEvent.jack_port_register "receive_1" false,
              SetupEvent.jack_port_register "receive_2" false]
            outside := [1] } := by
  decide

/-- C17, as stated, fails when the packet size does not fit an `int`: with
eight input channels at 32 bits on a host whose period is `2^26` frames the
client is returned, but the size of the send packet wraps to `-2^31` and
`new` throws, so `setupClient` raises, and `setup` raises although the host
would accept the process callback. -/
theorem setupClient_raises_with_client :
    (JackAudioInterface.new 8 2 BIT32).setupClient ⟨true, 67108864, 48000, 0⟩
        = Except.error "std::bad_alloc" ∧
      (JackAudioInterface.new 8 2 BIT32).setup ⟨true, 67108864, 48000, 0⟩
        = Except.error "std::bad_alloc" ∧
      toInt32 (((JackAudioInterface.new 8 2 BIT32).getSizeInBytesPerChannel
          ⟨true, 67108864, 48000, 0⟩ : Nat) * (JackAudioInterface.new 8 2 BIT32).mNumInChans)
        = -2147483648 :=
  ⟨rfl, rfl, by decide⟩

/-- Without a client `setupClient` and `setup` raise after the single host call
`jack_client_open`. -/
theorem setupClient_no_client (self : JackAudioInterface) (host : JackHost)
    (h : host.clientOpens = false) :
    self.setupClient host = Except.error "Maybe the JACK server is not running?" ∧
      self.setup host = Except.error "Maybe the JACK server is not running?" ∧
      self.setupEvents host = [SetupEvent.jack_client_open] := by
  have e1 : self.setupClient host = Except.error "Maybe the JACK server is not running?" := by
    unfold JackAudioInterface.setupClient
    rw [if_pos h]
  refine ⟨e1, ?_, ?_⟩
  · unfold JackAudioInterface.setup
    rw [e1]
  · unfold JackAudioInterface.setupEvents
    rw [e1]
    simp only [JackAudioInterface.setupClientEvents, if_pos h]

/-- C17 (amended): when the host's client-open call returns no client,
`setupClient` and `setup` raise and the only host call made is
`jack_client_open`: no port is registered, no buffer allocated, no process
callback installed.  When a client is returned and the two packet sizes and
the period that `setupClient` computes are non-negative as `int`,
`setupClient` does not raise, and `setup` raises exactly when the host
rejects the process callback. -/
theorem setup_raises_only_on_host (self : JackAudioInterface) (host : JackHost)
    (h1 : 0 ≤ toInt32 ((self.getSizeInBytesPerChannel host : Nat) * self.mNumInChans))
    (h2 : 0 ≤ toInt32 ((self.getSizeInBytesPerChannel host : Nat) * self.mNumOutChans))
    (h3 : 0 ≤ toInt32 ((JackAudioInterface.getBufferSizeInSamples host : Nat) : Int)) :
    if host.clientOpens = false then
      self.setupClient host = Except.error "Maybe the JACK server is not running?" ∧
        self.setup host = Except.error "Maybe the JACK server is not running?" ∧
        self.setupEvents host = [SetupEvent.jack_client_open]
    else
      ∃ st, self.setupClient host = Except.ok st ∧
        self.setup host
          = (if host.setProcessCallbackCode ≠ 0 then
              Except.error "Could not set the Jack process callback"
            else Except.ok st) := by
  by_cases hc : host.clientOpens = false
  · rw [if_pos hc]
    exact setupClient_no_client self host hc
  · rw [if_neg hc]
    have hopen : host.clientOpens = true := by
      cases h : host.clientOpens
      · exact absurd h hc
      · rfl
    have hok := setupClient_ok self host _ _ _ hopen (Int.toNat_of_nonneg h1).symm
      (Int.toNat_of_nonneg h2).symm (Int.toNat_of_nonneg h3).symm
    refine ⟨_, hok, ?_⟩
    unfold JackAudioInterface.setup
    rw [hok]
    rfl

/-- The theorem `setup_raises_only_on_host` at a host without a client and at a
host that rejects the process callback. -/
theorem setup_raises_only_on_host_witness :
    (if (⟨false, 4, 48000, 0⟩ : JackHost).clientOpens = false then
      (JackAudioInterface.new 2 2 BIT16).setupClient ⟨false, 4, 48000, 0⟩
          = Except.error "Maybe the JACK server is not running?" ∧
        (JackAudioInterface.new 2 2 BIT16).setup ⟨false, 4, 48000, 0⟩
          = Except.error "Maybe the JACK server is not running?" ∧
        (JackAudioInterface.new 2 2 BIT16).setupEvents ⟨false, 4, 48000, 0⟩
          = [SetupEvent.jack_client_open]
    else
      ∃ st, (JackAudioInterface.new 2 2 BIT16).setupClient ⟨false, 4, 48000, 0⟩
          = Except.ok st ∧
        (JackAudioInterface.new 2 2 BIT16).setup ⟨false, 4, 48000, 0⟩
          = (if (⟨false, 4, 48000, 0⟩ : JackHost).setProcessCallbackCode ≠ 0 then
              Except.error "Could not set the Jack process callback"
            else Except.ok st)) ∧
    (if (⟨true, 4, 48000, 1⟩ : JackHost).clientOpens = false then
      (JackAudioInterface.new 2 2 BIT16).setupClient ⟨true, 4, 48000, 1⟩
          = Except.error "Maybe the JACK server is not running?" ∧
        (JackAudioInterface.new 2 2 BIT16).setup ⟨true, 4, 48000, 1⟩
          = Except.error "Maybe the JACK server is not running?" ∧
        (JackAudioInterface.new 2 2 BIT16).setupEvents ⟨true, 4, 48000, 1⟩
          = [SetupEvent.jack_client_open]
    else
      ∃ st, (JackAudioInterface.new 2 2 BIT16).setupClient ⟨true, 4, 48000, 1⟩
          = Except.ok st ∧
        (JackAudioInterface.new 2 2 BIT16).setup ⟨true, 4, 48000, 1⟩
          = (if (⟨true, 4, 48000, 1⟩ : JackHost).setProcessCallbackCode ≠ 0 then
              Except.error "Could not set the Jack process callback"
            else Except.ok st)) :=
  ⟨setup_raises_only_on_host (JackAudioInterface.new 2 2 BIT16) ⟨false, 4, 48000, 0⟩
      (by decide) (by decide) (by decide),
    setup_raises_only_on_host (JackAudioInterface.new 2 2 BIT16) ⟨true, 4, 48000, 1⟩
      (by decide) (by decide) (by decide)⟩

theorem fold_set_length (f : Nat → List Nat → List Nat) (N : Nat) (b : List (List Nat)) :
    ((List.range N).foldl (fun b i => b.set i (f i (b.getD i []))) b).length = b.length := by
  induction N with
  | zero => rfl
  | succ n ih =>
    rw [List.range_succ, List.foldl_append]
    simp only [List.foldl_cons, List.foldl_nil, List.length_set]
    exact ih

theorem getD_set_self (X : List (List Nat)) (n : Nat) (v : List Nat) :
    (X.set n v).getD n [] = if n < X.length then v else [] := by
  rw [List.getD_eq_getElem?_getD, List.getElem?_set]
  by_cases h : n < X.length
  · simp [h]
  · simp [h]

theorem getD_set_other (X : List (List Nat)) (n i : Nat) (v : List Nat) (h : i ≠ n) :
    (X.set n v).getD i [] = X.getD i [] := by
  rw [List.getD_eq_getElem?_getD, List.getD_eq_getElem?_getD, List.getElem?_set]
  rw [if_neg (Ne.symm h)]

theorem getD_outside (X : List (List Nat)) (i : Nat) (h : ¬ i < X.length) : X.getD i [] = [] := by
  rw [List.getD_eq_getElem?_getD, List.getElem?_eq_none (by omega)]
  rfl

theorem fold_set_getD (f : Nat → List Nat → List Nat) (N : Nat) (b : List (List Nat)) (i : Nat) :
    ((List.range N).foldl (fun b i => b.set i (f i (b.getD i []))) b).getD i []
      = if i < N ∧ i < b.length then f i (b.getD i []) else b.getD i [] := by
  induction N with
  | zero => simp
  | succ n ih =>
    rw [List.range_succ, List.foldl_append]
    simp only [List.foldl_cons, List.foldl_nil]
    have hl := fold_set_length f n b
    by_cases hin : i = n
    · subst hin
      have hX : ((List.range i).foldl (fun b i => b.set i (f i (b.getD i []))) b).getD i []
          = b.getD i [] := by
        rw [ih, if_neg (fun h => Nat.lt_irrefl i h.1)]
      rw [getD_set_self, hX, hl]
      by_cases hlt : i < b.length
      · rw [if_pos hlt, if_pos ⟨Nat.lt_succ_self i, hlt⟩]
      · rw [if_neg hlt, if_neg (fun h => hlt h.2), getD_outside b i hlt]
    · rw [getD_set_other _ _ _ _ hin, ih]
      have hiff : (i < n + 1 ∧ i < b.length) ↔ (i < n ∧ i < b.length) := by
        constructor
        · intro h; exact ⟨by omega, h.2⟩
        · intro h; exact ⟨by omega, h.2⟩
      simp only [hiff]

theorem copyFrames_getD (nframes : Nat) (src dst : List Nat) (j : Nat) (hj : j < nframes) :
    (copyFrames nframes src dst).getD j 0 = src.getD j 0 := by
  unfold copyFrames
  rw [List.getD_eq_getElem?_getD, List.getElem?_append_left (by simpa using hj)]
  simp [List.getElem?_map, List.getElem?_range hj]

theorem zeroFrames_getD (nframes : Nat) (dst : List Nat) (j : Nat) (hj : j < nframes) :
    (zeroFrames nframes dst).getD j 0 = 0 := by
  unfold zeroFrames
  rw [List.getD_eq_getElem?_getD, List.getElem?_append_left (by simpa using hj)]
  simp [List.getElem?_replicate, hj]

theorem fillInProcessBuffer_sample (self : JackAudioInterface) (nframes : Nat)
    (mOutBuffer : List (List Nat)) (i j : Nat) (hi : i < self.mNumInChans.toNat)
    (hl : i < self.mInProcessBuffer.length) (hj : j < nframes) :
    sampleOf (self.fillInProcessBuffer nframes mOutBuffer) i j = sampleOf mOutBuffer i j := by
  unfold sampleOf JackAudioInterface.fillInProcessBuffer
  rw [fold_set_getD (fun i old => copyFrames nframes (mOutBuffer.getD i []) old), if_pos ⟨hi, hl⟩]
  exact copyFrames_getD nframes _ _ j hj

theorem clearOutProcessBuffer_sample (self : JackAudioInterface) (nframes : Nat) (i j : Nat)
    (hi : i < self.mNumOutChans.toNat) (hl : i < self.mOutProcessBuffer.length)
    (hj : j < nframes) :
    sampleOf (self.clearOutProcessBuffer nframes) i j = 0 := by
  unfold sampleOf JackAudioInterface.clearOutProcessBuffer
  rw [fold_set_getD (fun _ old => zeroFrames nframes old), if_pos ⟨hi, hl⟩]
  exact zeroFrames_getD nframes _ j hj

/-- C13, as stated, fails: with a plugin that writes `1.0` to all its output,
the plugin chain's output is `1.0` everywhere, but the buffers handed back to
the audio host hold the unpacked payload, here zeros. -/
theorem callback_out_is_not_plugin_output :
    (exampleInterface.processCallback [onesPlugin] 4 (List.replicate 2 (List.replicate 4 0))
        (List.replicate 16 0)).mOutProcessBuffer
        = List.replicate 2 (List.replicate 4 0x3F800000) ∧
      (exampleInterface.processCallback [onesPlugin] 4 (List.replicate 2 (List.replicate 4 0))
        (List.replicate 16 0)).mOutBuffer
        = List.replicate 2 (List.replicate 4 0) ∧
      (exampleInterface.processCallback [onesPlugin] 4 (List.replicate 2 (List.replicate 4 0))
        (List.replicate 16 0)).mOutBuffer
        ≠ (exampleInterface.processCallback [onesPlugin] 4
            (List.replicate 2 (List.replicate 4 0)) (List.replicate 16 0)).mOutProcessBuffer := by
  decide

/-- C13 (amended): `processCallback` copies the unpacked received samples
`out[*]` into the plugin input scratch and runs the plugin chain on that
scratch with a zeroed output scratch; the chain's result stays in the output
scratch and is not written back, so whatever plugins are appended the buffers
handed back to the audio host hold exactly the unpacked payload. -/
theorem callback_out_is_unpacked_payload (self : JackAudioInterface)
    (mProcessPlugins : List ProcessPlugin) (nframes : Nat) (mInBuffer : List (List Nat))
    (received : List Nat) :
    (self.processCallback mProcessPlugins nframes mInBuffer received).mOutBuffer
        = self.computeNetworkProcessFromNetwork received ∧
      (∀ i j, i < self.mNumInChans.toNat → i < self.mInProcessBuffer.length → j < nframes →
        sampleOf (self.processCallback mProcessPlugins nframes mInBuffer received).mInProcessBuffer
            i j
          = sampleOf (self.processCallback mProcessPlugins nframes mInBuffer received).mOutBuffer
              i j) ∧
      (∀ i j, i < self.mNumOutChans.toNat → i < self.mOutProcessBuffer.length → j < nframes →
        sampleOf (self.clearOutProcessBuffer nframes) i j = 0) ∧
      (self.processCallback mProcessPlugins nframes mInBuffer received).mOutProcessBuffer
        = mProcessPlugins.foldl
            (fun out plugin => plugin.compute nframes
              (self.processCallback mProcessPlugins nframes mInBuffer received).mInProcessBuffer
              out)
            (self.clearOutProcessBuffer nframes) ∧
      (self.processCallback [] nframes mInBuffer received).mOutBuffer
        = (self.processCallback mProcessPlugins nframes mInBuffer received).mOutBuffer := by
  refine ⟨rfl, ?_, ?_, rfl, rfl⟩
  · intro i j hi hl hj
    exact fillInProcessBuffer_sample self nframes _ i j hi hl hj
  · intro i j hi hl hj
    exact clearOutProcessBuffer_sample self nframes i j hi hl hj

theorem excessAux_mul_pow (m : Nat) (h1 : 2 ^ 23 ≤ m) (h2 : m < 2 ^ 24) :
    ∀ k fuel : Nat, k ≤ fuel → excessAux fuel (m * 2 ^ k) = k := by
  intro k
  induction k with
  | zero =>
    intro fuel _
    cases fuel with
    | zero => rfl
    | succ f =>
      unfold excessAux
      rw [if_pos (by simpa using h2)]
  | succ k ih =>
    intro fuel hf
    cases fuel with
    | zero => omega
    | succ f =>
      have hge : ¬ (m * 2 ^ (k + 1) < 2 ^ 24) := by
        have hk : 1 ≤ 2 ^ k := Nat.one_le_two_pow
        have e : m * 2 ^ (k + 1) = 2 * (m * 2 ^ k) := by rw [pow_succ]; ring
        have : m ≤ m * 2 ^ k := Nat.le_mul_of_pos_right m hk
        rw [e]
        norm_num at h1 ⊢
        omega
      have hhalf : m * 2 ^ (k + 1) / 2 = m * 2 ^ k := by
        rw [pow_succ, ← mul_assoc]; exact Nat.mul_div_cancel _ (by norm_num)
      unfold excessAux
      rw [if_neg hge, hhalf, ih f (by omega)]

theorem excess_mul_pow (m k : Nat) (h1 : 2 ^ 23 ≤ m) (h2 : m < 2 ^ 24) :
    excess (m * 2 ^ k) = k := by
  unfold excess
  apply excessAux_mul_pow m h1 h2
  have hk : k < 2 ^ k := Nat.lt_two_pow k
  have hm : 1 ≤ m := by
    have : (1 : Nat) ≤ 2 ^ 23 := Nat.one_le_two_pow
    omega
  have := Nat.le_mul_of_pos_left (2 ^ k) hm
  omega

theorem toBits_subnormal (s fr : Nat) (hs : s = 0 ∨ s = 1) (hfr : fr < 2 ^ 23) (hpos : 0 < fr) :
    roundF32 (FVal.fin (if s = 1 then -(fr : Int) else (fr : Int)))
        = FVal.fin (if s = 1 then -(fr : Int) else (fr : Int)) ∧
      toBits (FVal.fin (if s = 1 then -(fr : Int) else (fr : Int))) = s * 2 ^ 31 + fr := by
  have hfit : Fits24 (if s = 1 then -(fr : Int) else (fr : Int)).natAbs := by
    refine ⟨fr, 0, ?_, ?_⟩
    · split <;> simp
    · norm_num at hfr ⊢; omega
  have hab : (if s = 1 then -(fr : Int) else (fr : Int)).natAbs = fr := by split <;> simp
  have hlt : (if s = 1 then -(fr : Int) else (fr : Int)).natAbs < 2 ^ 128 * one := by
    rw [hab]
    have : (2 : Nat) ^ 23 ≤ 2 ^ 128 * one := by unfold one; norm_num
    omega
  refine ⟨roundF32_fits _ hfit hlt, ?_⟩
  unfold toBits
  rw [roundF32_fits _ hfit hlt]
  simp only [hab, if_pos hfr]
  rcases hs with h | h
  · subst h
    have : ¬ ((fr : Int) < 0) := by omega
    simp [this]
  · subst h
    have : (-(fr : Int) < 0) := by omega
    simp [this]

theorem toBits_normal (s ex fr : Nat) (hs : s = 0 ∨ s = 1) (h1 : 1 ≤ ex) (h2 : ex < 255)
    (hfr : fr < 2 ^ 23) :
    roundF32 (FVal.fin (if s = 1 then -(((2 ^ 23 + fr) * 2 ^ (ex - 1) : Nat) : Int)
          else (((2 ^ 23 + fr) * 2 ^ (ex - 1) : Nat) : Int)))
        = FVal.fin (if s = 1 then -(((2 ^ 23 + fr) * 2 ^ (ex - 1) : Nat) : Int)
          else (((2 ^ 23 + fr) * 2 ^ (ex - 1) : Nat) : Int)) ∧
      toBits (FVal.fin (if s = 1 then -(((2 ^ 23 + fr) * 2 ^ (ex - 1) : Nat) : Int)
          else (((2 ^ 23 + fr) * 2 ^ (ex - 1) : Nat) : Int)))
        = s * 2 ^ 31 + ex * 2 ^ 23 + fr := by
  have hm1 : 2 ^ 23 ≤ 2 ^ 23 + fr := Nat.le_add_right _ _
  have hm2 : 2 ^ 23 + fr < 2 ^ 24 := by norm_num at hfr ⊢; omega
  generalize hmag : (2 ^ 23 + fr) * 2 ^ (ex - 1) = mag
  have hex := excess_mul_pow (2 ^ 23 + fr) (ex - 1) hm1 hm2
  rw [hmag] at hex
  have hab : (if s = 1 then -(mag : Int) else (mag : Int)).natAbs = mag := by split <;> simp
  have hfit : Fits24 (if s = 1 then -(mag : Int) else (mag : Int)).natAbs := by
    rw [hab]; exact ⟨2 ^ 23 + fr, ex - 1, hmag.symm, hm2⟩
  have hge : 2 ^ 23 ≤ mag := by
    rw [← hmag]
    exact le_trans hm1 (Nat.le_mul_of_pos_right _ Nat.one_le_two_pow)
  have hlt : (if s = 1 then -(mag : Int) else (mag : Int)).natAbs < 2 ^ 128 * one := by
    rw [hab, ← hmag]
    calc (2 ^ 23 + fr) * 2 ^ (ex - 1) < 2 ^ 24 * 2 ^ (ex - 1) :=
          Nat.mul_lt_mul_of_pos_right hm2 (Nat.pow_pos (by norm_num))
      _ ≤ 2 ^ 24 * 2 ^ 253 :=
          Nat.mul_le_mul_left _ (Nat.pow_le_pow_right (by norm_num) (by omega))
      _ = 2 ^ 128 * one := by unfold one; norm_num
  have hdiv : mag / 2 ^ (ex - 1) = 2 ^ 23 + fr := by
    rw [← hmag]; exact Nat.mul_div_cancel _ (Nat.pow_pos (by norm_num))
  refine ⟨roundF32_fits _ hfit hlt, ?_⟩
  unfold toBits
  rw [roundF32_fits _ hfit hlt]
  simp only [hab, if_neg (not_lt.mpr hge), hex, hdiv]
  have he : ex - 1 + 1 = ex := by omega
  rw [he, Nat.add_sub_cancel_left]
  rcases hs with h | h
  · subst h
    have : ¬ ((mag : Int) < 0) := by omega
    simp [this]
  · subst h
    have : (-(mag : Int) < 0) := by omega
    simp [this]

theorem bit_fields (a : Nat) (h : a < 2 ^ 32) :
    ∃ s ex fr : Nat, (s = 0 ∨ s = 1) ∧ ex < 256 ∧ fr < 2 ^ 23 ∧
      a = s * 2 ^ 31 + ex * 2 ^ 23 + fr ∧ a / 2 ^ 31 % 2 = s ∧ a / 2 ^ 23 % 256 = ex ∧
      a % 2 ^ 23 = fr := by
  refine ⟨a / 2 ^ 31, a / 2 ^ 23 % 256, a % 2 ^ 23, ?_, ?_, ?_, ?_, ?_, rfl, rfl⟩
  · norm_num at h ⊢; omega
  · norm_num; omega
  · norm_num; omega
  · norm_num at h ⊢; omega
  · norm_num at h ⊢; omega

theorem ofBits_zero : ofBits 0 = FVal.fin 0 := by decide

theorem sampleAdd_zero (a : Nat) (h : a < 2 ^ 32) (hz : a ≠ 2 ^ 31) (hn : ¬ signallingNaN a) :
    sampleAdd a 0 = a := by
  obtain ⟨s, ex, fr, hs, hex, hfr, ha, e1, e2, e3⟩ := bit_fields a h
  have hof : ofBits a = (if ex = 255 then (if fr = 0 then FVal.inf (s == 1) else FVal.nan)
      else FVal.fin (if s = 1
        then -((if ex = 0 then fr else (2 ^ 23 + fr) * 2 ^ (ex - 1) : Nat) : Int)
        else ((if ex = 0 then fr else (2 ^ 23 + fr) * 2 ^ (ex - 1) : Nat) : Int))) := by
    unfold ofBits
    simp only [e1, e2, e3]
  have hsn : ¬ (ex = 255 ∧ fr ≠ 0 ∧ fr < 2 ^ 22) := by
    intro hc
    apply hn
    unfold signallingNaN
    rw [e2, e3]
    exact hc
  have h0nan : ofBits 0 ≠ FVal.nan := by rw [ofBits_zero]; intro hc; cases hc
  unfold sampleAdd
  by_cases h255 : ex = 255
  · by_cases hfr0 : fr = 0
    · have hv : ofBits a = FVal.inf (s == 1) := by rw [hof, if_pos h255, if_pos hfr0]
      have hm : ¬ (a % 2 ^ 31 = 0 ∧ 0 % 2 ^ 31 = 0) := by
        intro hc
        have := hc.1
        rw [ha, h255, hfr0] at this
        norm_num at this
        omega
      rw [if_neg (by rw [hv]; intro hc; cases hc), if_neg h0nan, if_neg hm, hv, ofBits_zero]
      simp only [FVal.add, toBits, roundF32]
      rw [ha, h255, hfr0]
      rcases hs with h | h <;> subst h <;> norm_num
    · have hv : ofBits a = FVal.nan := by rw [hof, if_pos h255, if_neg hfr0]
      rw [if_pos hv]
      have hq : 2 ^ 22 ≤ fr := by
        by_contra hc
        exact hsn ⟨h255, hfr0, by omega⟩
      rw [ha, h255]
      norm_num at hfr hq ⊢
      rcases hs with h | h <;> subst h <;> omega
  · have hlt : ex < 255 := by omega
    by_cases hzero : ex = 0 ∧ fr = 0
    · have ha0 : a = 0 := by
        rw [ha, hzero.1, hzero.2] at hz ⊢
        rcases hs with h | h
        · subst h; rfl
        · subst h; exact absurd rfl hz
      rw [ha0]
      decide
    · have hm : ¬ (a % 2 ^ 31 = 0 ∧ 0 % 2 ^ 31 = 0) := by
        intro hc
        have := hc.1
        rw [ha] at this
        apply hzero
        norm_num at hfr this ⊢
        rcases hs with h | h <;> subst h <;> omega
      by_cases hsub : ex = 0
      · have hpos : 0 < fr := by
          rcases Nat.eq_zero_or_pos fr with h | h
          · exact absurd ⟨hsub, h⟩ hzero
          · exact h
        have hv : ofBits a = FVal.fin (if s = 1 then -(fr : Int) else (fr : Int)) := by
          rw [hof, if_neg h255]; simp only [hsub, if_true]
        obtain ⟨r1, r2⟩ := toBits_subnormal s fr hs hfr hpos
        rw [if_neg (by rw [hv]; intro hc; cases hc), if_neg h0nan, if_neg hm, hv, ofBits_zero]
        simp only [FVal.add, add_zero, r1, r2]
        rw [ha, hsub]; ring
      · have hv : ofBits a = FVal.fin (if s = 1
            then -(((2 ^ 23 + fr) * 2 ^ (ex - 1) : Nat) : Int)
            else (((2 ^ 23 + fr) * 2 ^ (ex - 1) : Nat) : Int)) := by
          rw [hof, if_neg h255]; simp only [hsub, if_false]
        obtain ⟨r1, r2⟩ := toBits_normal s ex fr hs (by omega) hlt hfr
        rw [if_neg (by rw [hv]; intro hc; cases hc), if_neg h0nan, if_neg hm, hv, ofBits_zero]
        simp only [FVal.add, add_zero, r1, r2]
        exact ha.symm

theorem toNetwork_block (st : JackAudioInterface) (N F : Nat) (mInBuffer : List (List Nat))
    (hN : st.mNumInChans = N) (hF : st.mNumFrames = F)
    (hS : st.mSizeInBytesPerChannel = F * st.mBitResolutionMode.toNat)
    (hP : st.mInputPacket.length = N * F * st.mBitResolutionMode.toNat)
    (c j : Nat) (hc : c < N) (hj : j < F) :
    ((st.computeNetworkProcessToNetwork mInBuffer).drop
        (c * F * st.mBitResolutionMode.toNat + j * st.mBitResolutionMode.toNat)).take
        st.mBitResolutionMode.toNat
      = fromSampleToBitConversion
          (sampleAdd (sampleOf mInBuffer c j) (sampleOf st.mOutProcessBuffer c j))
          st.mBitResolutionMode := by
  have hP' : st.mInputPacket.length = N * (F * st.mBitResolutionMode.toNat) := by
    rw [hP, Nat.mul_assoc]
  have heq := toNetwork_eq st N F mInBuffer hN hF hS hP'
  have hlen : ∀ c, ((List.range F).flatMap fun j =>
      fromSampleToBitConversion
        (sampleAdd (sampleOf mInBuffer c j) (sampleOf st.mOutProcessBuffer c j))
        st.mBitResolutionMode).length = F * st.mBitResolutionMode.toNat :=
    fun c => flatMap_length _ _ (fun j => fromSampleToBitConversion_length _ _) F
  have hin : j * st.mBitResolutionMode.toNat + st.mBitResolutionMode.toNat
      ≤ F * st.mBitResolutionMode.toNat := by
    have h1 : (j + 1) * st.mBitResolutionMode.toNat ≤ F * st.mBitResolutionMode.toNat :=
      Nat.mul_le_mul_right _ hj
    have e4 : (j + 1) * st.mBitResolutionMode.toNat
        = j * st.mBitResolutionMode.toNat + st.mBitResolutionMode.toNat := by ring
    omega
  rw [heq, Nat.mul_assoc,
    block_in_block _ _ _ _ (F * st.mBitResolutionMode.toNat) hin,
    flatMap_block _ _ hlen N c hc]
  exact flatMap_block _ _ (fun j => fromSampleToBitConversion_length _ _) F j hj

/-- C14, as stated, fails: with a plugin that copies its input to its output,
a live input of `0.25` on every sample and a received packet of zeros, the
claim expects the encoding of `0.25 + 0.25`, the bytes `00 40` at 16 bits; the
plugin is run on the received samples, so the code sends the encoding of
`0.25 + 0`, the bytes `00 20`, for every sample. -/
theorem callback_plugins_do_not_read_live_input :
    copyPlugin.compute 4 (List.replicate 2 (List.replicate 4 0x3E800000))
        (List.replicate 2 (List.replicate 4 0))
        = List.replicate 2 (List.replicate 4 0x3E800000) ∧
      fromSampleToBitConversion (sampleAdd 0x3E800000 0x3E800000) BIT16 = [0, 64] ∧
      (exampleInterface.processCallback [copyPlugin] 4
          (List.replicate 2 (List.replicate 4 0x3E800000)) (List.replicate 16 0)).sent
        = [0, 32, 0, 32, 0, 32, 0, 32, 0, 32, 0, 32, 0, 32, 0, 32] ∧
      (exampleInterface.processCallback [copyPlugin] 4
          (List.replicate 2 (List.replicate 4 0x3E800000)) (List.replicate 16 0)).mInProcessBuffer
        = List.replicate 2 (List.replicate 4 0) := by
  decide

/-- C14 (amended): the plugin chain that contributes to the sent packet is
run on the samples unpacked from the received packet, not on the live input;
the payload sent is, for every input channel `c` and frame `j`, the encoding
of the `float` sum of `in[c][j]` and what the chain left in the output
scratch at `(c, j)`.  With an empty chain that is the encoding of
`in[c][j] + 0.0`, which is the encoding of `in[c][j]` itself for every sample
other than negative zero and the signalling NaNs. -/
theorem callback_sends_input_plus_plugin_output (st : JackAudioInterface)
    (mProcessPlugins : List ProcessPlugin) (N F : Nat) (mInBuffer : List (List Nat))
    (received : List Nat)
    (hN : st.mNumInChans = N) (hM : st.mNumOutChans = N) (hF : st.mNumFrames = F)
    (hS : st.mSizeInBytesPerChannel = F * st.mBitResolutionMode.toNat)
    (hP : st.mInputPacket.length = N * F * st.mBitResolutionMode.toNat)
    (hO : st.mOutProcessBuffer.length = N) :
    (st.processCallback mProcessPlugins F mInBuffer received).mOutProcessBuffer
        = runPlugins mProcessPlugins F
            (st.fillInProcessBuffer F (st.computeNetworkProcessFromNetwork received))
            (st.clearOutProcessBuffer F) ∧
      (∀ c j, c < N → j < F →
        ((st.processCallback mProcessPlugins F mInBuffer received).sent.drop
            (c * F * st.mBitResolutionMode.toNat + j * st.mBitResolutionMode.toNat)).take
            st.mBitResolutionMode.toNat
          = fromSampleToBitConversion
              (sampleAdd (sampleOf mInBuffer c j)
                (sampleOf (st.processCallback mProcessPlugins F mInBuffer received).mOutProcessBuffer
                  c j))
              st.mBitResolutionMode) ∧
      (∀ c j, c < N → j < F →
        ((st.processCallback [] F mInBuffer received).sent.drop
            (c * F * st.mBitResolutionMode.toNat + j * st.mBitResolutionMode.toNat)).take
            st.mBitResolutionMode.toNat
          = fromSampleToBitConversion (sampleAdd (sampleOf mInBuffer c j) 0)
              st.mBitResolutionMode) ∧
      (∀ c j, c < N → j < F → sampleOf mInBuffer c j < 2 ^ 32 →
        sampleOf mInBuffer c j ≠ 2 ^ 31 → ¬ signallingNaN (sampleOf mInBuffer c j) →
        ((st.processCallback [] F mInBuffer received).sent.drop
            (c * F * st.mBitResolutionMode.toNat + j * st.mBitResolutionMode.toNat)).take
            st.mBitResolutionMode.toNat
          = fromSampleToBitConversion (sampleOf mInBuffer c j) st.mBitResolutionMode) := by
  have hblock : ∀ (ps : List ProcessPlugin) (c j : Nat), c < N → j < F →
      ((st.processCallback ps F mInBuffer received).sent.drop
          (c * F * st.mBitResolutionMode.toNat + j * st.mBitResolutionMode.toNat)).take
          st.mBitResolutionMode.toNat
        = fromSampleToBitConversion
            (sampleAdd (sampleOf mInBuffer c j)
              (sampleOf (st.processCallback ps F mInBuffer received).mOutProcessBuffer c j))
            st.mBitResolutionMode := by
    intro ps c j hc hj
    exact toNetwork_block
      { st with
        mInProcessBuffer := st.fillInProcessBuffer F (st.computeNetworkProcessFromNetwork received)
        mOutProcessBuffer := runPlugins ps F
          (st.fillInProcessBuffer F (st.computeNetworkProcessFromNetwork received))
          (st.clearOutProcessBuffer F) }
      N F mInBuffer hN hF hS hP c j hc hj
  have hzero : ∀ c j, c < N → j < F →
      sampleOf (st.processCallback [] F mInBuffer received).mOutProcessBuffer c j = 0 := by
    intro c j hc hj
    have hc1 : c < st.mNumOutChans.toNat := by rw [hM]; simpa using hc
    exact clearOutProcessBuffer_sample st F c j hc1 (by rw [hO]; exact hc) hj
  refine ⟨rfl, fun c j hc hj => hblock mProcessPlugins c j hc hj, ?_, ?_⟩
  · intro c j hc hj
    rw [hblock [] c j hc hj, hzero c j hc hj]
  · intro c j hc hj h32 hz hs
    rw [hblock [] c j hc hj, hzero c j hc hj, sampleAdd_zero _ h32 hz hs]

/-- The theorem `callback_sends_input_plus_plugin_output` at the example
interface with the copying plugin, for channel 1 and frame 2. -/
theorem callback_sends_input_plus_plugin_output_witness :
    ((exampleInterface.processCallback [copyPlugin] 4 [scenarioS1, scenarioS1]
        (List.replicate 16 0)).sent.drop
        (1 * 4 * exampleInterface.mBitResolutionMode.toNat
          + 2 * exampleInterface.mBitResolutionMode.toNat)).take
        exampleInterface.mBitResolutionMode.toNat
      = fromSampleToBitConversion
          (sampleAdd (sampleOf [scenarioS1, scenarioS1] 1 2)
            (sampleOf (exampleInterface.processCallback [copyPlugin] 4
              [scenarioS1, scenarioS1] (List.replicate 16 0)).mOutProcessBuffer 1 2))
          exampleInterface.mBitResolutionMode :=
  (callback_sends_input_plus_plugin_output exampleInterface [copyPlugin] 2 4
    [scenarioS1, scenarioS1] (List.replicate 16 0) rfl rfl rfl rfl rfl rfl).2.1 1 2
    (by decide) (by decide)

/-- A run at the example interface with the copying plugin: of the two packets
in the receive ring the first is taken, and the packet put into the send ring
after the one that was there is the encoding of the JACK input. -/
theorem processCallbackRun_example :
    (exampleInterface.processCallbackRun [copyPlugin] 4 [scenarioS1, scenarioS1]
        exampleRun).mJackTrip
        = { RecvRing := [List.replicate 16 7]
            SendRing := [[1, 2, 3],
              [0, 64, 0, 96, 0, 192, 0, 128, 0, 0, 0, 64, 0, 192, 0, 128]] }
      ∧ ((exampleInterface.processCallbackRun [copyPlugin] 4 [scenarioS1, scenarioS1]
          exampleRun).trace.filter
            (fun e => decide (e = CallbackEvent.receiveNetworkPacket
              ∨ e = CallbackEvent.sendNetworkPacket ∨ e = CallbackEvent.compute 2
              ∨ e = CallbackEvent.compute 9)))
        = [CallbackEvent.compute 9, CallbackEvent.receiveNetworkPacket, CallbackEvent.compute 2,
            CallbackEvent.sendNetworkPacket] := by
  decide

/-- After `processFinished` the running flag is false. -/
theorem processFinished_not_running (self : QJackTrip) :
    self.processFinished.m_jackTripRunning = false := by
  unfold QJackTrip.processFinished
  by_cases h : self.m_jackTripRunning = false
  · rw [if_pos h]; exact h
  · rw [if_neg h]
    simp only [QJackTrip.enableUi]
    split_ifs <;> rfl

/-- The text `Error: ` followed by a message starts with `Error: `. -/
theorem error_text_starts (errorMessage : String) :
    "Error: ".data <+: ("Error: " ++ errorMessage).data := by
  rw [String.data_append]
  exact List.prefix_append _ _

/-- C18: `processError` shows one message box and then runs `processFinished`.
The box has the text of the message itself, without the prefix `Error: `, and
the title `Disconnected` exactly when the message is `Peer Stopped`; for
every other message the text is `Error: ` followed by the message (title
`Doh!`).  In both cases the running flag is false afterwards. -/
theorem processError_reports_peer_stop_as_disconnect (self : QJackTrip)
    (errorMessage : String) :
    ∃ text windowTitle,
      self.processError errorMessage
          = QJackTrip.processFinished
              { self with events := self.events ++ [GuiEvent.messageBox text windowTitle] }
        ∧ text = (if errorMessage = "Peer Stopped" then errorMessage
                  else "Error: " ++ errorMessage)
        ∧ windowTitle = (if errorMessage = "Peer Stopped" then "Disconnected" else "Doh!")
        ∧ ((¬ "Error: ".data <+: text.data ∧ windowTitle = "Disconnected")
            ↔ errorMessage = "Peer Stopped")
        ∧ (self.processError errorMessage).m_jackTripRunning = false := by
  by_cases h : errorMessage = "Peer Stopped"
  · refine ⟨errorMessage, "Disconnected", ?_, ?_, ?_, ?_, ?_⟩
    · simp only [QJackTrip.processError, if_pos h]
    · rw [if_pos h]
    · rw [if_pos h]
    · refine ⟨fun _ => h, fun _ => ⟨?_, rfl⟩⟩
      subst h
      decide
    · exact processFinished_not_running _
  · refine ⟨"Error: " ++ errorMessage, "Doh!", ?_, ?_, ?_, ?_, ?_⟩
    · simp only [QJackTrip.processError, if_neg h]
    · rw [if_neg h]
    · rw [if_neg h]
    · refine ⟨fun hh => absurd (error_text_starts errorMessage) hh.1, fun hh => absurd hh h⟩
    · exact processFinished_not_running _

/-- C19: with the run mode `Client` and the connect-audio option unchecked the
command line contains `-D`, yet `start` configures the session to connect the
default audio ports: the only call of `setConnectDefaultAudioPorts` has the
argument `true`, and the calls made on the session are those made with the
option checked. -/
theorem start_connects_audio_ports_although_unchecked :
    Arg.D ∈ commandLineArgs { exampleWindow.m_ui with connectAudioCheckBox := false }
      ∧ Arg.D ∉ commandLineArgs exampleWindow.m_ui
      ∧ (QJackTrip.start
            { exampleWindow with
              m_ui := { exampleWindow.m_ui with connectAudioCheckBox := false } } none).m_jackTrip
          = some
              [JackTripCall.construct jacktripModeT.CLIENT 2 4 1 audioBitResolutionT.BIT16,
                JackTripCall.setConnectDefaultAudioPorts true,
                JackTripCall.setPeerAddress "192.168.1.20",
                JackTripCall.setBindPorts 4464,
                JackTripCall.setPeerPorts 4464,
                JackTripCall.setPeerHandshakePort 4464,
                JackTripCall.startProcess]
      ∧ (QJackTrip.start
            { exampleWindow with
              m_ui := { exampleWindow.m_ui with connectAudioCheckBox := false } } none).m_jackTrip
          = (exampleWindow.start none).m_jackTrip := by
  decide

/-- Membership in the list of one optional piece. -/
theorem mem_optional {α : Type} (c : Prop) [Decidable c] (a x : α) :
    x ∈ (if c then [a] else []) ↔ c ∧ x = a := by
  by_cases h : c
  · rw [if_pos h]; simp [h]
  · rw [if_neg h]; simp [h]

/-- The first piece of the command line is one of the four mode flags. -/
theorem mode_piece (p q r : Prop) [Decidable p] [Decidable q] [Decidable r] (a : String) :
    (if p then Arg.c a else if q then Arg.s else if r then Arg.C a else Arg.S) = Arg.c a
      ∨ (if p then Arg.c a else if q then Arg.s else if r then Arg.C a else Arg.S) = Arg.s
      ∨ (if p then Arg.c a else if q then Arg.s else if r then Arg.C a else Arg.S) = Arg.C a
      ∨ (if p then Arg.c a else if q then Arg.s else if r then Arg.C a else Arg.S) = Arg.S := by
  split_ifs <;> simp

/-- The accumulator of `String.join`. -/
theorem join_acc (l : List String) (acc : String) :
    l.foldl (fun r s => r ++ s) acc = acc ++ String.join l := by
  induction l generalizing acc with
  | nil => simp [String.join]
  | cons a rest ih =>
    have e : String.join (a :: rest) = a ++ String.join rest := by
      show List.foldl _ "" (a :: rest) = _
      rw [List.foldl_cons, ih ("" ++ a)]
      simp
    rw [List.foldl_cons, ih (acc ++ a), e, String.append_assoc]

/-- The text of a list of pieces that starts with one piece. -/
theorem join_cons (a : String) (l : List String) : String.join (a :: l) = a ++ String.join l := by
  show List.foldl _ "" (a :: l) = _
  rw [List.foldl_cons, join_acc]
  simp

/-- The text of two lists of pieces is the text of the first followed by the
text of the second. -/
theorem join_append (l1 l2 : List String) :
    String.join (l1 ++ l2) = String.join l1 ++ String.join l2 := by
  induction l1 with
  | nil => simp [String.join]
  | cons a rest ih => rw [List.cons_append, join_cons, join_cons, ih, String.append_assoc]

/-- The text of one optional piece. -/
theorem join_map_optional (c : Prop) [Decidable c] (a : Arg) (f : Arg → String) :
    String.join ((if c then [a] else []).map f) = (if c then f a else "") := by
  split_ifs
  · rw [List.map_cons, join_cons]; simp [String.join]
  · simp [String.join]

/-- The whole command line in hub-server mode: the flag `-S` and then, each
only when its test holds, `-z`, `-p`, `-q`, `-B` and `-U` with their
numbers. -/
theorem hub_commandLine_text (argDouble : Int → String) (ui : Ui)
    (h : ui.typeComboBox = "Hub Server") :
    commandLineFromCurrentOptions argDouble ui
      = "qjacktrip" ++ " -S"
        ++ (if ui.zeroCheckBox = true then " -z" else "")
        ++ (if (if ui.autoPatchComboBox > 2 then ui.autoPatchComboBox + 1
                else ui.autoPatchComboBox) > 0 then
              " -p " ++ toString (if ui.autoPatchComboBox > 2 then ui.autoPatchComboBox + 1
                else ui.autoPatchComboBox)
            else "")
        ++ (if ui.queueLengthSpinBox ≠ 4 then " -q " ++ toString ui.queueLengthSpinBox else "")
        ++ (if ui.localPortSpinBox ≠ 4464 then " -B " ++ toString ui.localPortSpinBox else "")
        ++ (if ui.basePortSpinBox ≠ 61002 + (ui.localPortSpinBox - 4464) then
              " -U " ++ toString ui.basePortSpinBox
            else "") := by
  have hc : endsWithClient ui.typeComboBox = false := by rw [h]; decide
  have h1 : ¬ ui.typeComboBox = "Client" := by rw [h]; decide
  have h2 : ¬ ui.typeComboBox = "Server" := by rw [h]; decide
  have h3 : ¬ ui.typeComboBox = "Hub Client" := by rw [h]; decide
  have hc0 : endsWithClient "Hub Server" = false := by decide
  unfold commandLineFromCurrentOptions commandLineArgs
  simp only [h, hc, hc0, if_neg h1, if_neg h2, if_neg h3, if_true, Bool.false_eq_true, if_false,
    gDefaultQueueLength, gDefaultPort, List.append_nil, List.map_append, join_append,
    join_map_optional, List.map_cons, List.map_nil, join_cons, Arg.render, String.append_assoc]
  simp [String.join]

/-- C20, as stated, fails for a redundancy factor below the default: with the
redundancy 0 in client mode, the other options at their defaults, the option
differs from its default 1 but the command line carries no `-r`; the code
prints the flag only for a redundancy greater than 1. -/
theorem commandLine_redundancy_below_default_has_no_r :
    (0 : Int) ≠ gDefaultRedundancy
      ∧ commandLineArgs { exampleWindow.m_ui with redundancySpinBox := 0 }
          = [Arg.c "192.168.1.20"]
      ∧ commandLineFromCurrentOptions (fun _ => "")
          { exampleWindow.m_ui with redundancySpinBox := 0 }
        = "qjacktrip -c 192.168.1.20" := by
  decide

/-- C20 (amended): in every run mode other than `Hub Server` the pieces
`-n N`, `-q N`, `-B PORT` and `-b BITS` are on the command line exactly when
the option differs from its default (2 channels, queue length 4, local port
4464, 16 bits), and `-r N` exactly when the redundancy is greater than 1,
which for a redundancy of at least 1 is exactly when it differs from the
default 1, while a redundancy below 1 prints no `-r`; each piece carries the
current value of the option, the command line is the text of the pieces in
their order, and each piece is printed as the flag followed by that value. -/
theorem commandLine_flags_follow_option_tests (ui : Ui)
    (h : ui.typeComboBox ≠ "Hub Server") :
    (∀ N, Arg.n N ∈ commandLineArgs ui ↔ ui.channelSpinBox ≠ 2 ∧ N = ui.channelSpinBox)
      ∧ (∀ N, Arg.q N ∈ commandLineArgs ui
          ↔ ui.queueLengthSpinBox ≠ 4 ∧ N = ui.queueLengthSpinBox)
      ∧ (∀ N, Arg.B N ∈ commandLineArgs ui ↔ ui.localPortSpinBox ≠ 4464 ∧ N = ui.localPortSpinBox)
      ∧ (∀ N, Arg.r N ∈ commandLineArgs ui ↔ ui.redundancySpinBox > 1 ∧ N = ui.redundancySpinBox)
      ∧ (if 1 ≤ ui.redundancySpinBox then
          ∀ N, Arg.r N ∈ commandLineArgs ui
            ↔ ui.redundancySpinBox ≠ 1 ∧ N = ui.redundancySpinBox
        else ∀ N, Arg.r N ∉ commandLineArgs ui)
      ∧ (∀ bits, Arg.b bits ∈ commandLineArgs ui
          ↔ ui.resolutionText ≠ "16" ∧ bits = ui.resolutionText)
      ∧ (∀ argDouble,
          commandLineFromCurrentOptions argDouble ui
            = "qjacktrip" ++ String.join ((commandLineArgs ui).map (Arg.render argDouble)))
      ∧ (∀ argDouble (N : Int) bits,
          Arg.render argDouble (Arg.n N) = " -n " ++ toString N
            ∧ Arg.render argDouble (Arg.q N) = " -q " ++ toString N
            ∧ Arg.render argDouble (Arg.B N) = " -B " ++ toString N
            ∧ Arg.render argDouble (Arg.r N) = " -r " ++ toString N
            ∧ Arg.render argDouble (Arg.b bits) = " -b " ++ bits) := by
  have hm := mode_piece (ui.typeComboBox = "Client") (ui.typeComboBox = "Server")
    (ui.typeComboBox = "Hub Client") ui.addressEdit
  have hr : ∀ N, Arg.r N ∈ commandLineArgs ui
      ↔ ui.redundancySpinBox > 1 ∧ N = ui.redundancySpinBox := by
    intro N
    unfold commandLineArgs
    rcases hm with hm | hm | hm | hm <;> rw [hm] <;>
      simp [h, mem_optional]
  refine ⟨fun N => ?_, fun N => ?_, fun N => ?_, hr, ?_, fun bits => ?_, fun _ => rfl,
    fun _ _ _ => ⟨rfl, rfl, rfl, rfl, rfl⟩⟩
  · unfold commandLineArgs
    rcases hm with hm | hm | hm | hm <;> rw [hm] <;>
      simp [h, gDefaultNumInChannels, mem_optional]
  · unfold commandLineArgs
    rcases hm with hm | hm | hm | hm <;> rw [hm] <;>
      simp [h, gDefaultQueueLength, mem_optional]
  · unfold commandLineArgs
    rcases hm with hm | hm | hm | hm <;> rw [hm] <;>
      simp [h, gDefaultPort, mem_optional]
  · by_cases h1 : 1 ≤ ui.redundancySpinBox
    · rw [if_pos h1]
      intro N
      rw [hr N]
      constructor
      · rintro ⟨a, b⟩
        exact ⟨by omega, b⟩
      · rintro ⟨a, b⟩
        exact ⟨by omega, b⟩
    · rw [if_neg h1]
      intro N hN
      have := ((hr N).1 hN).1
      omega
  · unfold commandLineArgs
    rcases hm with hm | hm | hm | hm <;> rw [hm] <;>
      simp [h, mem_optional]

/-- The theorem `commandLine_flags_follow_option_tests` at a window in client
mode with one channel and the other options at their defaults: `-n 1` is on
the command line, `-q` and `-r` are not. -/
theorem commandLine_flags_follow_option_tests_witness :
    Arg.n 1 ∈ commandLineArgs { exampleWindow.m_ui with channelSpinBox := 1 }
      ∧ Arg.q 4 ∉ commandLineArgs { exampleWindow.m_ui with channelSpinBox := 1 }
      ∧ Arg.r 1 ∉ commandLineArgs { exampleWindow.m_ui with channelSpinBox := 1 } :=
  have hw :=
    commandLine_flags_follow_option_tests { exampleWindow.m_ui with channelSpinBox := 1 }
      (by decide)
  ⟨(hw.1 1).2 ⟨by decide, rfl⟩, fun hq => ((hw.2.1 4).1 hq).1 rfl,
    fun hq => absurd ((hw.2.2.2.1 1).1 hq).1 (by decide)⟩

/-- C21, as stated, fails when the local port is not the default: in hub-server
mode with the local port 4465 and the base port at its default 61002 the
command line carries `-U 61002`, and with the base port 61003 it carries no
`-U` although 61003 differs from 61002. -/
theorem commandLine_base_port_default_follows_local_port :
    commandLineArgs
        { exampleWindow.m_ui with
          typeComboBox := "Hub Server", localPortSpinBox := 4465, basePortSpinBox := 61002 }
        = [Arg.S, Arg.B 4465, Arg.U 61002]
      ∧ commandLineArgs
          { exampleWindow.m_ui with
            typeComboBox := "Hub Server", localPortSpinBox := 4465, basePortSpinBox := 61003 }
        = [Arg.S, Arg.B 4465] := by
  decide

/-- C21 (amended): in hub-server mode `-U PORT` is on the command line exactly
when the base port differs from `61002 + (local port - 4464)`, the default base
port moved by the offset of the local port from its default, and it carries
the base port; with the local port at its default 4464 this is exactly when
the base port differs from 61002.  The command line is the text of the pieces
in their order; in this mode it is `qjacktrip -S` followed by `-z`, `-p`, `-q`,
`-B` and `-U`, each with its number and only when its test holds. -/
theorem commandLine_base_port_iff_not_offset_default (ui : Ui)
    (h : ui.typeComboBox = "Hub Server") :
    (∀ N, Arg.U N ∈ commandLineArgs ui
        ↔ ui.basePortSpinBox ≠ 61002 + (ui.localPortSpinBox - 4464) ∧ N = ui.basePortSpinBox)
      ∧ (∀ argDouble (N : Int), Arg.render argDouble (Arg.U N) = " -U " ++ toString N)
      ∧ (if ui.localPortSpinBox = 4464 then
          ∀ N, Arg.U N ∈ commandLineArgs ui
            ↔ ui.basePortSpinBox ≠ 61002 ∧ N = ui.basePortSpinBox
        else True)
      ∧ (∀ argDouble,
          commandLineFromCurrentOptions argDouble ui
            = "qjacktrip" ++ String.join ((commandLineArgs ui).map (Arg.render argDouble)))
      ∧ (∀ argDouble,
          commandLineFromCurrentOptions argDouble ui
            = "qjacktrip" ++ " -S"
              ++ (if ui.zeroCheckBox = true then " -z" else "")
              ++ (if (if ui.autoPatchComboBox > 2 then ui.autoPatchComboBox + 1
                      else ui.autoPatchComboBox) > 0 then
                    " -p " ++ toString (if ui.autoPatchComboBox > 2 then ui.autoPatchComboBox + 1
                      else ui.autoPatchComboBox)
                  else "")
              ++ (if ui.queueLengthSpinBox ≠ 4 then " -q " ++ toString ui.queueLengthSpinBox
                  else "")
              ++ (if ui.localPortSpinBox ≠ 4464 then " -B " ++ toString ui.localPortSpinBox
                  else "")
              ++ (if ui.basePortSpinBox ≠ 61002 + (ui.localPortSpinBox - 4464) then
                    " -U " ++ toString ui.basePortSpinBox
                  else "")) := by
  have hm := mode_piece (ui.typeComboBox = "Client") (ui.typeComboBox = "Server")
    (ui.typeComboBox = "Hub Client") ui.addressEdit
  have hc : endsWithClient ui.typeComboBox = false := by rw [h]; decide
  have key : ∀ N, Arg.U N ∈ commandLineArgs ui
      ↔ ui.basePortSpinBox ≠ 61002 + (ui.localPortSpinBox - 4464) ∧ N = ui.basePortSpinBox := by
    intro N
    unfold commandLineArgs
    rcases hm with hm | hm | hm | hm <;> rw [hm] <;>
      simp [h, hc, gDefaultPort, mem_optional]
  refine ⟨key, fun _ _ => rfl, ?_, fun _ => rfl,
    fun argDouble => hub_commandLine_text argDouble ui h⟩
  by_cases hl : ui.localPortSpinBox = 4464
  · rw [if_pos hl]
    intro N
    rw [key N, hl]
    norm_num
  · rw [if_neg hl]
    trivial

/-- The theorem `commandLine_base_port_iff_not_offset_default` at a hub server
on the local port 4465 with the base port 61003: no `-U` is printed. -/
theorem commandLine_base_port_iff_not_offset_default_witness :
    Arg.U 61003 ∉ commandLineArgs
      { exampleWindow.m_ui with
        typeComboBox := "Hub Server", localPortSpinBox := 4465, basePortSpinBox := 61003 } :=
  fun hU =>
    (((commandLine_base_port_iff_not_offset_default
      { exampleWindow.m_ui with
        typeComboBox := "Hub Server", localPortSpinBox := 4465, basePortSpinBox := 61003 }
      rfl).1 61003).1 hU).1 (by decide)

/-- In hub-server mode `start` creates the listener with the calls `hubCalls`
of the options; in every other mode it creates the session with the calls
`jackTripCalls`. -/
theorem start_calls (self : QJackTrip) (thrown : Option String) :
    if self.m_ui.typeComboBox = "Hub Server" then
      (self.start thrown).m_udpHub = some (hubCalls self.m_ui)
    else (self.start thrown).m_jackTrip = some (jackTripCalls self.m_ui) := by
  by_cases h : self.m_ui.typeComboBox = "Hub Server"
  · rw [if_pos h]
    cases thrown <;> simp [QJackTrip.start, QJackTrip.enableUi, h] <;> rfl
  · rw [if_neg h]
    cases thrown <;> simp [QJackTrip.start, QJackTrip.enableUi, h] <;> rfl

/-- C22: in hub-server mode `start` hands the listener the adjusted auto-patch
index as hub patch mode and makes exactly one call of
`setConnectDefaultAudioPorts`: with `false` exactly when that mode is NOAUTO,
with `true` for every other mode. -/
theorem start_hub_connects_audio_unless_noauto (self : QJackTrip) (thrown : Option String)
    (h : self.m_ui.typeComboBox = "Hub Server") :
    ∃ calls hubConnectionMode,
      (self.start thrown).m_udpHub = some calls
        ∧ hubConnectionMode
            = (if self.m_ui.autoPatchComboBox > 2 then self.m_ui.autoPatchComboBox + 1
              else self.m_ui.autoPatchComboBox)
        ∧ (∀ mode, UdpHubCall.setHubPatch mode ∈ calls ↔ mode = hubConnectionMode)
        ∧ (UdpHubCall.setConnectDefaultAudioPorts false ∈ calls ↔ hubConnectionMode = NOAUTO)
        ∧ (UdpHubCall.setConnectDefaultAudioPorts true ∈ calls ↔ hubConnectionMode ≠ NOAUTO)
        ∧ calls.count (UdpHubCall.setConnectDefaultAudioPorts false)
            + calls.count (UdpHubCall.setConnectDefaultAudioPorts true) = 1 := by
  have hs := start_calls self thrown
  rw [if_pos h] at hs
  refine ⟨hubCalls self.m_ui, _, hs, rfl, ?_, ?_, ?_, ?_⟩
  · intro mode
    unfold hubCalls
    by_cases hn : (if self.m_ui.autoPatchComboBox > 2 then self.m_ui.autoPatchComboBox + 1
        else self.m_ui.autoPatchComboBox) = NOAUTO <;>
      simp [hn, mem_optional]
  · unfold hubCalls
    by_cases hn : (if self.m_ui.autoPatchComboBox > 2 then self.m_ui.autoPatchComboBox + 1
        else self.m_ui.autoPatchComboBox) = NOAUTO <;>
      simp [hn, mem_optional]
  · unfold hubCalls
    by_cases hn : (if self.m_ui.autoPatchComboBox > 2 then self.m_ui.autoPatchComboBox + 1
        else self.m_ui.autoPatchComboBox) = NOAUTO <;>
      simp [hn, mem_optional]
  · unfold hubCalls
    by_cases hn : (if self.m_ui.autoPatchComboBox > 2 then self.m_ui.autoPatchComboBox + 1
        else self.m_ui.autoPatchComboBox) = NOAUTO <;>
      by_cases hz : self.m_ui.zeroCheckBox = true <;>
      by_cases hi : self.m_ui.ioStatsCheckBox = true <;>
      simp [hn, hz, hi, List.count_cons, List.count_append]

/-- The theorem `start_hub_connects_audio_unless_noauto` at a hub server with
the auto-patch index 4, which is the mode 5, NOAUTO: the listener is told not
to connect the default audio ports. -/
theorem start_hub_connects_audio_unless_noauto_witness :
    ∃ calls hubConnectionMode,
      (QJackTrip.start
          { exampleWindow with
            m_ui := { exampleWindow.m_ui with
              typeComboBox := "Hub Server", autoPatchComboBox := 4 } } none).m_udpHub
          = some calls
        ∧ hubConnectionMode = (if (4 : Int) > 2 then 4 + 1 else 4)
        ∧ (UdpHubCall.setConnectDefaultAudioPorts false ∈ calls ↔ hubConnectionMode = NOAUTO) :=
  have hw :=
    start_hub_connects_audio_unless_noauto
      { exampleWindow with
        m_ui := { exampleWindow.m_ui with typeComboBox := "Hub Server", autoPatchComboBox := 4 } }
      none rfl
  hw.elim fun calls hc => hc.elim fun hubConnectionMode hm =>
    ⟨calls, hubConnectionMode, hm.1, hm.2.1, hm.2.2.2.1⟩

/-- C24: with one physical capture port, whose array is the name and the
terminating NULL at index 1, and three input channels, `connectDefaultPorts`
evaluates `ports[2]`, the word after the terminator, and connects whatever
that word holds to `send_3`.  With two channels it stops at the terminator
and makes the one connection of the claim. -/
theorem connectDefaultPorts_reads_past_terminator :
    portArray ["system:capture_1"] [some "stale"]
        = [some "system:capture_1", none, some "stale"]
      ∧ (JackAudioInterface.new 3 3 BIT16).connectDefaultPorts
          (some (portArray ["system:capture_1"] [some "stale"])) none
        = [PortEvent.read true 0,
            PortEvent.jack_connect (some "system:capture_1") (some "send_1"),
            PortEvent.read true 1,
            PortEvent.read true 2,
            PortEvent.jack_connect (some "stale") (some "send_3"),
            PortEvent.warning "WARING: Cannot find any physical playback ports"]
      ∧ readIndices true
          ((JackAudioInterface.new 3 3 BIT16).connectDefaultPorts
            (some (portArray ["system:capture_1"] [some "stale"])) none)
        = [0, 1, 2]
      ∧ (JackAudioInterface.new 2 2 BIT16).connectDefaultPorts
          (some (portArray ["system:capture_1"] [some "stale"])) none
        = [PortEvent.read true 0,
            PortEvent.jack_connect (some "system:capture_1") (some "send_1"),
            PortEvent.read true 1,
            PortEvent.warning "WARING: Cannot find any physical playback ports"] := by
  decide

/-- With at least as many output as input channels every index is inside its
vector. -/
theorem indices_inside_when_inputs_fit (self : JackAudioInterface)
    (h : self.mNumInChans.toNat ≤ self.mNumOutChans.toNat) :
    ∀ a ∈ self.processCallbackIndices, a.2 < self.vectorSize a.1 := by
  intro a ha
  simp only [JackAudioInterface.processCallbackIndices, JackAudioInterface.fromNetworkIndices,
    JackAudioInterface.toNetworkIndices, List.mem_append, List.mem_map, List.mem_flatMap,
    List.mem_range, List.mem_cons, List.mem_singleton, List.not_mem_nil, or_false] at ha
  rcases ha with ((((⟨i, hi, rfl⟩ | ⟨i, hi, rfl⟩) | ⟨i, hi, rfl⟩) | ⟨i, hi, rfl | rfl | rfl⟩)
    | ⟨i, hi, rfl⟩) | ⟨i, hi, rfl | rfl⟩ <;>
    simp only [JackAudioInterface.vectorSize] <;> omega

/-- C25: with two input channels and one output channel the loop of
`processCallback` that fills the plugin input scratch uses `mOutBuffer[1]`,
and `computeNetworkProcessToNetwork` uses `mOutProcessBuffer[1]`, while
`setupClient` gave both vectors the size 1.  The indices on `mInBuffer` and
`mInProcessBuffer` are inside these vectors. -/
theorem callback_indexes_out_vectors_by_input_count :
    (JackAudioInterface.new 2 1 BIT16).vectorSize BufferVector.mOutBuffer = 1
      ∧ (JackAudioInterface.new 2 1 BIT16).vectorSize BufferVector.mOutProcessBuffer = 1
      ∧ (BufferVector.mOutBuffer, 1) ∈ (JackAudioInterface.new 2 1 BIT16).processCallbackIndices
      ∧ (BufferVector.mOutProcessBuffer, 1)
          ∈ (JackAudioInterface.new 2 1 BIT16).toNetworkIndices
      ∧ (JackAudioInterface.new 2 1 BIT16).processCallbackIndices.filter
          (fun a => decide ((JackAudioInterface.new 2 1 BIT16).vectorSize a.1 ≤ a.2))
        = [(BufferVector.mOutBuffer, 1), (BufferVector.mOutProcessBuffer, 1)] := by
  decide

/-- The byte of the `int8_t` read from a byte is that byte. -/
theorem byteOf_int8At (b0 : Nat) (h0 : b0 < 256) : byteOf (int8At [b0]) = b0 := by
  simp only [byteOf, int8At, toInt8, List.getD_cons_zero]
  omega

/-- The two bytes of the `int16_t` read from two bytes are these bytes. -/
theorem bytesOfInt16_int16At (b0 b1 : Nat) (rest : List Nat) (h0 : b0 < 256) (h1 : b1 < 256) :
    bytesOfInt16 (int16At (b0 :: b1 :: rest)) = [b0, b1] := by
  simp only [bytesOfInt16, int16At, toInt16, List.getD_cons_zero, List.getD_cons_succ]
  have e0 : ((((b0 % 256 + 256 * (b1 % 256) : Nat) : Int) + 32768) % 65536 - 32768) % 65536
      = ((b0 + 256 * b1 : Nat) : Int) := by omega
  rw [e0, Int.toNat_ofNat]
  have e1 : (b0 + 256 * b1) % 256 = b0 := by omega
  have e2 : (b0 + 256 * b1) / 256 = b1 := by omega
  rw [e1, e2]

/-- The byte of the `uint8_t` read from a byte is that byte. -/
theorem byteOf_uint8At (b2 : Nat) (h2 : b2 < 256) : byteOf (toUInt8 (uint8At [b2])) = b2 := by
  simp only [byteOf, uint8At, toUInt8, List.getD_cons_zero]
  omega

/-- The 8-bit encoding of the sample `v / 128`, for an `int8_t` value `v`. -/
theorem encode8_of_units (w : Nat) (v : Int) (hw : ofBits w = FVal.fin (v * 2 ^ 142))
    (h1 : -128 ≤ v) (h2 : v ≤ 127) : fromSampleToBitConversion w BIT8 = [byteOf v] := by
  have e : v * 2 ^ 142 * ((128 : Nat) : Int) / ((one : Nat) : Int) = v := by
    rw [one_cast]; norm_num; omega
  have ht : (v * 2 ^ 142 * ((128 : Nat) : Int) / ((one : Nat) : Int)).natAbs < 2 ^ 24 := by
    rw [e]; norm_num; omega
  have hq := quantized (v * 2 ^ 142) 128 ht
  rw [e] at hq
  simp only [fromSampleToBitConversion, static_cast_int8, hw, hq, (int8_bytes v h1 h2).1]

/-- The 16-bit encoding of the sample `v / 32768`, for an `int16_t` value `v`. -/
theorem encode16_of_units (w : Nat) (v : Int) (hw : ofBits w = FVal.fin (v * 2 ^ 134))
    (h1 : -32768 ≤ v) (h2 : v ≤ 32767) : fromSampleToBitConversion w BIT16 = bytesOfInt16 v := by
  have e : v * 2 ^ 134 * ((32768 : Nat) : Int) / ((one : Nat) : Int) = v := by
    rw [one_cast]; norm_num; omega
  have ht : (v * 2 ^ 134 * ((32768 : Nat) : Int) / ((one : Nat) : Int)).natAbs < 2 ^ 24 := by
    rw [e]; norm_num; omega
  have hq := quantized (v * 2 ^ 134) 32768 ht
  rw [e] at hq
  simp only [fromSampleToBitConversion, static_cast_int16, hw, hq, (int16_bytes v h1 h2).1]

/-- The 24-bit encoding of the sample `(v + u/256) / 32768`, for an `int16_t`
value `v` and a byte `u`: every `float` step is exact. -/
theorem encode24_of_units (w : Nat) (v u : Int)
    (hw : ofBits w = FVal.fin ((256 * v + u) * 2 ^ 126))
    (h1 : -32768 ≤ v) (h2 : v ≤ 32767) (h3 : 0 ≤ u) (h4 : u ≤ 255) :
    fromSampleToBitConversion w BIT24 = bytesOfInt16 v ++ [byteOf (toUInt8 u)] := by
  have hs : (256 * v + u).natAbs < 2 ^ 24 := by norm_num; omega
  have hv : v.natAbs < 2 ^ 24 := by norm_num; omega
  have hu : u.natAbs < 2 ^ 24 := by norm_num; omega
  have e1 : (256 * v + u) * 2 ^ 126 * ((32768 : Nat) : Int) = (256 * v + u) * 2 ^ 141 := by
    push_cast; ring
  have t1 : roundF32 ((FVal.fin ((256 * v + u) * 2 ^ 126)).scale 32768)
      = FVal.fin ((256 * v + u) * 2 ^ 141) := by
    simp only [FVal.scale, e1]
    exact round_small _ 141 hs (by norm_num)
  have e2 : (256 * v + u) * 2 ^ 141 / ((one : Nat) : Int) = v := by
    rw [one_cast]; norm_num; omega
  have t2 : roundF32 (FVal.fin ((256 * v + u) * 2 ^ 141)).floor = FVal.fin (v * 2 ^ 149) := by
    simp only [FVal.floor, e2]
    rw [one_cast]
    exact round_small v 149 hv le_rfl
  have e3 : (256 * v + u) * 2 ^ 141 - v * 2 ^ 149 = u * 2 ^ 141 := by ring
  have t3 : (FVal.fin ((256 * v + u) * 2 ^ 141)).sub (FVal.fin (v * 2 ^ 149))
      = FVal.fin (u * 2 ^ 141) := by
    simp only [FVal.sub, e3]
    exact round_small u 141 hu (by norm_num)
  have e4 : u * 2 ^ 141 * ((256 : Nat) : Int) / ((one : Nat) : Int) = u := by
    rw [one_cast]; norm_num; omega
  have ht : (u * 2 ^ 141 * ((256 : Nat) : Int) / ((one : Nat) : Int)).natAbs < 2 ^ 24 := by
    rw [e4]; exact hu
  have t4 := quantized (u * 2 ^ 141) 256 ht
  rw [e4] at t4
  simp only [fromSampleToBitConversion, static_cast_int16, static_cast_uint8, hw, t1, t2, t3,
    t4, cvttss2si_int v hv, (int16_bytes v h1 h2).1]

/-- C26: decoding a wire value and encoding the result gives the wire value
back, at 8, 16 and 24 bits: for every byte, every two bytes and every three
bytes (every `int8`, every `int16`, every pair of an `int16` and an unsigned
byte). -/
theorem quantisation_idempotent_on_wire_values (b0 b1 b2 : Nat) (h0 : b0 < 256)
    (h1 : b1 < 256) (h2 : b2 < 256) :
    fromSampleToBitConversion (fromBitToSampleConversion [b0] BIT8) BIT8 = [b0]
      ∧ fromSampleToBitConversion (fromBitToSampleConversion [b0, b1] BIT16) BIT16 = [b0, b1]
      ∧ fromSampleToBitConversion (fromBitToSampleConversion [b0, b1, b2] BIT24) BIT24
          = [b0, b1, b2] := by
  refine ⟨?_, ?_, ?_⟩
  · have hr : -128 ≤ int8At [b0] ∧ int8At [b0] ≤ 127 := by
      simp only [int8At, toInt8]; omega
    have hv : (int8At [b0]).natAbs < 2 ^ 24 := by norm_num; omega
    have hd : fromBitToSampleConversion [b0] BIT8 = toBits (FVal.fin (int8At [b0] * 2 ^ 142)) := by
      simp only [fromBitToSampleConversion, decode8_units _ hr.1 hr.2]
    rw [hd, encode8_of_units _ _ (ofBits_toBits_small _ 142 hv (by norm_num)) hr.1 hr.2,
      byteOf_int8At b0 h0]
  · obtain ⟨v1, v2⟩ := int16At_range [b0, b1]
    have hv : (int16At [b0, b1]).natAbs < 2 ^ 24 := by norm_num; omega
    have hd : fromBitToSampleConversion [b0, b1] BIT16
        = toBits (FVal.fin (int16At [b0, b1] * 2 ^ 134)) := by
      simp only [fromBitToSampleConversion, decode16_units _ v1 v2]
    rw [hd, encode16_of_units _ _ (ofBits_toBits_small _ 134 hv (by norm_num)) v1 v2,
      bytesOfInt16_int16At b0 b1 [] h0 h1]
  · obtain ⟨v1, v2⟩ := int16At_range [b0, b1, b2]
    obtain ⟨u1, u2⟩ := uint8At_range [b2]
    have hs : (256 * int16At [b0, b1, b2] + uint8At [b2]).natAbs < 2 ^ 24 := by
      norm_num; omega
    have hdrop : List.drop 2 [b0, b1, b2] = [b2] := rfl
    have hd : fromBitToSampleConversion [b0, b1, b2] BIT24
        = toBits (FVal.fin ((256 * int16At [b0, b1, b2] + uint8At [b2]) * 2 ^ 126)) := by
      simp only [fromBitToSampleConversion, hdrop, decode24_units _ _ v1 v2 u1 u2]
    rw [hd, encode24_of_units _ _ _ (ofBits_toBits_small _ 126 hs (by norm_num)) v1 v2 u1 u2,
      bytesOfInt16_int16At b0 b1 [b2] h0 h1, byteOf_uint8At b2 h2]
    rfl

/-- The theorem `quantisation_idempotent_on_wire_values` at the bytes `FF`,
`7F`, `80`: the wire values -1, 32767 and the pair (32767, 128). -/
theorem quantisation_idempotent_on_wire_values_witness :
    fromSampleToBitConversion (fromBitToSampleConversion [255] BIT8) BIT8 = [255]
      ∧ fromSampleToBitConversion (fromBitToSampleConversion [255, 127] BIT16) BIT16
          = [255, 127]
      ∧ fromSampleToBitConversion (fromBitToSampleConversion [255, 127, 128] BIT24) BIT24
          = [255, 127, 128] :=
  quantisation_idempotent_on_wire_values 255 127 128 (by decide) (by decide) (by decide)

/-- C27: the sample `x = -2^-41` lies in `[-1, 1)`, but its 24-bit round trip
is `y = -2^-15`: the remainder is computed as a `float` and rounds to `1.0`,
the third byte wraps to 0, and `x - y = 2^-15 - 2^-41` is not below `2^-23`. -/
theorem bit24_round_trip_error_exceeds_bound :
    sampleValue 0xAB000000 = some (-(1 / 2 ^ 41))
      ∧ fromSampleToBitConversion 0xAB000000 BIT24 = [255, 255, 0]
      ∧ roundTrip 0xAB000000 BIT24 = 0xB8000000
      ∧ sampleValue (roundTrip 0xAB000000 BIT24) = some (-(1 / 2 ^ 15))
      ∧ (-1 : ℚ) ≤ -(1 / 2 ^ 41) ∧ (-(1 / 2 ^ 41) : ℚ) < 1
      ∧ ¬ ((-(1 / 2 ^ 41) : ℚ) - (-(1 / 2 ^ 15)) < 1 / 2 ^ 23) := by
  have h0 : ofBits 0xAB000000 = FVal.fin (-2 ^ 108) := by decide
  have hr : roundTrip 0xAB000000 BIT24 = 0xB8000000 := by decide
  have h1 : ofBits 0xB8000000 = FVal.fin (-2 ^ 134) := by decide
  refine ⟨?_, by decide, hr, ?_, by norm_num, by norm_num, by norm_num⟩
  · rw [sampleValue_of_fin _ _ h0]; norm_num
  · rw [hr, sampleValue_of_fin _ _ h1]; norm_num

/-- The adjustment in the words of the specification is strictly increasing. -/
theorem autoPatchAdjustment_strictMono : StrictMono autoPatchAdjustment := by
  intro i j hij
  unfold autoPatchAdjustment
  split_ifs <;> omega

/-- C28: the adjustment of the auto-patch index (`i` for `i ≤ 2`, `i + 1`
otherwise) is strictly increasing and never yields 3; in hub-server mode, for
a non-negative index, `start` passes the adjusted index to `setHubPatch`, the
command line prints the same number after `-p`, and `-p` is left out exactly
when that mode is 0: the text of the command line is `qjacktrip -S`, then
` -z` when the zero-underrun option is checked, then ` -p ` and the adjusted
index when it is not 0, then the `-q`, `-B` and `-U` flags. -/
theorem hub_patch_mode_is_adjusted_index (self : QJackTrip) (thrown : Option String)
    (h : self.m_ui.typeComboBox = "Hub Server") (h0 : 0 ≤ self.m_ui.autoPatchComboBox) :
    StrictMono autoPatchAdjustment
      ∧ (∀ i, autoPatchAdjustment i ≠ 3)
      ∧ (∃ calls, (self.start thrown).m_udpHub = some calls
          ∧ ∀ mode, UdpHubCall.setHubPatch mode ∈ calls
            ↔ mode = autoPatchAdjustment self.m_ui.autoPatchComboBox)
      ∧ (∀ mode, Arg.p mode ∈ commandLineArgs self.m_ui
          ↔ autoPatchAdjustment self.m_ui.autoPatchComboBox ≠ 0
            ∧ mode = autoPatchAdjustment self.m_ui.autoPatchComboBox)
      ∧ (∀ argDouble (mode : Int), Arg.render argDouble (Arg.p mode) = " -p " ++ toString mode)
      ∧ (∀ argDouble,
          commandLineFromCurrentOptions argDouble self.m_ui
            = "qjacktrip"
              ++ String.join ((commandLineArgs self.m_ui).map (Arg.render argDouble)))
      ∧ (∀ argDouble,
          commandLineFromCurrentOptions argDouble self.m_ui
            = "qjacktrip" ++ " -S"
              ++ (if self.m_ui.zeroCheckBox = true then " -z" else "")
              ++ (if autoPatchAdjustment self.m_ui.autoPatchComboBox ≠ 0 then
                    " -p " ++ toString (autoPatchAdjustment self.m_ui.autoPatchComboBox)
                  else "")
              ++ (if self.m_ui.queueLengthSpinBox ≠ 4 then
                    " -q " ++ toString self.m_ui.queueLengthSpinBox
                  else "")
              ++ (if self.m_ui.localPortSpinBox ≠ 4464 then
                    " -B " ++ toString self.m_ui.localPortSpinBox
                  else "")
              ++ (if self.m_ui.basePortSpinBox ≠ 61002 + (self.m_ui.localPortSpinBox - 4464) then
                    " -U " ++ toString self.m_ui.basePortSpinBox
                  else "")) := by
  have hadj : (if self.m_ui.autoPatchComboBox > 2 then self.m_ui.autoPatchComboBox + 1
      else self.m_ui.autoPatchComboBox) = autoPatchAdjustment self.m_ui.autoPatchComboBox := by
    unfold autoPatchAdjustment
    split_ifs <;> omega
  have hpos : autoPatchAdjustment self.m_ui.autoPatchComboBox > 0
      ↔ autoPatchAdjustment self.m_ui.autoPatchComboBox ≠ 0 := by
    unfold autoPatchAdjustment
    split_ifs <;> omega
  refine ⟨autoPatchAdjustment_strictMono, ?_, ?_, ?_, fun _ _ => rfl, fun _ => rfl, ?_⟩
  · intro i
    unfold autoPatchAdjustment
    split_ifs <;> omega
  · have hs := start_calls self thrown
    rw [if_pos h] at hs
    refine ⟨_, hs, fun mode => ?_⟩
    unfold hubCalls
    simp only [hadj]
    by_cases hn : autoPatchAdjustment self.m_ui.autoPatchComboBox = NOAUTO <;>
      simp [hn, mem_optional]
  · intro mode
    have hm := mode_piece (self.m_ui.typeComboBox = "Client") (self.m_ui.typeComboBox = "Server")
      (self.m_ui.typeComboBox = "Hub Client") self.m_ui.addressEdit
    have hc : endsWithClient self.m_ui.typeComboBox = false := by rw [h]; decide
    unfold commandLineArgs
    simp only [hadj]
    rcases hm with hm | hm | hm | hm <;> rw [hm] <;>
      simp [h, hc, mem_optional, hpos]
  · intro argDouble
    rw [hub_commandLine_text argDouble self.m_ui h, hadj]
    simp only [hpos]

/-- The theorem `hub_patch_mode_is_adjusted_index` at a hub server with the
auto-patch index 3: the mode 4 is passed to `setHubPatch` and `-p 4` is on the
command line. -/
theorem hub_patch_mode_is_adjusted_index_witness :
    Arg.p 4 ∈ commandLineArgs
      { exampleWindow.m_ui with typeComboBox := "Hub Server", autoPatchComboBox := 3 } :=
  ((hub_patch_mode_is_adjusted_index
    { exampleWindow with
      m_ui := { exampleWindow.m_ui with typeComboBox := "Hub Server", autoPatchComboBox := 3 } }
    none rfl (by decide)).2.2.2.1 4).2 ⟨by decide, by decide⟩

/-- C29: in client mode, with both inbound wetness sliders at 30, the state
with Freeverb checked and the state with Zitarev checked give the same command
line, `-f "i:f(...)"`, but `appendPlugins` creates a reverb of level 0.30 for
the first and of level 1.30 for the second. -/
theorem commandLine_does_not_tell_freeverb_from_zitarev :
    commandLineArgs
        { exampleWindow.m_ui with
          inFreeverbCheckBox := true, inFreeverbWetnessSlider := 30,
          inZitarevWetnessSlider := 30 }
        = [Arg.c "192.168.1.20", Arg.f (some [PluginSpec.f 30]) none]
      ∧ commandLineArgs
          { exampleWindow.m_ui with
            inZitarevCheckBox := true, inFreeverbWetnessSlider := 30,
            inZitarevWetnessSlider := 30 }
        = [Arg.c "192.168.1.20", Arg.f (some [PluginSpec.f 30]) none]
      ∧ (∀ argDouble,
          commandLineFromCurrentOptions argDouble
              { exampleWindow.m_ui with
                inFreeverbCheckBox := true, inFreeverbWetnessSlider := 30,
                inZitarevWetnessSlider := 30 }
            = commandLineFromCurrentOptions argDouble
                { exampleWindow.m_ui with
                  inZitarevCheckBox := true, inFreeverbWetnessSlider := 30,
                  inZitarevWetnessSlider := 30 })
      ∧ appendPlugins
          { exampleWindow.m_ui with
            inFreeverbCheckBox := true, inFreeverbWetnessSlider := 30,
            inZitarevWetnessSlider := 30 } 2
        = [JackTripCall.appendProcessPluginFromNetwork (ProcessPluginObject.Reverb 2 2 30)]
      ∧ appendPlugins
          { exampleWindow.m_ui with
            inZitarevCheckBox := true, inFreeverbWetnessSlider := 30,
            inZitarevWetnessSlider := 30 } 2
        = [JackTripCall.appendProcessPluginFromNetwork (ProcessPluginObject.Reverb 2 2 130)] := by
  have h1 : commandLineArgs
        { exampleWindow.m_ui with
          inFreeverbCheckBox := true, inFreeverbWetnessSlider := 30,
          inZitarevWetnessSlider := 30 }
        = [Arg.c "192.168.1.20", Arg.f (some [PluginSpec.f 30]) none] := by decide
  have h2 : commandLineArgs
        { exampleWindow.m_ui with
          inZitarevCheckBox := true, inFreeverbWetnessSlider := 30,
          inZitarevWetnessSlider := 30 }
        = [Arg.c "192.168.1.20", Arg.f (some [PluginSpec.f 30]) none] := by decide
  refine ⟨h1, h2, fun argDouble => ?_, by decide, by decide⟩
  unfold commandLineFromCurrentOptions
  rw [h1, h2]

/-- The function `stop` changes neither of the two flags nor the events. -/
theorem stop_flags (self : QJackTrip) :
    self.stop.m_isExiting = self.m_isExiting
      ∧ self.stop.m_jackTripRunning = self.m_jackTripRunning
      ∧ self.stop.events = self.events := by
  by_cases h : self.m_ui.typeComboBox = "Hub Server"
  · simp [QJackTrip.stop, h]
  · simp [QJackTrip.stop, h]

/-- After `exit` the window is exiting. -/
theorem exit_isExiting (self : QJackTrip) : self.exit.m_isExiting = true := by
  by_cases he : self.m_isExiting = true
  · simp [QJackTrip.exit, he]
  · by_cases hr : self.m_jackTripRunning = true
    · by_cases ht : self.m_ui.typeComboBox = "Hub Server"
      · simp [QJackTrip.exit, QJackTrip.stop, he, hr, ht]
      · simp [QJackTrip.exit, QJackTrip.stop, he, hr, ht]
    · simp [QJackTrip.exit, he, hr]

/-- C30: a call of `exit` on a window that is already exiting changes
nothing, and after any call of `exit` the window is exiting, so a second call
changes nothing; `start`, `stop`, `processFinished` and `processError` leave
the exiting flag as it is.  The first call saves the settings and then, when
no session is running, emits `signalExit` at once; when a session is running
it calls `stop` and emits nothing, and the next `processFinished` emits
`signalExit`.  A `processFinished` while no session is running changes
nothing. -/
theorem exit_runs_once (self : QJackTrip) (thrown : Option String) (errorMessage : String) :
    self.exit.exit = self.exit
      ∧ self.exit.m_isExiting = true
      ∧ (self.start thrown).m_isExiting = self.m_isExiting
      ∧ self.stop.m_isExiting = self.m_isExiting
      ∧ self.processFinished.m_isExiting = self.m_isExiting
      ∧ (self.processError errorMessage).m_isExiting = self.m_isExiting
      ∧ (if self.m_isExiting = true then self.exit = self
        else if self.m_jackTripRunning = true then
          self.exit
              = QJackTrip.stop
                  { self with
                    m_isExiting := true
                    m_ui := { self.m_ui with exitButtonEnabled := false }
                    events := self.events ++ [GuiEvent.saveSettings] }
            ∧ self.exit.events = self.events ++ [GuiEvent.saveSettings]
            ∧ self.exit.m_jackTripRunning = true
            ∧ (if self.m_ui.typeComboBox = "Hub Server" then
                self.exit.m_udpHub
                  = self.m_udpHub.map (fun calls => calls ++ [UdpHubCall.stop])
              else
                self.exit.m_jackTrip
                  = self.m_jackTrip.map (fun calls => calls ++ [JackTripCall.stop]))
            ∧ self.exit.processFinished.events
                = self.events ++ [GuiEvent.saveSettings, GuiEvent.signalExit]
            ∧ self.exit.processFinished.m_jackTripRunning = false
        else
          self.exit
            = { self with
                m_isExiting := true
                m_ui := { self.m_ui with exitButtonEnabled := false }
                events := self.events ++ [GuiEvent.saveSettings, GuiEvent.signalExit] })
      ∧ (if self.m_jackTripRunning = true then True else self.processFinished = self) := by
  have hfin : self.processFinished.m_isExiting = self.m_isExiting := by
    unfold QJackTrip.processFinished
    simp only [QJackTrip.enableUi]
    split_ifs <;> rfl
  refine ⟨?_, exit_isExiting self, ?_, (stop_flags self).1, hfin, ?_, ?_, ?_⟩
  · have he := exit_isExiting self
    generalize self.exit = t at he
    unfold QJackTrip.exit
    rw [if_pos he]
  · unfold QJackTrip.start
    simp only [QJackTrip.enableUi]
    cases thrown <;> split_ifs <;> rfl
  · unfold QJackTrip.processError QJackTrip.processFinished
    simp only [QJackTrip.enableUi]
    split_ifs <;> rfl
  · by_cases he : self.m_isExiting = true
    · rw [if_pos he]
      unfold QJackTrip.exit
      rw [if_pos he]
    · rw [if_neg he]
      have hx : self.m_isExiting = false := by
        cases h : self.m_isExiting
        · rfl
        · exact absurd h he
      by_cases hr : self.m_jackTripRunning = true
      · rw [if_pos hr]
        have e1 : self.exit
            = QJackTrip.stop
                { self with
                  m_isExiting := true
                  m_ui := { self.m_ui with exitButtonEnabled := false }
                  events := self.events ++ [GuiEvent.saveSettings] } := by
          unfold QJackTrip.exit
          rw [if_neg he]
          simp only [hr, if_true]
        refine ⟨e1, ?_, ?_, ?_, ?_, ?_⟩
        · rw [e1, (stop_flags _).2.2]
        · rw [e1, (stop_flags _).2.1]; exact hr
        · rw [e1]
          by_cases ht : self.m_ui.typeComboBox = "Hub Server"
          · simp [QJackTrip.stop, ht]
          · simp [QJackTrip.stop, ht]
        · rw [e1]
          by_cases ht : self.m_ui.typeComboBox = "Hub Server"
          · by_cases hi : self.m_ui.ioStatsCheckBox = true
            · simp [QJackTrip.stop, QJackTrip.processFinished, QJackTrip.enableUi, ht, hr, hi]
            · simp [QJackTrip.stop, QJackTrip.processFinished, QJackTrip.enableUi, ht, hr, hi]
          · by_cases hi : self.m_ui.ioStatsCheckBox = true
            · simp [QJackTrip.stop, QJackTrip.processFinished, QJackTrip.enableUi, ht, hr, hi]
            · simp [QJackTrip.stop, QJackTrip.processFinished, QJackTrip.enableUi, ht, hr, hi]
        · exact processFinished_not_running _
      · rw [if_neg hr]
        unfold QJackTrip.exit
        rw [if_neg he]
        simp only [hr]
        simp
  · by_cases hr : self.m_jackTripRunning = true
    · rw [if_pos hr]; trivial
    · rw [if_neg hr]
      unfold QJackTrip.processFinished
      rw [if_pos (by simpa using hr)]

end JackTrip
